import Mathlib

/-!
# Flip 7 simulator: rules engine, strategies and driver

A shallow embedding of `internal/game/game.go` (cards, player state, the deck
with its shuffle, drawing, hitting, Flip 7 detection and scoring), of the
strategies of `internal/algorithms` and of the driver and the result table of
`internal/simulator/simulator.go`.

Modelling conventions.
* Go `int` is the 64-bit two's complement integer. A value of that type is an
  `Int`, and every addition, subtraction and doubling of the source is followed
  by `wrap64`, which reduces the exact result into the range `-2^63 .. 2^63 - 1`
  as the machine does. Counters that go up by one per card of a slice
  (`remaining[v]++`) stay below the length of that slice and are not reduced.
* A `float64` is the rational it denotes (or NaN, or an infinity); conversions
  and the division round to the nearest value with a 53-bit significand, ties
  to even (`roundF64`).
* Go slices are `List`s (the engine never shares a backing array between two
  live slices, so value semantics is exact).
* The generator `*rand.Rand` is the stream of numbers it is going to produce;
  `Intn n` consumes one of them and reduces it below `n`.
* A method with a pointer receiver that mutates the game returns the new game.
* A `*Card` result is an `Option Card` (`nil` is `none`).
* A map `map[int]int` is the list of its entries; a map `map[int]bool` that
  only stores `true` is the list of its keys.
* A loop that can run forever takes the number of iterations it is allowed and
  returns `none` when they do not suffice.
-/

set_option maxRecDepth 100000

namespace Flip7

/-! ## Data model -/

/-- Card of the Flip 7 deck (`type Card struct`). -/
structure Card where
  Value : Int
  CardType : String
  Modifier : Int
  IsX2 : Bool
deriving DecidableEq

/-- Player state (`type PlayerState struct`). -/
structure PlayerState where
  ID : Int
  Cards : List Card
  Score : Int
  IsBust : Bool
  HasStood : Bool
  GameScore : Int
deriving DecidableEq

/-- The random source `*rand.Rand`: the numbers it will produce, in order. -/
structure Rng where
  stream : Nat → Nat

/-- Draw `rng.Intn(n)`: the next number of the stream reduced below `n`
(only ever called with `n > 0`, where Go does not panic). -/
def Rng.Intn (r : Rng) (n : Nat) : Nat × Rng :=
  (r.stream 0 % n, ⟨fun k => r.stream (k + 1)⟩)

/-- Game (`type Game struct`). -/
structure Game where
  Players : List PlayerState
  Deck : List Card
  DiscardPile : List Card
  rng : Rng

/-- Go zero value of `Card` with the given fields set, as in
`Card{Value: v, CardType: "number"}`. -/
def numberCard (v : Int) : Card :=
  { Value := v, CardType := "number", Modifier := 0, IsX2 := false }

/-- Literal `Card{Value: 0, CardType: "modifier", Modifier: m}`. -/
def modifierCard (m : Int) : Card :=
  { Value := 0, CardType := "modifier", Modifier := m, IsX2 := false }

/-- Literal `Card{Value: 0, CardType: "modifier", IsX2: true}`. -/
def x2Card : Card :=
  { Value := 0, CardType := "modifier", Modifier := 0, IsX2 := true }

/-- The Go `int` that an arithmetic operation with exact result `x` yields on a
64-bit machine: the result wraps around silently into `-2^63 .. 2^63 - 1`. -/
def wrap64 (x : Int) : Int :=
  (x + 2 ^ 63) % 2 ^ 64 - 2 ^ 63

/-- Whether `playerID` passes the guard
`playerID < 0 || playerID >= len(g.Players)` (true when it is rejected). -/
def outOfRange (g : Game) (playerID : Int) : Bool :=
  decide (playerID < 0) || decide (playerID ≥ (g.Players.length : Int))

/-! ## Flip 7 detection and scoring -/

/-- Body of the loop of `HasFlip7`: `uniqueValues[card.Value] = true` for a
number card. The map `map[int]bool` only ever stores `true`, so it is modelled
by its list of keys; `List.insert` adds a key only when it is absent. -/
def flip7Step (uniqueValues : List Int) (card : Card) : List Int :=
  if card.CardType = "number" then uniqueValues.insert card.Value else uniqueValues

/-- `func (g *Game) HasFlip7(playerID int) bool`. -/
def HasFlip7 (g : Game) (playerID : Int) : Bool :=
  if outOfRange g playerID then false
  else
    match g.Players[playerID.toNat]? with
    | none => false
    | some player =>
      let uniqueValues := player.Cards.foldl flip7Step []
      uniqueValues.length == 7

/-- Body of the scoring loop of `CalculateScore` over the state
`(score, hasX2)`. -/
def scoreStep (st : Int × Bool) (card : Card) : Int × Bool :=
  if card.CardType = "number" then (wrap64 (st.1 + card.Value), st.2)
  else if card.CardType = "modifier" then
    if card.IsX2 then (st.1, true) else (wrap64 (st.1 + card.Modifier), st.2)
  else st

/-- `func (g *Game) CalculateScore(playerID int) int`. -/
def CalculateScore (g : Game) (playerID : Int) : Int :=
  if outOfRange g playerID then 0
  else
    match g.Players[playerID.toNat]? with
    | none => 0
    | some player =>
      if player.IsBust then 0
      else
        let st := player.Cards.foldl scoreStep (0, false)
        let score := if st.2 then wrap64 (st.1 * 2) else st.1
        if HasFlip7 g playerID then wrap64 (score + 15) else score

/-! ## Construction, deck and shuffle -/

/-- `func NewGame(numPlayers int) *Game`, for `numPlayers >= 0` (a negative
length makes `make` panic); `r` is the freshly seeded generator. The deck and
the discard pile start as nil slices. -/
def NewGame (numPlayers : Nat) (r : Rng) : Game :=
  { Players := (List.range numPlayers).map (fun (i : Nat) =>
      { ID := (i : Int), Cards := [], Score := 0, IsBust := false, HasStood := false,
        GameScore := 0 }),
    Deck := [], DiscardPile := [], rng := r }

/-- Number of copies of a Number value in `CreateDeck`:
`count := 1; if value >= 2 { count = value }`. -/
def copiesOf (value : Nat) : Nat :=
  if value ≥ 2 then value else 1

/-- The deck `CreateDeck` builds before it shuffles: the loop over the values
0..12 with its inner loop of appends, the loop over the modifiers 1, 2, 3 with
two appends each, and the x2 card. -/
def unshuffledDeck : List Card :=
  let deck : List Card := []
  let deck := (List.range 13).foldl (fun deck value =>
    (List.range (copiesOf value)).foldl (fun deck _ => deck ++ [numberCard (value : Int)]) deck)
    deck
  let deck := [1, 2, 3].foldl (fun deck (mod : Int) =>
    (List.range 2).foldl (fun deck _ => deck ++ [modifierCard mod]) deck) deck
  deck ++ [x2Card]

/-- The tuple assignment `g.Deck[i], g.Deck[j] = g.Deck[j], g.Deck[i]`. Both
indices are inside the deck wherever the shuffle uses it; outside, Go panics
and the model leaves the deck alone. -/
def swapAt (deck : List Card) (i j : Nat) : List Card :=
  match deck[i]?, deck[j]? with
  | some a, some b => (deck.set i b).set j a
  | _, _ => deck

/-- The loop of `ShuffleDeck`, entered with the loop variable at `i`:
`for ; i > 0; i-- { j := g.rng.Intn(i + 1); swap }`. -/
def shuffleLoop : Nat → List Card → Rng → List Card × Rng
  | 0, deck, r => (deck, r)
  | i + 1, deck, r =>
    let jr := r.Intn (i + 1 + 1)
    shuffleLoop i (swapAt deck (i + 1) jr.1) jr.2

/-- `func (g *Game) ShuffleDeck()`: the loop starts at `len(g.Deck) - 1`; for an
empty deck that is `-1` and the loop does not run, as for `0`. -/
def ShuffleDeck (g : Game) : Game :=
  let dr := shuffleLoop (g.Deck.length - 1) g.Deck g.rng
  { g with Deck := dr.1, rng := dr.2 }

/-- `func (g *Game) CreateDeck()`. -/
def CreateDeck (g : Game) : Game :=
  ShuffleDeck { g with Deck := unshuffledDeck }

/-- `func (g *Game) ReshuffleDeck()`. -/
def ReshuffleDeck (g : Game) : Game :=
  ShuffleDeck { g with Deck := g.Deck ++ g.DiscardPile, DiscardPile := [] }

/-- `func (g *Game) DrawCard() *Card`: the drawn card (`none` for nil) and the
game afterwards. -/
def DrawCard (g : Game) : Option Card × Game :=
  let g1 := if g.Deck.length = 0 then ReshuffleDeck g else g
  match g1.Deck with
  | [] => (none, g1)
  | card :: rest => (some card, { g1 with Deck := rest })

/-! ## Player operations -/

/-- One iteration of the loop of `DealInitialCard`, for player index `i`. -/
def dealStep (g : Game) (i : Nat) : Game :=
  match g.Players[i]? with
  | none => g
  | some player =>
    if !player.HasStood && !player.IsBust then
      let cg := DrawCard g
      match cg.1 with
      | some card =>
        { cg.2 with Players := cg.2.Players.set i { player with Cards := player.Cards ++ [card] } }
      | none => cg.2
    else g

/-- `func (g *Game) DealInitialCard()`: `for i := range g.Players`. -/
def DealInitialCard (g : Game) : Game :=
  (List.range g.Players.length).foldl dealStep g

/-- The bust test of `PlayerHit`: the drawn card is a number card and some card
of the hand is a number card of the same value. The inner loop returns at the
first such card, and what it does there does not depend on which card it is. -/
def isDuplicate (hand : List Card) (card : Card) : Bool :=
  decide (card.CardType = "number") &&
    hand.any (fun existingCard =>
      decide (existingCard.CardType = "number") && decide (existingCard.Value = card.Value))

/-- `func (g *Game) PlayerHit(playerID int) bool`: the returned flag and the
game afterwards. `player` is the pointer `&g.Players[playerID]`, so its updates
are written back at that index; the closing Flip 7 check returns true on both
sides. -/
def PlayerHit (g : Game) (playerID : Int) : Bool × Game :=
  if outOfRange g playerID then (false, g)
  else
    match g.Players[playerID.toNat]? with
    | none => (false, g)
    | some player =>
      if player.IsBust || player.HasStood then (false, g)
      else
        let cg := DrawCard g
        match cg.1 with
        | none => (false, cg.2)
        | some card =>
          if isDuplicate player.Cards card then
            (true, { cg.2 with
              Players := cg.2.Players.set playerID.toNat
                { player with IsBust := true, Cards := [] },
              DiscardPile := cg.2.DiscardPile ++ player.Cards })
          else
            let g2 : Game := { cg.2 with
              Players := cg.2.Players.set playerID.toNat
                { player with Cards := player.Cards ++ [card] } }
            if HasFlip7 g2 playerID then (true, g2) else (true, g2)

/-- `func (g *Game) PlayerStand(playerID int)`. -/
def PlayerStand (g : Game) (playerID : Int) : Game :=
  if decide (playerID ≥ 0) && decide (playerID < (g.Players.length : Int)) then
    match g.Players[playerID.toNat]? with
    | none => g
    | some player =>
      { g with Players := g.Players.set playerID.toNat { player with HasStood := true } }
  else g

/-- The loop of `IsRoundOver` over the remaining players, with the running
count `activePlayers`. -/
def roundOverLoop (g : Game) : List PlayerState → Int → Bool
  | [], activePlayers => activePlayers == 0
  | player :: rest, activePlayers =>
    let activePlayers :=
      if !player.IsBust && !player.HasStood then activePlayers + 1 else activePlayers
    if HasFlip7 g player.ID then true else roundOverLoop g rest activePlayers

/-- `func (g *Game) IsRoundOver() bool`. -/
def IsRoundOver (g : Game) : Bool :=
  roundOverLoop g g.Players 0

/-- `func (g *Game) StartNewRound()`. -/
def StartNewRound (g : Game) : Game :=
  { g with Players := g.Players.map (fun player =>
      { player with Cards := [], IsBust := false, HasStood := false }) }

/-! ## Runs of the engine -/

/-- The public operations of the engine that can change the game. -/
inductive Op where
  | createDeck
  | dealInitialCard
  | playerHit (playerID : Int)
  | playerStand (playerID : Int)
  | startNewRound
  | drawCard
  | reshuffleDeck

/-- Apply one operation; results other than the game are dropped. -/
def applyOp (g : Game) : Op → Game
  | Op.createDeck => CreateDeck g
  | Op.dealInitialCard => DealInitialCard g
  | Op.playerHit playerID => (PlayerHit g playerID).2
  | Op.playerStand playerID => PlayerStand g playerID
  | Op.startNewRound => StartNewRound g
  | Op.drawCard => (DrawCard g).2
  | Op.reshuffleDeck => ReshuffleDeck g

/-- Apply a sequence of operations, first to last. -/
def run (g : Game) (ops : List Op) : Game :=
  ops.foldl applyOp g

/-! ## Strategies (`internal/algorithms`) -/

/-- Decision of a strategy (`type Decision struct`): `Action` is "hit" or
"stand". -/
structure Decision where
  Action : String
deriving DecidableEq

/-- Snapshot handed to the strategies (`type GameState struct`). -/
structure GameState where
  Players : List PlayerState
  Deck : List Card
  DiscardPile : List Card
  CurrentRound : Int
  IsGameOver : Bool
  Winner : Int

/-- A `float64` as far as the strategies produce one: a finite value, kept as
the rational it denotes, or one of the IEEE results of a division by zero. -/
inductive FloatVal where
  | finite (q : Rat)
  | posInf
  | negInf
  | nan

/-- Rounding of a rational to `float64`: the nearest value with a 53-bit
significand, ties to the even significand (IEEE 754 binary64, round to nearest
even). With `2^e <= |q| < 2^(e+1)` the candidates are the multiples of
`2^(e-52)` on either side of `|q|`. The exponent range of `float64` is not
modelled: the values rounded here are 64-bit integers, their quotients and the
constants of the strategies, all between `2^-63` and `2^63` in magnitude. -/
def roundF64 (q : Rat) : Rat :=
  if q = 0 then 0
  else
    let ulp : Rat := (2 : Rat) ^ (Int.log 2 |q| - 52)
    let m : Rat := |q| / ulp
    let f : Int := ⌊m⌋
    let n : Int :=
      if m - f < 1 / 2 then f
      else if 1 / 2 < m - f then f + 1
      else if f % 2 = 0 then f else f + 1
    if q < 0 then -((n : Rat) * ulp) else (n : Rat) * ulp

/-- The expression `float64(a) / float64(b)`: both conversions and the division
round; a zero divisor gives NaN for `0 / 0` and an infinity otherwise. -/
def floatDiv (a b : Int) : FloatVal :=
  if b = 0 then
    if a = 0 then FloatVal.nan else if 0 < a then FloatVal.posInf else FloatVal.negInf
  else FloatVal.finite (roundF64 (roundF64 (a : Rat) / roundF64 (b : Rat)))

/-- The comparison `x > c` with a finite `float64` value `c`; false for NaN. A
decimal constant of the source such as `0.3` is the `float64` nearest to it,
`roundF64 (3 / 10)`. -/
def FloatVal.gt (x : FloatVal) (c : Rat) : Bool :=
  match x with
  | FloatVal.finite q => decide (c < q)
  | FloatVal.posInf => true
  | FloatVal.negInf => false
  | FloatVal.nan => false

/-- `type StopAtScoreAlgorithm struct`. -/
structure StopAtScoreAlgorithm where
  name : String
  targetScore : Int

/-- Body of the scoring loop of `StopAtScoreAlgorithm.MakeDecision` over the
state `(currentScore, hasX2)`. -/
def stopAtScoreStep (st : Int × Bool) (card : Card) : Int × Bool :=
  if card.CardType = "number" then (wrap64 (st.1 + card.Value), st.2)
  else if card.CardType = "modifier" then
    if card.IsX2 then (st.1, true) else (wrap64 (st.1 + card.Modifier), st.2)
  else st

/-- `func (a *StopAtScoreAlgorithm) MakeDecision(playerState, gameState,
cardsRemaining) Decision`. The map `cardsRemaining` is the list of its
entries `(value, count)`. -/
def StopAtScoreAlgorithm.MakeDecision (a : StopAtScoreAlgorithm) (playerState : PlayerState)
    (_gameState : GameState) (_cardsRemaining : List (Int × Int)) : Decision :=
  let st := playerState.Cards.foldl stopAtScoreStep (0, false)
  let currentScore := if st.2 then wrap64 (st.1 * 2) else st.1
  if currentScore ≥ a.targetScore then { Action := "stand" } else { Action := "hit" }

/-- `type ConservativeAlgorithm struct`. -/
structure ConservativeAlgorithm where
  name : String

/-- Body of the first loop of `ConservativeAlgorithm.MakeDecision` over the
state `(uniqueValues, currentScore, hasX2)`; the map `uniqueValues` is its list
of keys, as in `flip7Step`. -/
def conservativeStep (st : List Int × Int × Bool) (card : Card) : List Int × Int × Bool :=
  if card.CardType = "number" then
    (st.1.insert card.Value, wrap64 (st.2.1 + card.Value), st.2.2)
  else if card.CardType = "modifier" then
    if card.IsX2 then (st.1, st.2.1, true)
    else (st.1, wrap64 (st.2.1 + card.Modifier), st.2.2)
  else st

/-- Body of the loop `for value, count := range cardsRemaining` of
`ConservativeAlgorithm.MakeDecision` over the state `(safeCards, totalCards)`;
`!uniqueValues[value]` holds when `value` is not a key of the map. -/
def conservativeRiskStep (uniqueValues : List Int) (st : Int × Int) (entry : Int × Int) :
    Int × Int :=
  let totalCards := wrap64 (st.2 + entry.2)
  if entry.1 ∉ uniqueValues then (wrap64 (st.1 + entry.2), totalCards) else (st.1, totalCards)

/-- `func (a *ConservativeAlgorithm) MakeDecision(playerState, gameState,
cardsRemaining) Decision`. Go visits the entries of `cardsRemaining` in an
unspecified order; the two sums do not depend on it. -/
def ConservativeAlgorithm.MakeDecision (_a : ConservativeAlgorithm) (playerState : PlayerState)
    (_gameState : GameState) (cardsRemaining : List (Int × Int)) : Decision :=
  let st := playerState.Cards.foldl conservativeStep ([], 0, false)
  let uniqueValues := st.1
  let currentScore := if st.2.2 then wrap64 (st.2.1 * 2) else st.2.1
  if uniqueValues.length = 6 then { Action := "hit" }
  else
    let sc := cardsRemaining.foldl (conservativeRiskStep uniqueValues) (0, 0)
    let safeCards := sc.1
    let totalCards := sc.2
    let bustRisk := floatDiv (wrap64 (totalCards - safeCards)) totalCards
    if currentScore ≥ 35 && bustRisk.gt (roundF64 (3 / 10)) then { Action := "stand" }
    else if currentScore ≥ 25 && bustRisk.gt (roundF64 (1 / 2)) then { Action := "stand" }
    else { Action := "hit" }

/-! ## Strategies: Aggressive and Adaptive -/

/-- `type AggressiveAlgorithm struct`. -/
structure AggressiveAlgorithm where
  name : String

/-- Body of the first loop of `AggressiveAlgorithm.MakeDecision` over the state
`(uniqueValues, currentScore, hasX2)`. -/
def aggressiveStep (st : List Int × Int × Bool) (card : Card) : List Int × Int × Bool :=
  if card.CardType = "number" then
    (st.1.insert card.Value, wrap64 (st.2.1 + card.Value), st.2.2)
  else if card.CardType = "modifier" then
    if card.IsX2 then (st.1, st.2.1, true)
    else (st.1, wrap64 (st.2.1 + card.Modifier), st.2.2)
  else st

/-- Body of the loop over `cardsRemaining` of `AggressiveAlgorithm.MakeDecision`
over the state `(safeCards, totalCards)`. -/
def aggressiveRiskStep (uniqueValues : List Int) (st : Int × Int) (entry : Int × Int) :
    Int × Int :=
  let totalCards := wrap64 (st.2 + entry.2)
  if entry.1 ∉ uniqueValues then (wrap64 (st.1 + entry.2), totalCards) else (st.1, totalCards)

/-- `func (a *AggressiveAlgorithm) MakeDecision(playerState, gameState,
cardsRemaining) Decision`. -/
def AggressiveAlgorithm.MakeDecision (_a : AggressiveAlgorithm) (playerState : PlayerState)
    (_gameState : GameState) (cardsRemaining : List (Int × Int)) : Decision :=
  let st := playerState.Cards.foldl aggressiveStep ([], 0, false)
  let uniqueValues := st.1
  let currentScore := if st.2.2 then wrap64 (st.2.1 * 2) else st.2.1
  if uniqueValues.length ≥ 4 then { Action := "hit" }
  else
    let sc := cardsRemaining.foldl (aggressiveRiskStep uniqueValues) (0, 0)
    let safeCards := sc.1
    let totalCards := sc.2
    if totalCards = 0 then { Action := "stand" }
    else
      let bustRisk := floatDiv (wrap64 (totalCards - safeCards)) totalCards
      if currentScore ≥ 45 && bustRisk.gt (roundF64 (2 / 5)) then { Action := "stand" }
      else if currentScore ≥ 60 && bustRisk.gt (roundF64 (1 / 5)) then { Action := "stand" }
      else { Action := "hit" }

/-- `type AdaptiveAlgorithm struct`. -/
structure AdaptiveAlgorithm where
  name : String

/-- Body of the loop of `AdaptiveAlgorithm.MakeDecision` over
`gameState.Players`, on the variable `maxOpponentScore`. -/
def maxOpponentStep (playerState : PlayerState) (maxOpponentScore : Int)
    (player : PlayerState) : Int :=
  if player.ID ≠ playerState.ID ∧ player.GameScore > maxOpponentScore then player.GameScore
  else maxOpponentScore

/-- Body of the card loop of `AdaptiveAlgorithm.MakeDecision` over the state
`(uniqueValues, currentRoundScore, hasX2)`. -/
def adaptiveStep (st : List Int × Int × Bool) (card : Card) : List Int × Int × Bool :=
  if card.CardType = "number" then
    (st.1.insert card.Value, wrap64 (st.2.1 + card.Value), st.2.2)
  else if card.CardType = "modifier" then
    if card.IsX2 then (st.1, st.2.1, true)
    else (st.1, wrap64 (st.2.1 + card.Modifier), st.2.2)
  else st

/-- Body of the loop over `cardsRemaining` of `AdaptiveAlgorithm.MakeDecision`
over the state `(safeCards, totalCards)`. -/
def adaptiveRiskStep (uniqueValues : List Int) (st : Int × Int) (entry : Int × Int) :
    Int × Int :=
  let totalCards := wrap64 (st.2 + entry.2)
  if entry.1 ∉ uniqueValues then (wrap64 (st.1 + entry.2), totalCards) else (st.1, totalCards)

/-- The three brackets of `AdaptiveAlgorithm.MakeDecision`: the decision of an
early `return`, or `none` when control falls through to the bust-risk part. -/
def adaptiveBrackets (scoreDifference : Int) (uniqueLen : Nat) (currentRoundScore : Int) :
    Option Decision :=
  if scoreDifference > 50 then
    if uniqueLen ≥ 3 then some { Action := "hit" }
    else if currentRoundScore < 40 then some { Action := "hit" }
    else none
  else if scoreDifference > 20 then
    if uniqueLen ≥ 4 then some { Action := "hit" }
    else if currentRoundScore < 35 then some { Action := "hit" }
    else none
  else
    if uniqueLen ≥ 6 then some { Action := "hit" }
    else if currentRoundScore ≥ 25 then some { Action := "stand" }
    else none

/-- `func (a *AdaptiveAlgorithm) MakeDecision(playerState, gameState,
cardsRemaining) Decision`. -/
def AdaptiveAlgorithm.MakeDecision (_a : AdaptiveAlgorithm) (playerState : PlayerState)
    (gameState : GameState) (cardsRemaining : List (Int × Int)) : Decision :=
  let ourScore := playerState.GameScore
  let maxOpponentScore := gameState.Players.foldl (maxOpponentStep playerState) 0
  let st := playerState.Cards.foldl adaptiveStep ([], 0, false)
  let uniqueValues := st.1
  let currentRoundScore := if st.2.2 then wrap64 (st.2.1 * 2) else st.2.1
  let scoreDifference := wrap64 (maxOpponentScore - ourScore)
  match adaptiveBrackets scoreDifference uniqueValues.length currentRoundScore with
  | some decision => decision
  | none =>
    let sc := cardsRemaining.foldl (adaptiveRiskStep uniqueValues) (0, 0)
    let safeCards := sc.1
    let totalCards := sc.2
    if totalCards = 0 then { Action := "stand" }
    else
      let bustRisk := floatDiv (wrap64 (totalCards - safeCards)) totalCards
      if bustRisk.gt (roundF64 (3 / 5)) then { Action := "stand" } else { Action := "hit" }

/-! ## Strategies with their local variables -/

/-- What a call of `MakeDecision` computes: the decision it returns, the value
of its score variable after the doubling step, and the operands
`(totalCards - safeCards, totalCards)` of the division
`float64(totalCards-safeCards) / float64(totalCards)` when the call reaches that
statement (`none` when it returns before). -/
structure StrategyRun where
  decision : Decision
  score : Int
  division : Option (Int × Int)

/-- `StopAtScoreAlgorithm.MakeDecision` with its local variables; it has no
bust-risk part. -/
def StopAtScoreAlgorithm.run (a : StopAtScoreAlgorithm) (playerState : PlayerState)
    (_gameState : GameState) (_cardsRemaining : List (Int × Int)) : StrategyRun :=
  let st := playerState.Cards.foldl stopAtScoreStep (0, false)
  let currentScore := if st.2 then wrap64 (st.1 * 2) else st.1
  if currentScore ≥ a.targetScore then
    { decision := { Action := "stand" }, score := currentScore, division := none }
  else { decision := { Action := "hit" }, score := currentScore, division := none }

/-- `ConservativeAlgorithm.MakeDecision` with its local variables. -/
def ConservativeAlgorithm.run (_a : ConservativeAlgorithm) (playerState : PlayerState)
    (_gameState : GameState) (cardsRemaining : List (Int × Int)) : StrategyRun :=
  let st := playerState.Cards.foldl conservativeStep ([], 0, false)
  let uniqueValues := st.1
  let currentScore := if st.2.2 then wrap64 (st.2.1 * 2) else st.2.1
  if uniqueValues.length = 6 then
    { decision := { Action := "hit" }, score := currentScore, division := none }
  else
    let sc := cardsRemaining.foldl (conservativeRiskStep uniqueValues) (0, 0)
    let safeCards := sc.1
    let totalCards := sc.2
    let bustRisk := floatDiv (wrap64 (totalCards - safeCards)) totalCards
    let division := some (wrap64 (totalCards - safeCards), totalCards)
    if currentScore ≥ 35 && bustRisk.gt (roundF64 (3 / 10)) then
      { decision := { Action := "stand" }, score := currentScore, division := division }
    else if currentScore ≥ 25 && bustRisk.gt (roundF64 (1 / 2)) then
      { decision := { Action := "stand" }, score := currentScore, division := division }
    else { decision := { Action := "hit" }, score := currentScore, division := division }

/-- `AggressiveAlgorithm.MakeDecision` with its local variables. -/
def AggressiveAlgorithm.run (_a : AggressiveAlgorithm) (playerState : PlayerState)
    (_gameState : GameState) (cardsRemaining : List (Int × Int)) : StrategyRun :=
  let st := playerState.Cards.foldl aggressiveStep ([], 0, false)
  let uniqueValues := st.1
  let currentScore := if st.2.2 then wrap64 (st.2.1 * 2) else st.2.1
  if uniqueValues.length ≥ 4 then
    { decision := { Action := "hit" }, score := currentScore, division := none }
  else
    let sc := cardsRemaining.foldl (aggressiveRiskStep uniqueValues) (0, 0)
    let safeCards := sc.1
    let totalCards := sc.2
    if totalCards = 0 then
      { decision := { Action := "stand" }, score := currentScore, division := none }
    else
      let bustRisk := floatDiv (wrap64 (totalCards - safeCards)) totalCards
      let division := some (wrap64 (totalCards - safeCards), totalCards)
      if currentScore ≥ 45 && bustRisk.gt (roundF64 (2 / 5)) then
        { decision := { Action := "stand" }, score := currentScore, division := division }
      else if currentScore ≥ 60 && bustRisk.gt (roundF64 (1 / 5)) then
        { decision := { Action := "stand" }, score := currentScore, division := division }
      else { decision := { Action := "hit" }, score := currentScore, division := division }

/-- `AdaptiveAlgorithm.MakeDecision` with its local variables. -/
def AdaptiveAlgorithm.run (_a : AdaptiveAlgorithm) (playerState : PlayerState)
    (gameState : GameState) (cardsRemaining : List (Int × Int)) : StrategyRun :=
  let ourScore := playerState.GameScore
  let maxOpponentScore := gameState.Players.foldl (maxOpponentStep playerState) 0
  let st := playerState.Cards.foldl adaptiveStep ([], 0, false)
  let uniqueValues := st.1
  let currentRoundScore := if st.2.2 then wrap64 (st.2.1 * 2) else st.2.1
  let scoreDifference := wrap64 (maxOpponentScore - ourScore)
  match adaptiveBrackets scoreDifference uniqueValues.length currentRoundScore with
  | some decision => { decision := decision, score := currentRoundScore, division := none }
  | none =>
    let sc := cardsRemaining.foldl (adaptiveRiskStep uniqueValues) (0, 0)
    let safeCards := sc.1
    let totalCards := sc.2
    if totalCards = 0 then
      { decision := { Action := "stand" }, score := currentRoundScore, division := none }
    else
      let bustRisk := floatDiv (wrap64 (totalCards - safeCards)) totalCards
      let division := some (wrap64 (totalCards - safeCards), totalCards)
      if bustRisk.gt (roundF64 (3 / 5)) then
        { decision := { Action := "stand" }, score := currentRoundScore, division := division }
      else { decision := { Action := "hit" }, score := currentRoundScore, division := division }

/-! ## Snapshots for the strategies -/

/-- The statement `remaining[value]++` on the map `map[int]int`, kept as its
list of entries `(value, count)`: the count of an existing key goes up by one,
a new key gets the count 1. -/
def incrCount : List (Int × Int) → Int → List (Int × Int)
  | [], value => [(value, 1)]
  | entry :: rest, value =>
    if entry.1 = value then (entry.1, entry.2 + 1) :: rest
    else entry :: incrCount rest value

/-- Body of the loop of `GetCardsRemaining`. -/
def remainingStep (remaining : List (Int × Int)) (card : Card) : List (Int × Int) :=
  if card.CardType = "number" then incrCount remaining card.Value else remaining

/-- `func (g *Game) GetCardsRemaining() map[int]int`. -/
def GetCardsRemaining (g : Game) : List (Int × Int) :=
  g.Deck.foldl remainingStep []

/-- The map index expression `remaining[value]`: the count stored under the
key, and the zero value 0 when the key is absent. -/
def lookupCount (remaining : List (Int × Int)) (value : Int) : Int :=
  match remaining.find? (fun entry => entry.1 = value) with
  | some entry => entry.2
  | none => 0

/-- `func (g *Game) GetGameState() GameState`; the fields it does not set have
their zero values. -/
def GetGameState (g : Game) : GameState :=
  { Players := g.Players, Deck := g.Deck, DiscardPile := g.DiscardPile, CurrentRound := 0,
    IsGameOver := false, Winner := 0 }

/-- The interface `Algorithm`: a strategy is its two methods. The strategies of
the repository keep no state between calls, so `MakeDecision` is a function of
its arguments. -/
structure Algorithm where
  MakeDecision : PlayerState → GameState → List (Int × Int) → Decision
  GetName : String

/-- `AlwaysHitAlgorithm` as an `Algorithm`: `MakeDecision` returns
`Decision{Action: "hit"}`. -/
def alwaysHit : Algorithm :=
  { MakeDecision := fun _ _ _ => { Action := "hit" }, GetName := "Always Hit" }

/-- A `StopAtScoreAlgorithm` as an `Algorithm`. -/
def StopAtScoreAlgorithm.toAlgorithm (a : StopAtScoreAlgorithm) : Algorithm :=
  { MakeDecision := a.MakeDecision, GetName := a.name }

/-! ## The driver (`Simulator.playGame`) -/

/-- The inner loop of a round in `playGame`, entered with the player ids still
to visit: `for playerID := ...; playerID < len(s.algorithms); playerID++`. A
bust or stood player is skipped (`continue`); otherwise the strategy decides,
`PlayerHit` or `PlayerStand` is applied, and the loop stops (`break`) as soon as
`IsRoundOver` holds. Both slices have `len(s.algorithms)` entries, so the two
index expressions are in range; out of range Go panics and the model stops. -/
def passLoop (algorithms : List Algorithm) : List Nat → Game → Game
  | [], g => g
  | playerID :: rest, g =>
    match g.Players[playerID]?, algorithms[playerID]? with
    | some player, some algorithm =>
      if player.IsBust || player.HasStood then passLoop algorithms rest g
      else
        let decision := algorithm.MakeDecision player (GetGameState g) (GetCardsRemaining g)
        let g1 :=
          if decision.Action = "hit" then (PlayerHit g (playerID : Int)).2
          else PlayerStand g (playerID : Int)
        if IsRoundOver g1 then g1 else passLoop algorithms rest g1
    | _, _ => g

/-- One pass of the inner loop over all player ids. -/
def decisionPass (algorithms : List Algorithm) (g : Game) : Game :=
  passLoop algorithms (List.range algorithms.length) g

/-- The loop `for !g.IsRoundOver() { pass }`, allowed at most `fuel` passes:
the game at the end of the round, or `none` when the round is not over after
`fuel` passes. -/
def roundLoop (algorithms : List Algorithm) : Nat → Game → Option Game
  | 0, g => if IsRoundOver g then some g else none
  | fuel + 1, g =>
    if IsRoundOver g then some g else roundLoop algorithms fuel (decisionPass algorithms g)

/-- The start of a round in `playGame`: `g.CreateDeck()`, `g.StartNewRound()`,
`g.DealInitialCard()`. -/
def startRound (g : Game) : Game :=
  DealInitialCard (StartNewRound (CreateDeck g))

/-- The variables of the scoring pass of `playGame`. -/
structure ScoringState where
  g : Game
  scores : List Int
  flip7s : List Int
  busts : List Int
  roundWinner : Int
  highestScore : Int

/-- The statement `xs[i]++` on a slice of counters. -/
def incrAt (xs : List Int) (i : Nat) : List Int :=
  match xs[i]? with
  | some x => xs.set i (wrap64 (x + 1))
  | none => xs

/-- Body of the scoring loop of `playGame` for one `playerID`. The slice
`scores` has an entry for every player, so `scores[playerID]` read after the
assignment is the player's new `GameScore`. -/
def scoringStep (st : ScoringState) (playerID : Nat) : ScoringState :=
  match st.g.Players[playerID]? with
  | none => st
  | some player =>
    let roundScore := CalculateScore st.g (playerID : Int)
    let newScore := wrap64 (player.GameScore + roundScore)
    let g1 : Game :=
      { st.g with Players := st.g.Players.set playerID { player with GameScore := newScore } }
    let scores := st.scores.set playerID newScore
    let flip7s := if HasFlip7 g1 (playerID : Int) then incrAt st.flip7s playerID else st.flip7s
    let busts := if player.IsBust then incrAt st.busts playerID else st.busts
    if newScore > st.highestScore then
      { g := g1, scores := scores, flip7s := flip7s, busts := busts,
        roundWinner := (playerID : Int), highestScore := newScore }
    else
      { g := g1, scores := scores, flip7s := flip7s, busts := busts,
        roundWinner := st.roundWinner, highestScore := st.highestScore }

/-- The scoring pass of `playGame` over the player ids `0 .. n-1`, started with
`roundWinner := -1` and `highestScore := -1`. -/
def scoringPass (n : Nat) (g : Game) (scores flip7s busts : List Int) : ScoringState :=
  (List.range n).foldl scoringStep
    { g := g, scores := scores, flip7s := flip7s, busts := busts, roundWinner := -1,
      highestScore := -1 }

/-- The outer loop `for { ... }` of `playGame`, allowed `rounds` rounds of at
most `passes` passes each: a round is started and played, the scoring pass runs,
and the loop returns `(roundWinner, scores, flip7s, busts)` when
`highestScore >= 200` and goes on to the next round otherwise. `none` when the
allowance runs out. -/
def playGameLoop (algorithms : List Algorithm) (passes : Nat) :
    Nat → Game → List Int → List Int → List Int →
      Option (Int × List Int × List Int × List Int)
  | 0, _, _, _, _ => none
  | rounds + 1, g, scores, flip7s, busts =>
    match roundLoop algorithms passes (startRound g) with
    | none => none
    | some g1 =>
      let st := scoringPass algorithms.length g1 scores flip7s busts
      if st.highestScore ≥ 200 then some (st.roundWinner, st.scores, st.flip7s, st.busts)
      else playGameLoop algorithms passes rounds st.g st.scores st.flip7s st.busts

/-- `func (s *Simulator) playGame() (int, []int, []int, []int)`, with the
generator `r` of the new game and the allowances of `playGameLoop`. -/
def playGame (algorithms : List Algorithm) (passes rounds : Nat) (r : Rng) :
    Option (Int × List Int × List Int × List Int) :=
  playGameLoop algorithms passes rounds (NewGame algorithms.length r)
    (List.replicate algorithms.length 0) (List.replicate algorithms.length 0)
    (List.replicate algorithms.length 0)

/-! ## Result table (`internal/simulator`) -/

/-- Results of one strategy (`type SimulationResult struct`). `AverageScore` is
a `float64` in the source; the sort only moves whole records, and the field is
carried as a rational. -/
structure SimulationResult where
  AlgorithmName : String
  GamesWon : Int
  TotalScore : Int
  AverageScore : Rat
  Flip7Count : Int
  BustCount : Int
deriving DecidableEq

/-- Body of the inner loop of the sort in `displayResults`:
`if results[j].GamesWon > results[i].GamesWon { results[i], results[j] =
results[j], results[i] }`. Both indices are inside the slice wherever the loops
use it. -/
def sortInnerStep (i : Nat) (results : List SimulationResult) (j : Nat) :
    List SimulationResult :=
  match results[i]?, results[j]? with
  | some a, some b => if b.GamesWon > a.GamesWon then (results.set i b).set j a else results
  | _, _ => results

/-- The inner loop `for j := i + 1; j < len(results); j++`. -/
def sortInner (i : Nat) (results : List SimulationResult) : List SimulationResult :=
  (List.range' (i + 1) (results.length - (i + 1))).foldl (sortInnerStep i) results

/-- The sorting loop of `displayResults`:
`for i := 0; i < len(results)-1; i++ { inner loop }`. -/
def sortResults (results : List SimulationResult) : List SimulationResult :=
  (List.range (results.length - 1)).foldl (fun rs i => sortInner i rs) results

/-! ## Vocabulary of the specification -/

/-- Values of the Number cards of a hand, in hand order. -/
def numberValues (hand : List Card) : List Int :=
  (hand.filter (fun c => c.CardType = "number")).map Card.Value

/-- Bonuses of the +1/+2/+3 Modifier cards of a hand (modifier cards that are
not the x2 card). -/
def modifierBonuses (hand : List Card) : List Int :=
  (hand.filter (fun c => c.CardType = "modifier" ∧ c.IsX2 = false)).map Card.Modifier

/-- Whether the hand holds an x2 card. -/
def holdsX2 (hand : List Card) : Bool :=
  hand.any (fun c => c.CardType = "modifier" ∧ c.IsX2 = true)

/-- Number of distinct values among the Number cards of a hand. -/
def distinctNumberCount (hand : List Card) : Nat :=
  (numberValues hand).toFinset.card

/-- The deck as the specification lists it: for each value `v` in 0..12,
`count(v)` Number cards, where `count(0) = count(1) = 1` and `count(v) = v` from
2 on; two each of +1, +2, +3; one x2 card. -/
def specDeck : List Card :=
  (List.range 13).flatMap (fun v => List.replicate (if v = 0 ∨ v = 1 then 1 else v)
      (numberCard (v : Int)))
    ++ [modifierCard 1, modifierCard 1, modifierCard 2, modifierCard 2, modifierCard 3,
        modifierCard 3]
    ++ [x2Card]

/-- A player who is not bust holds no two Number cards of the same value. -/
def handOK (player : PlayerState) : Prop :=
  player.IsBust = false → (numberValues player.Cards).Nodup

/-- The invariant of the specification: every player who is not bust holds no
two Number cards of the same value. -/
def noDuplicateNumbers (g : Game) : Prop :=
  ∀ player ∈ g.Players, handOK player

/-- Every player who would be dealt a card (not bust, not stood) has an empty
hand, as at the start of a round. -/
def handsEmpty (g : Game) : Bool :=
  g.Players.all (fun player => player.IsBust || player.HasStood || player.Cards.isEmpty)

/-- Every `DealInitialCard` of the sequence is applied in a state where the
players to be dealt have empty hands. -/
def dealsAtRoundStart (g : Game) : List Op → Bool
  | [] => true
  | op :: ops =>
    (match op with
      | Op.dealInitialCard => handsEmpty g
      | _ => true) && dealsAtRoundStart (applyOp g op) ops

/-- Player 0 of a fresh game, holding the given hand. -/
def soloPlayer (hand : List Card) : PlayerState :=
  { ID := 0, Cards := hand, Score := 0, IsBust := false, HasStood := false, GameScore := 0 }

/-- Game holding a single player with the given hand, as the tests build it
from `NewGame(1)`. -/
def gameWithHand (hand : List Card) (r : Rng) : Game :=
  { Players := [soloPlayer hand], Deck := [], DiscardPile := [], rng := r }

/-- Hand of `TestFlip7Bonus`: the values 0 to 6 and the x2 card. -/
def flip7BonusHand : List Card :=
  [numberCard 0, numberCard 1, numberCard 2, numberCard 3, numberCard 4, numberCard 5,
    numberCard 6, x2Card]

/-- Hand of `TestFlip7Detection`: the values 0 to 6 and a +2 card. -/
def flip7DetectionHand : List Card :=
  [numberCard 0, numberCard 1, numberCard 2, numberCard 3, numberCard 4, numberCard 5,
    numberCard 6, modifierCard 2]

/-- Generator that always produces `0`. -/
def zeroRng : Rng := ⟨fun _ => 0⟩

/-- Game of `TestBustCondition`: one player holding a 5, and a 5 on the deck. -/
def bustGame : Game :=
  { Players := [soloPlayer [numberCard 5]], Deck := [numberCard 5], DiscardPile := [],
    rng := zeroRng }

/-- One player holding a 9, an empty deck, and a discard pile of a 5 and a 9:
the next draw refills the deck from the discard pile. -/
def refillBustGame : Game :=
  { Players := [soloPlayer [numberCard 9]], Deck := [],
    DiscardPile := [numberCard 5, numberCard 9], rng := zeroRng }

/-- One player holding a 5 and a deck of a +3 card and a 7. -/
def hitGame : Game :=
  { Players := [soloPlayer [numberCard 5]], Deck := [modifierCard 3, numberCard 7],
    DiscardPile := [numberCard 2], rng := zeroRng }

/-- One bust player and one player who stood. -/
def idleGame : Game :=
  { Players := [{ soloPlayer [] with IsBust := true },
                { soloPlayer [numberCard 4] with ID := 1, HasStood := true }],
    Deck := [numberCard 8], DiscardPile := [], rng := zeroRng }

/-- Two active players, an empty deck and an empty discard pile. -/
def emptyPilesGame : Game :=
  { Players := [soloPlayer [numberCard 3], { soloPlayer [] with ID := 1, GameScore := 40 }],
    Deck := [], DiscardPile := [], rng := zeroRng }

/-- Player 1 holds seven distinct Number values; player 0 is still active. -/
def flip7RoundGame : Game :=
  { Players := [soloPlayer [numberCard 12],
                { soloPlayer flip7DetectionHand with ID := 1 }],
    Deck := [numberCard 8], DiscardPile := [], rng := zeroRng }

/-- A fresh deck and three deals in a row to a single player. -/
def threeDeals : List Op :=
  [Op.createDeck, Op.dealInitialCard, Op.dealInitialCard, Op.dealInitialCard]

/-- A round as the driver starts it, followed by hits and a stand. -/
def roundOps : List Op :=
  [Op.createDeck, Op.startNewRound, Op.dealInitialCard, Op.playerHit 0, Op.playerHit 1,
    Op.playerHit 0, Op.playerStand 1, Op.playerHit 0]

/-- Generator under which the shuffle of `CreateDeck` only exchanges positions
0 and 3: the call with loop variable `i` gets `i`, except `0` at `i = 3`. -/
def swap03Rng : Rng := ⟨fun k => if k = 82 then 0 else 85 - k⟩

/-- Two players with scores from earlier rounds, one bust and one stood, with
cards in hand. -/
def midRoundGame : Game :=
  { Players := [{ ID := 0, Cards := [], Score := 0, IsBust := true, HasStood := false,
                  GameScore := 31 },
                { ID := 1, Cards := [numberCard 4, modifierCard 2], Score := 0, IsBust := false,
                  HasStood := true, GameScore := 57 }],
    Deck := [numberCard 8], DiscardPile := [numberCard 6, numberCard 6], rng := zeroRng }

/-- Round score of a hand as the strategies use it: Number values plus
+1/+2/+3 bonuses, doubled when an x2 card is held, without the Flip 7 bonus. -/
def roundScore (hand : List Card) : Int :=
  if holdsX2 hand then ((numberValues hand).sum + (modifierBonuses hand).sum) * 2
  else (numberValues hand).sum + (modifierBonuses hand).sum

/-- Total of the remaining counts. -/
def totalRemaining (cardsRemaining : List (Int × Int)) : Int :=
  (cardsRemaining.map Prod.snd).sum

/-- Remaining cards whose value is not already held: the counts of the entries
whose value is not among the Number values of the hand. -/
def safeRemaining (hand : List Card) (cardsRemaining : List (Int × Int)) : Int :=
  ((cardsRemaining.filter (fun entry => entry.1 ∉ numberValues hand)).map Prod.snd).sum

/-- The exact bust risk `(total - safe) / total`. -/
def bustRiskExact (hand : List Card) (cardsRemaining : List (Int × Int)) : Rat :=
  ((totalRemaining cardsRemaining - safeRemaining hand cardsRemaining : Int) : Rat) /
    (totalRemaining cardsRemaining : Rat)

/-- A snapshot with no players and no cards. -/
def emptyGameState : GameState :=
  { Players := [], Deck := [], DiscardPile := [], CurrentRound := 0, IsGameOver := false,
    Winner := 0 }

/-- The strategy built by `NewStopAtScoreAlgorithm(25)`. -/
def stopAt25 : StopAtScoreAlgorithm :=
  { name := "Stop at 25", targetScore := 25 }

/-- The strategy built by `NewConservativeAlgorithm()`. -/
def conservative : ConservativeAlgorithm :=
  { name := "Conservative" }

/-- A hand worth 36: 12, 11, 10 and a +3 card. -/
def hand36 : List Card :=
  [numberCard 12, numberCard 11, numberCard 10, modifierCard 3]

/-- Remaining counts: four 12s, three 11s, two 5s and one 4. -/
def remainingCounts : List (Int × Int) :=
  [(12, 4), (11, 3), (5, 2), (4, 1)]

/-- What one run of the inner loop does to the element `x` at position `i` and
the elements after it: `x` is exchanged with each later element that has more
wins; the result is the final element at `i` and the list left after it. -/
def bubble (x : SimulationResult) : List SimulationResult → SimulationResult × List SimulationResult
  | [] => (x, [])
  | y :: ys =>
    if y.GamesWon > x.GamesWon then ((bubble y ys).1, x :: (bubble y ys).2)
    else ((bubble x ys).1, y :: (bubble x ys).2)

/-- The sort as a recursion on the list: `n` outer iterations, each fixing the
front element by `bubble`. -/
def selSort : Nat → List SimulationResult → List SimulationResult
  | 0, l => l
  | _ + 1, [] => []
  | n + 1, x :: suf => (bubble x suf).1 :: selSort n (bubble x suf).2

/-- A result record with the given name and number of wins. -/
def resultOf (name : String) (wins : Int) : SimulationResult :=
  { AlgorithmName := name, GamesWon := wins, TotalScore := 0, AverageScore := 0,
    Flip7Count := 0, BustCount := 0 }

/-- Two strategies tied at one win, listed before a strategy with two wins. -/
def tiedResults : List SimulationResult :=
  [resultOf "A" 1, resultOf "B" 1, resultOf "C" 2]

/-- Results already in descending order of wins, with a tie. -/
def orderedResults : List SimulationResult :=
  [resultOf "C" 2, resultOf "A" 1, resultOf "B" 1, resultOf "D" 0]

/-- Generator under which every shuffle of `CreateDeck` reverses the deck: the
x2 card comes first, then the +3, +2 and +1 cards, then the 12s. -/
def reverseRng : Rng := ⟨fun k => if k % 85 ≤ 42 then k % 85 else 85 - k % 85⟩

/-- The strategy built by `NewStopAtScoreAlgorithm(40)`. -/
def stopAt40 : StopAtScoreAlgorithm :=
  { name := "Stop at 40", targetScore := 40 }

/-- Cumulative score of player `i` after the scoring pass on `g`: the old
`GameScore` plus this round's `CalculateScore`, as the statement
`GameScore += roundScore` computes it. -/
def cumulativeScore (g : Game) (i : Nat) : Int :=
  match g.Players[i]? with
  | some player => wrap64 (player.GameScore + CalculateScore g (i : Int))
  | none => 0

/-- The `GameScore` of every player, in player order. -/
def gameScores (g : Game) : List Int :=
  g.Players.map PlayerState.GameScore

/-- The player with `GameScore` replaced by `s`. -/
def withGameScore (player : PlayerState) (s : Int) : PlayerState :=
  { player with GameScore := s }

/-- The game after `k` decision passes. -/
def passesFrom (algorithms : List Algorithm) : Nat → Game → Game
  | 0, g => g
  | k + 1, g => passesFrom algorithms k (decisionPass algorithms g)

/-- Whether a player is still active in the round: neither bust nor stood. -/
def isActive (player : PlayerState) : Bool :=
  !player.IsBust && !player.HasStood

/-- Number of active players. -/
def activeCount (g : Game) : Nat :=
  g.Players.countP isActive

/-- Number of cards in the deck and the discard pile together. -/
def pileSize (g : Game) : Nat :=
  g.Deck.length + g.DiscardPile.length

/-- Progress of a round: fewer active players, or as many and fewer cards in
the piles. -/
def smaller (g1 g : Game) : Prop :=
  activeCount g1 < activeCount g ∨ (activeCount g1 = activeCount g ∧ pileSize g1 < pileSize g)

/-- The game after the decision of `algorithm` for the active player
`playerID` has been applied, as in the body of the inner loop of `playGame`. -/
def applyDecision (algorithm : Algorithm) (player : PlayerState) (g : Game) (playerID : Nat) :
    Game :=
  if (algorithm.MakeDecision player (GetGameState g) (GetCardsRemaining g)).Action = "hit"
  then (PlayerHit g (playerID : Int)).2
  else PlayerStand g (playerID : Int)

/-- The strategy built by `NewAggressiveAlgorithm()`. -/
def aggressive : AggressiveAlgorithm :=
  { name := "Aggressive" }

/-- The strategy built by `NewAdaptiveAlgorithm()`. -/
def adaptive : AdaptiveAlgorithm :=
  { name := "Adaptive" }

/-- The highest `GameScore` among the other players (those whose ID differs
from the player's own), and at least 0. -/
def maxOpponentScore (playerState : PlayerState) (gameState : GameState) : Int :=
  ((gameState.Players.filter (fun player => player.ID ≠ playerState.ID)).map
    PlayerState.GameScore).foldr max 0

/-- A hand worth 45 with three distinct Number values: 12, 11, 10 and the six
+1/+2/+3 cards. -/
def hand45 : List Card :=
  [numberCard 12, numberCard 11, numberCard 10, modifierCard 3, modifierCard 3, modifierCard 2,
    modifierCard 2, modifierCard 1, modifierCard 1]

/-- How far the player is behind the best other player: the highest other
`GameScore` (at least 0) minus the player's own. -/
def scoreGap (playerState : PlayerState) (gameState : GameState) : Int :=
  maxOpponentScore playerState gameState - playerState.GameScore

/-- A snapshot with three players: ids 0, 1 and 2 with 10, 90 and 40 points. -/
def threePlayerState : GameState :=
  { Players := [{ ID := 0, Cards := [], Score := 0, IsBust := false, HasStood := false,
                  GameScore := 10 },
                { ID := 1, Cards := [], Score := 0, IsBust := false, HasStood := false,
                  GameScore := 90 },
                { ID := 2, Cards := [], Score := 0, IsBust := false, HasStood := false,
                  GameScore := 40 }],
    Deck := [], DiscardPile := [], CurrentRound := 0, IsGameOver := false, Winner := 0 }

/-- Player 0 of `threePlayerState` (10 points) holding the 45-point hand. -/
def trailingPlayer : PlayerState :=
  { ID := 0, Cards := hand45, Score := 0, IsBust := false, HasStood := false, GameScore := 10 }

/-- Number of cards of a deck that are Number cards of value `v`. -/
def numberCardsOfValue (deck : List Card) (v : Int) : Nat :=
  deck.countP (fun c => c.CardType = "number" ∧ c.Value = v)

/-- Number of Number cards of a deck. -/
def numberCardCount (deck : List Card) : Nat :=
  deck.countP (fun c => c.CardType = "number")

/-- A deck of two 7s, a +2 card, a 0 and the x2 card. -/
def smallDeckGame : Game :=
  { Players := [soloPlayer []],
    Deck := [numberCard 7, modifierCard 2, numberCard 0, numberCard 7, x2Card],
    DiscardPile := [], rng := zeroRng }

/-- A first round as the driver plays it on a new two-player game, under the
shuffle that only exchanges positions 0 and 3: player 0 is dealt a 2 and hits
the other 2 (bust), player 1 stands. The round is then over. -/
def afterBustRound : Game :=
  PlayerStand (PlayerHit (startRound (NewGame 2 swap03Rng)) 0).2 1

/-- The bust risk as the strategies compute it: the `float64` quotient of the
64-bit integers `totalCards - safeCards` and `totalCards`. -/
def bustRisk64 (hand : List Card) (cardsRemaining : List (Int × Int)) : FloatVal :=
  floatDiv (wrap64 (wrap64 (totalRemaining cardsRemaining) -
      wrap64 (safeRemaining hand cardsRemaining)))
    (wrap64 (totalRemaining cardsRemaining))

/-- A hand whose exact round score, `2^63`, lies outside the range of a 64-bit
`int`: a Number card of value `2^62` and the x2 card. -/
def overflowHand : List Card :=
  [numberCard (2 ^ 62), x2Card]

/-- Remaining counts of ten cards: seven of the value held in `overflowHand`
and three 5s. -/
def overflowCounts : List (Int × Int) :=
  [(2 ^ 62, 7), (5, 3)]

/-- Remaining counts of ten cards: one of the value held in `overflowHand` and
nine 5s. -/
def overflowCountsSafe : List (Int × Int) :=
  [(2 ^ 62, 1), (5, 9)]

/-- Remaining counts with 2100000000000001 twelves among 7000000000000003
cards: for a hand holding a 12 and no 5 the exact risk is just above 3/10. -/
def countsAboveThreeTenths : List (Int × Int) :=
  [(12, 2100000000000001), (5, 4900000000000002)]

/-- Remaining counts with 2800000000000001 twelves among 7000000000000002
cards: for a hand holding a 12 and no 5 the exact risk is just above 2/5. -/
def countsAboveTwoFifths : List (Int × Int) :=
  [(12, 2800000000000001), (5, 4200000000000001)]

/-- Remaining counts with 4200000000000002 threes among 7000000000000003 cards:
for a hand holding a 3 and no 5 the exact risk is just above 3/5. -/
def countsAboveThreeFifths : List (Int × Int) :=
  [(3, 4200000000000002), (5, 2800000000000001)]

/-- The end of the first round of the one-player game with the strategy
`Stop at 40` on reversed decks: the player drew the x2 card, the six bonus cards
and a 12, and stood with 48 points after eight passes. -/
def firstRoundEnd : Game :=
  passesFrom [stopAt40.toAlgorithm] 8 (startRound (NewGame 1 reverseRng))

/-- Number cards a player accounts for: those in the hand, and one once the
player is bust (the card drawn at the bust is put nowhere). -/
def accounted (player : PlayerState) : Nat :=
  numberCardCount player.Cards + (if player.IsBust then 1 else 0)

/-- State of one player during a round: a hand without two Number cards of the
same value while not bust, an empty hand once bust, and at most 7 Number
cards. -/
def playerInv (player : PlayerState) : Prop :=
  (player.IsBust = false → (numberValues player.Cards).Nodup) ∧
  (player.IsBust = true → player.Cards = []) ∧
  numberCardCount player.Cards ≤ 7

/-- Every player's `ID` is the player's index, as `NewGame` sets it. -/
def idsAreIndices (g : Game) : Prop :=
  ∀ (i : Nat) (player : PlayerState), g.Players[i]? = some player → player.ID = (i : Int)

/-- What holds throughout a round started on a fresh deck: the IDs are the
indices, every player satisfies `playerInv`, and the 79 Number cards of the
fresh deck are in the two piles or accounted for by the players. -/
def roundInv (g : Game) : Prop :=
  idsAreIndices g ∧ (∀ player ∈ g.Players, playerInv player) ∧
  79 ≤ numberCardCount g.Deck + numberCardCount g.DiscardPile + (g.Players.map accounted).sum

/-- Generator under which the shuffle of `CreateDeck` changes nothing: the call
with loop variable `i` gets `i`. -/
def identityRng : Rng := ⟨fun k => 85 - k⟩

/-- A table of 14 players who always hit. -/
def alwaysHit14 : List Algorithm :=
  List.replicate 14 alwaysHit

/-! ## Lemmas on 64-bit arithmetic -/

theorem wrap64_of_fits (x : Int) (h1 : -2 ^ 63 ≤ x) (h2 : x < 2 ^ 63) : wrap64 x = x := by
  unfold wrap64; omega

theorem wrap64_range (x : Int) : -2 ^ 63 ≤ wrap64 x ∧ wrap64 x < 2 ^ 63 := by
  unfold wrap64; omega

theorem wrap64_wrap64 (x : Int) : wrap64 (wrap64 x) = wrap64 x := by
  unfold wrap64; omega

theorem wrap64_add_left (a b : Int) : wrap64 (wrap64 a + b) = wrap64 (a + b) := by
  unfold wrap64; omega

theorem wrap64_sub (a b : Int) : wrap64 (wrap64 a - wrap64 b) = wrap64 (a - b) := by
  unfold wrap64; omega

theorem wrap64_mul_two (a : Int) : wrap64 (wrap64 a * 2) = wrap64 (a * 2) := by
  unfold wrap64; omega

theorem wrap64_zero : wrap64 0 = 0 := by decide

/-! ## Lemmas on float64 rounding -/

theorem roundF64_pos_cases (x : Rat) (hx : 0 < x) :
    ∃ (k f : Int), (2 : Rat) ^ 52 ≤ (f : Rat) ∧ (f : Rat) < 2 ^ 53 ∧
      (f : Rat) * 2 ^ k ≤ x ∧ x < ((f : Rat) + 1) * 2 ^ k ∧
      (roundF64 x = (f : Rat) * 2 ^ k ∨
        ((f : Rat) * 2 ^ k < x ∧ roundF64 x = ((f : Rat) + 1) * 2 ^ k)) ∧
      (∀ j : Int, x = (j : Rat) * 2 ^ k → roundF64 x = x) ∧
      (x - (f : Rat) * 2 ^ k < 2 ^ k / 2 → roundF64 x = (f : Rat) * 2 ^ k) ∧
      (2 ^ k / 2 < x - (f : Rat) * 2 ^ k → roundF64 x = ((f : Rat) + 1) * 2 ^ k) := by
  have hu : (0 : Rat) < 2 ^ (Int.log 2 x - 52) := zpow_pos (by norm_num) _
  have hlo : (2 : Rat) ^ (Int.log 2 x) ≤ x := by
    have := Int.zpow_log_le_self (b := 2) (r := x) (by norm_num) hx
    simpa using this
  have hhi : x < (2 : Rat) ^ (Int.log 2 x + 1) := by
    have := Int.lt_zpow_succ_log_self (b := 2) (by norm_num) x
    simpa using this
  have e1 : (2 : Rat) ^ (Int.log 2 x) = 2 ^ 52 * 2 ^ (Int.log 2 x - 52) := by
    rw [← zpow_natCast, ← zpow_add₀ (by norm_num : (2 : Rat) ≠ 0)]
    congr 1
    push_cast
    ring
  have e2 : (2 : Rat) ^ (Int.log 2 x + 1) = 2 ^ 53 * 2 ^ (Int.log 2 x - 52) := by
    rw [← zpow_natCast, ← zpow_add₀ (by norm_num : (2 : Rat) ≠ 0)]
    congr 1
    push_cast
    ring
  rw [e1] at hlo
  rw [e2] at hhi
  generalize hk : Int.log 2 x - 52 = k at hu hlo hhi
  have hm1 : (2 : Rat) ^ 52 ≤ x / 2 ^ k := by
    rw [le_div_iff₀ hu]; exact hlo
  have hm2 : x / 2 ^ k < (2 : Rat) ^ 53 := by
    rw [div_lt_iff₀ hu]; exact hhi
  have hf1 : ((⌊x / 2 ^ k⌋ : Int) : Rat) ≤ x / 2 ^ k := Int.floor_le _
  have hf2 : x / 2 ^ k < ((⌊x / 2 ^ k⌋ : Int) : Rat) + 1 := Int.lt_floor_add_one _
  have hf3 : (2 : Rat) ^ 52 ≤ ((⌊x / 2 ^ k⌋ : Int) : Rat) := by
    have : ((2 ^ 52 : Int) : Rat) ≤ x / 2 ^ k := by push_cast; exact hm1
    have := Int.le_floor.mpr this
    have h2 : (((2 ^ 52 : Int)) : Rat) ≤ ((⌊x / 2 ^ k⌋ : Int) : Rat) := by exact_mod_cast this
    push_cast at h2
    exact h2
  have hx0 : x ≠ 0 := ne_of_gt hx
  have hnl : ¬ x < 0 := not_lt.mpr (le_of_lt hx)
  have hR : roundF64 x =
      (((if x / 2 ^ k - ((⌊x / 2 ^ k⌋ : Int) : Rat) < 1 / 2 then ⌊x / 2 ^ k⌋
        else if 1 / 2 < x / 2 ^ k - ((⌊x / 2 ^ k⌋ : Int) : Rat) then ⌊x / 2 ^ k⌋ + 1
        else if ⌊x / 2 ^ k⌋ % 2 = 0 then ⌊x / 2 ^ k⌋ else ⌊x / 2 ^ k⌋ + 1 : Int) : Rat)) *
        2 ^ k := by
    unfold roundF64
    rw [if_neg hx0]
    simp only [abs_of_pos hx, hk, if_neg hnl]
  generalize hfdef : ⌊x / 2 ^ k⌋ = f at hf1 hf2 hf3 hR
  have hsub : x / 2 ^ k - (f : Rat) = (x - (f : Rat) * 2 ^ k) / 2 ^ k := by
    rw [sub_div, mul_div_assoc, div_self (ne_of_gt hu), mul_one]
  refine ⟨k, f, hf3, lt_of_le_of_lt hf1 hm2, ?_, ?_, ?_, ?_, ?_, ?_⟩
  · have := (le_div_iff₀ hu).mp hf1
    exact this
  · have := (div_lt_iff₀ hu).mp hf2
    exact this
  · by_cases hr : x / 2 ^ k - (f : Rat) < 1 / 2
    · left
      rw [hR, if_pos hr]
    · have hfx : (f : Rat) * 2 ^ k < x := by
        have : (f : Rat) < x / 2 ^ k := by linarith
        exact (lt_div_iff₀ hu).mp this
      by_cases hr2 : 1 / 2 < x / 2 ^ k - (f : Rat)
      · right
        refine ⟨hfx, ?_⟩
        rw [hR, if_neg hr, if_pos hr2]
        push_cast
        rfl
      · by_cases hev : f % 2 = 0
        · left
          rw [hR, if_neg hr, if_neg hr2, if_pos hev]
        · right
          refine ⟨hfx, ?_⟩
          rw [hR, if_neg hr, if_neg hr2, if_neg hev]
          push_cast
          rfl
  · intro j hj
    have hm : x / 2 ^ k = (j : Rat) := by
      rw [hj]
      field_simp
    have hfj : f = j := by
      rw [← hfdef, hm]
      exact Int.floor_intCast j
    have hr : x / 2 ^ k - (f : Rat) < 1 / 2 := by
      rw [hm, hfj]; norm_num
    rw [hR, if_pos hr, hfj, ← hj]
  · intro h
    have hr : x / 2 ^ k - (f : Rat) < 1 / 2 := by
      rw [hsub, div_lt_iff₀ hu]
      linarith
    rw [hR, if_pos hr]
  · intro h
    have hr2 : 1 / 2 < x / 2 ^ k - (f : Rat) := by
      rw [hsub, lt_div_iff₀ hu]
      linarith
    have hr : ¬ x / 2 ^ k - (f : Rat) < 1 / 2 := by linarith
    rw [hR, if_neg hr, if_pos hr2]
    push_cast
    rfl

theorem two_mul_zpow_le (a b : Int) (h : a + 1 ≤ b) : 2 * (2 : Rat) ^ a ≤ 2 ^ b := by
  have h1 : (2 : Rat) ^ (a + 1) ≤ 2 ^ b := zpow_le_zpow_right₀ (by norm_num) h
  rw [zpow_add₀ (by norm_num : (2 : Rat) ≠ 0), zpow_one] at h1
  linarith

theorem le_roundF64_of_le (x : Rat) (m k : Int) (hm1 : 2 ^ 52 ≤ m) (hm2 : m < 2 ^ 53)
    (h : (m : Rat) * 2 ^ k ≤ x) : (m : Rat) * 2 ^ k ≤ roundF64 x := by
  have hk : (0 : Rat) < 2 ^ k := zpow_pos (by norm_num) _
  have hmq1 : (2 : Rat) ^ 52 ≤ (m : Rat) := by exact_mod_cast hm1
  have hmq2 : (m : Rat) < 2 ^ 53 := by exact_mod_cast hm2
  have hx : 0 < x := lt_of_lt_of_le (mul_pos (by linarith [pow_pos (by norm_num : (0 : Rat) < 2) 52]) hk) h
  obtain ⟨k0, f, hf3, hf4, hfx, hxf, hR, _, _, _⟩ := roundF64_pos_cases x hx
  have hk0 : (0 : Rat) < 2 ^ k0 := zpow_pos (by norm_num) _
  have hRge : (f : Rat) * 2 ^ k0 ≤ roundF64 x := by
    rcases hR with h1 | ⟨_, h1⟩
    · rw [h1]
    · rw [h1]; nlinarith
  refine le_trans ?_ hRge
  rcases lt_trichotomy k k0 with hlt | heq | hgt
  · have h2 := two_mul_zpow_le k k0 (by omega)
    have : (m : Rat) * 2 ^ k ≤ 2 ^ 52 * (2 * 2 ^ k) := by nlinarith
    have h3 : (2 : Rat) ^ 52 * (2 * 2 ^ k) ≤ 2 ^ 52 * 2 ^ k0 := by nlinarith
    have h4 : (2 : Rat) ^ 52 * 2 ^ k0 ≤ (f : Rat) * 2 ^ k0 := by nlinarith
    linarith
  · subst heq
    have h5 : (m : Rat) < (f : Rat) + 1 := by
      by_contra hcon
      have : ((f : Rat) + 1) * 2 ^ k ≤ (m : Rat) * 2 ^ k := by nlinarith [not_lt.mp hcon]
      linarith
    have h6 : m < f + 1 := by exact_mod_cast h5
    have h7 : m ≤ f := by omega
    have h8 : (m : Rat) ≤ (f : Rat) := by exact_mod_cast h7
    nlinarith
  · exfalso
    have h2 := two_mul_zpow_le k0 k (by omega)
    have hf5 : f + 1 ≤ 2 ^ 53 := by
      have : f < 2 ^ 53 := by exact_mod_cast hf4
      omega
    have hf6 : (f : Rat) + 1 ≤ 2 ^ 53 := by exact_mod_cast hf5
    have h3 : x < (2 : Rat) ^ 53 * 2 ^ k0 := by nlinarith
    have h4 : (2 : Rat) ^ 53 * 2 ^ k0 ≤ 2 ^ 52 * 2 ^ k := by nlinarith
    have h5 : (2 : Rat) ^ 52 * 2 ^ k ≤ (m : Rat) * 2 ^ k := by nlinarith
    linarith

theorem roundF64_le_of_le (x : Rat) (hx : 0 < x) (m k : Int) (hm1 : 2 ^ 52 ≤ m)
    (hm2 : m < 2 ^ 53) (h : x ≤ (m : Rat) * 2 ^ k) : roundF64 x ≤ (m : Rat) * 2 ^ k := by
  have hk : (0 : Rat) < 2 ^ k := zpow_pos (by norm_num) _
  have hmq1 : (2 : Rat) ^ 52 ≤ (m : Rat) := by exact_mod_cast hm1
  have hmq2 : (m : Rat) < 2 ^ 53 := by exact_mod_cast hm2
  obtain ⟨k0, f, hf3, hf4, hfx, hxf, hR, _, _, _⟩ := roundF64_pos_cases x hx
  have hk0 : (0 : Rat) < 2 ^ k0 := zpow_pos (by norm_num) _
  rcases hR with h1 | ⟨hlt1, h1⟩
  · rw [h1]; linarith
  · rw [h1]
    rcases lt_trichotomy k k0 with hlt | heq | hgt
    · exfalso
      have h2 := two_mul_zpow_le k k0 (by omega)
      have h3 : (m : Rat) * 2 ^ k < 2 ^ 52 * (2 * 2 ^ k) := by nlinarith
      have h4 : (2 : Rat) ^ 52 * (2 * 2 ^ k) ≤ 2 ^ 52 * 2 ^ k0 := by nlinarith
      have h5 : (2 : Rat) ^ 52 * 2 ^ k0 ≤ (f : Rat) * 2 ^ k0 := by nlinarith
      linarith
    · subst heq
      have h5 : (f : Rat) < (m : Rat) := by
        by_contra hcon
        have : (m : Rat) * 2 ^ k ≤ (f : Rat) * 2 ^ k := by nlinarith [not_lt.mp hcon]
        linarith
      have h6 : f < m := by exact_mod_cast h5
      have h7 : f + 1 ≤ m := by omega
      have h8 : (f : Rat) + 1 ≤ (m : Rat) := by exact_mod_cast h7
      nlinarith
    · have h2 := two_mul_zpow_le k0 k (by omega)
      have hf5 : f + 1 ≤ 2 ^ 53 := by
        have : f < 2 ^ 53 := by exact_mod_cast hf4
        omega
      have hf6 : (f : Rat) + 1 ≤ 2 ^ 53 := by exact_mod_cast hf5
      have h3 : ((f : Rat) + 1) * 2 ^ k0 ≤ (2 : Rat) ^ 53 * 2 ^ k0 := by nlinarith
      have h4 : (2 : Rat) ^ 53 * 2 ^ k0 ≤ 2 ^ 52 * 2 ^ k := by nlinarith
      have h5 : (2 : Rat) ^ 52 * 2 ^ k ≤ (m : Rat) * 2 ^ k := by nlinarith
      linarith

theorem roundF64_natCast (n : Nat) (hn : n < 2 ^ 53) : roundF64 (n : Rat) = (n : Rat) := by
  rcases Nat.eq_zero_or_pos n with rfl | hpos
  · simp [roundF64]
  · have hx : (0 : Rat) < (n : Rat) := by exact_mod_cast hpos
    obtain ⟨k, f, hf3, hf4, hfx, hxf, _, hexact, _, _⟩ := roundF64_pos_cases (n : Rat) hx
    have hk : (0 : Rat) < 2 ^ k := zpow_pos (by norm_num) _
    have hk0 : k ≤ 0 := by
      by_contra hcon
      have h1 : (2 : Rat) ^ (1 : Int) ≤ 2 ^ k := zpow_le_zpow_right₀ (by norm_num) (by omega)
      rw [zpow_one] at h1
      have h2 : (n : Rat) < 2 ^ 53 := by exact_mod_cast hn
      nlinarith
    obtain ⟨j, hj⟩ : ∃ j : Nat, k = -(j : Int) := ⟨k.natAbs, by omega⟩
    apply hexact ((n : Int) * 2 ^ j)
    rw [hj, zpow_neg, zpow_natCast]
    push_cast
    field_simp

theorem roundF64_zero : roundF64 0 = 0 := by simp [roundF64]

theorem roundF64_lt_iff (x c : Rat) (mlo mhi k : Int) (hx : 0 ≤ x)
    (h1 : 2 ^ 52 ≤ mlo) (h2 : mlo ≤ mhi) (h3 : mhi + 1 < 2 ^ 53)
    (hlo : (mlo : Rat) * 2 ^ k ≤ c) (hhi : c ≤ (mhi : Rat) * 2 ^ k)
    (hbelow : x < c → x ≤ (mlo : Rat) * 2 ^ k)
    (habove : c < x → ((mhi + 1 : Int) : Rat) * 2 ^ k ≤ x) :
    roundF64 c < roundF64 x ↔ c < x := by
  have hk : (0 : Rat) < 2 ^ k := zpow_pos (by norm_num) _
  have hmlo : (0 : Rat) < (mlo : Rat) := by
    have : (0 : Int) < mlo := by omega
    exact_mod_cast this
  have htlo : (0 : Rat) < (mlo : Rat) * 2 ^ k := mul_pos hmlo hk
  have hc : 0 < c := lt_of_lt_of_le htlo hlo
  have hBc : (mlo : Rat) * 2 ^ k ≤ roundF64 c :=
    le_roundF64_of_le c mlo k h1 (by omega) hlo
  have hAc : roundF64 c ≤ (mhi : Rat) * 2 ^ k :=
    roundF64_le_of_le c hc mhi k (by omega) (by omega) hhi
  constructor
  · intro hlt
    by_contra hcon
    rcases lt_or_eq_of_le (not_lt.mp hcon) with hxc | hxc
    · have hxlo := hbelow hxc
      rcases lt_or_eq_of_le hx with hpos | hzero
      · have := roundF64_le_of_le x hpos mlo k h1 (by omega) hxlo
        linarith
      · rw [← hzero, roundF64_zero] at hlt
        linarith
    · rw [hxc] at hlt
      exact lt_irrefl _ hlt
  · intro hcx
    have hB := le_roundF64_of_le x (mhi + 1) k (by omega) h3 (habove hcx)
    have : (mhi : Rat) * 2 ^ k < ((mhi + 1 : Int) : Rat) * 2 ^ k := by
      push_cast
      nlinarith
    linarith

theorem floatDiv_of_exact (a b : Int) (ha : 0 ≤ a) (ha2 : a < 2 ^ 53) (hb : 0 < b)
    (hb2 : b < 2 ^ 53) :
    floatDiv a b = FloatVal.finite (roundF64 ((a : Rat) / (b : Rat))) := by
  have ea : roundF64 (a : Rat) = (a : Rat) := by
    have h := roundF64_natCast a.toNat (by omega)
    have e : ((a.toNat : Nat) : Int) = a := Int.toNat_of_nonneg ha
    have e2 : ((a.toNat : Nat) : Rat) = (a : Rat) := by exact_mod_cast e
    rw [e2] at h
    exact h
  have eb : roundF64 (b : Rat) = (b : Rat) := by
    have h := roundF64_natCast b.toNat (by omega)
    have e : ((b.toNat : Nat) : Int) = b := Int.toNat_of_nonneg (by omega)
    have e2 : ((b.toNat : Nat) : Rat) = (b : Rat) := by exact_mod_cast e
    rw [e2] at h
    exact h
  unfold floatDiv
  rw [if_neg (by omega), ea, eb]

theorem floatDiv_gt_three_tenths (a b : Int) (ha : 0 ≤ a) (hab : a ≤ b) (hb : 0 < b)
    (hb2 : b ≤ 2 ^ 48) :
    (floatDiv a b).gt (roundF64 (3 / 10)) =
      decide ((3 : Rat) / 10 < (a : Rat) / (b : Rat)) := by
  have hbq : (0 : Rat) < (b : Rat) := by exact_mod_cast hb
  have elo : (((5404319552844595 : Int) : Rat)) * 2 ^ (-54 : Int) = 5404319552844595 / 18014398509481984 := by norm_num
  have ehi : (((5404319552844596 + 1 : Int) : Rat)) * 2 ^ (-54 : Int) = 5404319552844597 / 18014398509481984 := by norm_num
  rw [floatDiv_of_exact a b ha (by omega) hb (by omega)]
  simp only [FloatVal.gt]
  congr 1
  apply propext
  apply roundF64_lt_iff ((a : Rat) / (b : Rat)) (3 / 10) 5404319552844595 5404319552844596 (-54)
    (div_nonneg (by exact_mod_cast ha) (le_of_lt hbq)) (by norm_num) (by norm_num) (by norm_num)
    (by norm_num) (by norm_num)
  · intro h
    rw [div_lt_div_iff₀ hbq (by norm_num)] at h
    have h1 : a * 10 < 3 * b := by exact_mod_cast h
    have h2 : a * 18014398509481984 ≤ 5404319552844595 * b := by omega
    rw [elo, div_le_div_iff₀ hbq (by norm_num)]
    exact_mod_cast h2
  · intro h
    rw [div_lt_div_iff₀ (by norm_num) hbq] at h
    have h1 : 3 * b < a * 10 := by exact_mod_cast h
    have h2 : 5404319552844597 * b ≤ a * 18014398509481984 := by omega
    rw [ehi, div_le_div_iff₀ (by norm_num) hbq]
    exact_mod_cast h2

theorem floatDiv_gt_half (a b : Int) (ha : 0 ≤ a) (hab : a ≤ b) (hb : 0 < b)
    (hb2 : b ≤ 2 ^ 48) :
    (floatDiv a b).gt (roundF64 (1 / 2)) =
      decide ((1 : Rat) / 2 < (a : Rat) / (b : Rat)) := by
  have hbq : (0 : Rat) < (b : Rat) := by exact_mod_cast hb
  have elo : (((4503599627370496 : Int) : Rat)) * 2 ^ (-53 : Int) = 4503599627370496 / 9007199254740992 := by norm_num
  have ehi : (((4503599627370496 + 1 : Int) : Rat)) * 2 ^ (-53 : Int) = 4503599627370497 / 9007199254740992 := by norm_num
  rw [floatDiv_of_exact a b ha (by omega) hb (by omega)]
  simp only [FloatVal.gt]
  congr 1
  apply propext
  apply roundF64_lt_iff ((a : Rat) / (b : Rat)) (1 / 2) 4503599627370496 4503599627370496 (-53)
    (div_nonneg (by exact_mod_cast ha) (le_of_lt hbq)) (by norm_num) (by norm_num) (by norm_num)
    (by norm_num) (by norm_num)
  · intro h
    rw [div_lt_div_iff₀ hbq (by norm_num)] at h
    have h1 : a * 2 < 1 * b := by exact_mod_cast h
    have h2 : a * 9007199254740992 ≤ 4503599627370496 * b := by omega
    rw [elo, div_le_div_iff₀ hbq (by norm_num)]
    exact_mod_cast h2
  · intro h
    rw [div_lt_div_iff₀ (by norm_num) hbq] at h
    have h1 : 1 * b < a * 2 := by exact_mod_cast h
    have h2 : 4503599627370497 * b ≤ a * 9007199254740992 := by omega
    rw [ehi, div_le_div_iff₀ (by norm_num) hbq]
    exact_mod_cast h2

theorem floatDiv_gt_two_fifths (a b : Int) (ha : 0 ≤ a) (hab : a ≤ b) (hb : 0 < b)
    (hb2 : b ≤ 2 ^ 48) :
    (floatDiv a b).gt (roundF64 (2 / 5)) =
      decide ((2 : Rat) / 5 < (a : Rat) / (b : Rat)) := by
  have hbq : (0 : Rat) < (b : Rat) := by exact_mod_cast hb
  have elo : (((7205759403792793 : Int) : Rat)) * 2 ^ (-54 : Int) = 7205759403792793 / 18014398509481984 := by norm_num
  have ehi : (((7205759403792794 + 1 : Int) : Rat)) * 2 ^ (-54 : Int) = 7205759403792795 / 18014398509481984 := by norm_num
  rw [floatDiv_of_exact a b ha (by omega) hb (by omega)]
  simp only [FloatVal.gt]
  congr 1
  apply propext
  apply roundF64_lt_iff ((a : Rat) / (b : Rat)) (2 / 5) 7205759403792793 7205759403792794 (-54)
    (div_nonneg (by exact_mod_cast ha) (le_of_lt hbq)) (by norm_num) (by norm_num) (by norm_num)
    (by norm_num) (by norm_num)
  · intro h
    rw [div_lt_div_iff₀ hbq (by norm_num)] at h
    have h1 : a * 5 < 2 * b := by exact_mod_cast h
    have h2 : a * 18014398509481984 ≤ 7205759403792793 * b := by omega
    rw [elo, div_le_div_iff₀ hbq (by norm_num)]
    exact_mod_cast h2
  · intro h
    rw [div_lt_div_iff₀ (by norm_num) hbq] at h
    have h1 : 2 * b < a * 5 := by exact_mod_cast h
    have h2 : 7205759403792795 * b ≤ a * 18014398509481984 := by omega
    rw [ehi, div_le_div_iff₀ (by norm_num) hbq]
    exact_mod_cast h2

theorem floatDiv_gt_fifth (a b : Int) (ha : 0 ≤ a) (hab : a ≤ b) (hb : 0 < b)
    (hb2 : b ≤ 2 ^ 48) :
    (floatDiv a b).gt (roundF64 (1 / 5)) =
      decide ((1 : Rat) / 5 < (a : Rat) / (b : Rat)) := by
  have hbq : (0 : Rat) < (b : Rat) := by exact_mod_cast hb
  have elo : (((7205759403792793 : Int) : Rat)) * 2 ^ (-55 : Int) = 7205759403792793 / 36028797018963968 := by norm_num
  have ehi : (((7205759403792794 + 1 : Int) : Rat)) * 2 ^ (-55 : Int) = 7205759403792795 / 36028797018963968 := by norm_num
  rw [floatDiv_of_exact a b ha (by omega) hb (by omega)]
  simp only [FloatVal.gt]
  congr 1
  apply propext
  apply roundF64_lt_iff ((a : Rat) / (b : Rat)) (1 / 5) 7205759403792793 7205759403792794 (-55)
    (div_nonneg (by exact_mod_cast ha) (le_of_lt hbq)) (by norm_num) (by norm_num) (by norm_num)
    (by norm_num) (by norm_num)
  · intro h
    rw [div_lt_div_iff₀ hbq (by norm_num)] at h
    have h1 : a * 5 < 1 * b := by exact_mod_cast h
    have h2 : a * 36028797018963968 ≤ 7205759403792793 * b := by omega
    rw [elo, div_le_div_iff₀ hbq (by norm_num)]
    exact_mod_cast h2
  · intro h
    rw [div_lt_div_iff₀ (by norm_num) hbq] at h
    have h1 : 1 * b < a * 5 := by exact_mod_cast h
    have h2 : 7205759403792795 * b ≤ a * 36028797018963968 := by omega
    rw [ehi, div_le_div_iff₀ (by norm_num) hbq]
    exact_mod_cast h2

theorem floatDiv_gt_three_fifths (a b : Int) (ha : 0 ≤ a) (hab : a ≤ b) (hb : 0 < b)
    (hb2 : b ≤ 2 ^ 48) :
    (floatDiv a b).gt (roundF64 (3 / 5)) =
      decide ((3 : Rat) / 5 < (a : Rat) / (b : Rat)) := by
  have hbq : (0 : Rat) < (b : Rat) := by exact_mod_cast hb
  have elo : (((5404319552844595 : Int) : Rat)) * 2 ^ (-53 : Int) = 5404319552844595 / 9007199254740992 := by norm_num
  have ehi : (((5404319552844596 + 1 : Int) : Rat)) * 2 ^ (-53 : Int) = 5404319552844597 / 9007199254740992 := by norm_num
  rw [floatDiv_of_exact a b ha (by omega) hb (by omega)]
  simp only [FloatVal.gt]
  congr 1
  apply propext
  apply roundF64_lt_iff ((a : Rat) / (b : Rat)) (3 / 5) 5404319552844595 5404319552844596 (-53)
    (div_nonneg (by exact_mod_cast ha) (le_of_lt hbq)) (by norm_num) (by norm_num) (by norm_num)
    (by norm_num) (by norm_num)
  · intro h
    rw [div_lt_div_iff₀ hbq (by norm_num)] at h
    have h1 : a * 5 < 3 * b := by exact_mod_cast h
    have h2 : a * 9007199254740992 ≤ 5404319552844595 * b := by omega
    rw [elo, div_le_div_iff₀ hbq (by norm_num)]
    exact_mod_cast h2
  · intro h
    rw [div_lt_div_iff₀ (by norm_num) hbq] at h
    have h1 : 3 * b < a * 5 := by exact_mod_cast h
    have h2 : 5404319552844597 * b ≤ a * 9007199254740992 := by omega
    rw [ehi, div_le_div_iff₀ (by norm_num) hbq]
    exact_mod_cast h2

theorem roundF64_eq_of_near (x : Rat) (m k : Int) (hm1 : 2 ^ 52 ≤ m) (hm2 : m < 2 ^ 53)
    (hlo : (2 : Rat) ^ 52 * 2 ^ k ≤ x)
    (h1 : (2 * (m : Rat) - 1) * 2 ^ k < 2 * x) (h2 : 2 * x < (2 * (m : Rat) + 1) * 2 ^ k) :
    roundF64 x = (m : Rat) * 2 ^ k := by
  have hk : (0 : Rat) < 2 ^ k := zpow_pos (by norm_num) _
  have hmq1 : (2 : Rat) ^ 52 ≤ (m : Rat) := by exact_mod_cast hm1
  have hmq2 : (m : Rat) < 2 ^ 53 := by exact_mod_cast hm2
  have hm3 : (m : Rat) + 1 ≤ 2 ^ 53 := by
    have : m + 1 ≤ 2 ^ 53 := by omega
    exact_mod_cast this
  have hx : 0 < x := lt_of_lt_of_le (mul_pos (by norm_num) hk) hlo
  have hhi : x < (2 : Rat) ^ 53 * 2 ^ k := by nlinarith
  obtain ⟨k0, f, hf3, hf4, hfx, hxf, _, _, hdown, hup⟩ := roundF64_pos_cases x hx
  have hk0 : (0 : Rat) < 2 ^ k0 := zpow_pos (by norm_num) _
  have hf5 : (f : Rat) + 1 ≤ 2 ^ 53 := by
    have : f < 2 ^ 53 := by exact_mod_cast hf4
    have : f + 1 ≤ 2 ^ 53 := by omega
    exact_mod_cast this
  have hkk : k0 = k := by
    rcases lt_trichotomy k0 k with hlt | heq | hgt
    · exfalso
      have h3 := two_mul_zpow_le k0 k (by omega)
      have h4 : x < (2 : Rat) ^ 53 * 2 ^ k0 := by nlinarith
      nlinarith
    · exact heq
    · exfalso
      have h3 := two_mul_zpow_le k k0 (by omega)
      have h4 : (2 : Rat) ^ 52 * 2 ^ k0 ≤ x := by nlinarith
      nlinarith
  subst hkk
  have hfm1 : m - 1 ≤ f := by
    by_contra hcon
    have h3 : f + 2 ≤ m := by omega
    have h4 : (f : Rat) + 2 ≤ (m : Rat) := by exact_mod_cast h3
    nlinarith
  have hfm2 : f ≤ m := by
    by_contra hcon
    have h3 : m + 1 ≤ f := by omega
    have h4 : (m : Rat) + 1 ≤ (f : Rat) := by exact_mod_cast h3
    nlinarith
  rcases (by omega : f = m ∨ f = m - 1) with hf | hf
  · rw [hf] at hdown
    apply hdown
    linarith
  · rw [hf] at hup
    have := hup (by push_cast; linarith)
    rw [this]
    push_cast
    ring

/-! ## Lemmas on scoring and Flip 7 -/

theorem foldl_scoreStep (hand : List Card) (st : Int × Bool) (hst : wrap64 st.1 = st.1) :
    hand.foldl scoreStep st =
      (wrap64 (st.1 + (numberValues hand).sum + (modifierBonuses hand).sum),
        st.2 || holdsX2 hand) := by
  induction hand generalizing st with
  | nil => simp [numberValues, modifierBonuses, holdsX2, hst]
  | cons c cs ih =>
    rw [List.foldl_cons]
    by_cases hn : c.CardType = "number"
    · have hm : c.CardType ≠ "modifier" := by rw [hn]; decide
      have hs : scoreStep st c = (wrap64 (st.1 + c.Value), st.2) := by simp [scoreStep, hn]
      rw [hs, ih _ (wrap64_wrap64 _)]
      simp [numberValues, modifierBonuses, holdsX2, hn]
      unfold wrap64; omega
    · by_cases hm : c.CardType = "modifier"
      · cases hx : c.IsX2
        · have hs : scoreStep st c = (wrap64 (st.1 + c.Modifier), st.2) := by
            simp [scoreStep, hn, hm, hx]
          rw [hs, ih _ (wrap64_wrap64 _)]
          simp [numberValues, modifierBonuses, holdsX2, hn, hm, hx]
          unfold wrap64; omega
        · have hs : scoreStep st c = (st.1, true) := by simp [scoreStep, hn, hm, hx]
          rw [hs, ih (st.1, true) hst]
          simp [numberValues, modifierBonuses, holdsX2, hn, hm, hx]
      · have hs : scoreStep st c = st := by simp [scoreStep, hn, hm]
        rw [hs, ih _ hst]
        simp [numberValues, modifierBonuses, holdsX2, hn, hm]

theorem scoreStep_roundScore (hand : List Card) :
    (if (hand.foldl scoreStep (0, false)).2 then wrap64 ((hand.foldl scoreStep (0, false)).1 * 2)
      else (hand.foldl scoreStep (0, false)).1) = wrap64 (roundScore hand) := by
  rw [foldl_scoreStep hand (0, false) wrap64_zero]
  cases hx : holdsX2 hand
  · simp [roundScore, hx]
  · simp [roundScore, hx, wrap64_mul_two]

theorem foldl_flip7Step_toFinset (hand : List Card) (m : List Int) :
    (hand.foldl flip7Step m).toFinset = m.toFinset ∪ (numberValues hand).toFinset := by
  induction hand generalizing m with
  | nil => simp [numberValues]
  | cons c cs ih =>
    rw [List.foldl_cons, ih]
    by_cases hn : c.CardType = "number"
    · simp [flip7Step, numberValues, hn]
      ext x; simp; tauto
    · simp [flip7Step, numberValues, hn]

theorem foldl_flip7Step_nodup (hand : List Card) (m : List Int) (hm : m.Nodup) :
    (hand.foldl flip7Step m).Nodup := by
  induction hand generalizing m with
  | nil => simpa using hm
  | cons c cs ih =>
    rw [List.foldl_cons]
    apply ih
    unfold flip7Step
    split
    · exact hm.insert
    · exact hm

theorem foldl_flip7Step_length (hand : List Card) :
    (hand.foldl flip7Step []).length = distinctNumberCount hand := by
  have h1 := foldl_flip7Step_nodup hand [] List.nodup_nil
  have h2 := foldl_flip7Step_toFinset hand []
  rw [distinctNumberCount, ← List.toFinset_card_of_nodup h1, h2]
  simp

theorem outOfRange_eq_false (g : Game) (p : Int) (player : PlayerState)
    (h0 : 0 ≤ p) (hp : g.Players[p.toNat]? = some player) : outOfRange g p = false := by
  have hlt : p.toNat < g.Players.length := by
    rcases List.getElem?_eq_some.mp hp with ⟨h, _⟩
    exact h
  simp only [outOfRange, Bool.or_eq_false_iff, decide_eq_false_iff_not]
  omega

theorem HasFlip7_valid (g : Game) (p : Int) (player : PlayerState)
    (h0 : 0 ≤ p) (hp : g.Players[p.toNat]? = some player) :
    HasFlip7 g p = (distinctNumberCount player.Cards == 7) := by
  simp [HasFlip7, outOfRange_eq_false g p player h0 hp, hp, foldl_flip7Step_length]

/-- `CalculateScore` for a valid player id: 0 for a bust player, and otherwise
the round score plus the Flip 7 bonus, reduced into the 64-bit `int` range. -/
theorem CalculateScore_roundScore (g : Game) (p : Int) (player : PlayerState) (h0 : 0 ≤ p)
    (hp : g.Players[p.toNat]? = some player) :
    CalculateScore g p =
      if player.IsBust then 0
      else wrap64 (roundScore player.Cards + (if HasFlip7 g p then 15 else 0)) := by
  simp only [CalculateScore, outOfRange_eq_false g p player h0 hp, hp, scoreStep_roundScore]
  cases hb : player.IsBust
  · cases hf : HasFlip7 g p
    · simp [wrap64_wrap64]
    · simp [wrap64_add_left]
  · simp

/-! ## Scoring and Flip 7: the claims -/

/-- C1: for a valid player id, `CalculateScore` is 0 for a bust player and
otherwise the sum of the Number values and of the +1/+2/+3 bonuses, doubled when
the hand holds an x2 card, plus 15 (added after the doubling) exactly when
`HasFlip7` holds. The sum, the doubling and the addition of 15 are those of the
64-bit `int`: the result is that number reduced into the `int` range, and the
number itself whenever it lies in the range. The hands {5,10,+3}, {5,10,x2} and
{0,..,6,x2} score 18, 30 and 57. -/
theorem C1_calculateScore_formula :
    (∀ (g : Game) (p : Int) (player : PlayerState), 0 ≤ p →
        g.Players[p.toNat]? = some player →
        CalculateScore g p =
          if player.IsBust then 0
          else
            wrap64
              ((if holdsX2 player.Cards
                then ((numberValues player.Cards).sum + (modifierBonuses player.Cards).sum) * 2
                else (numberValues player.Cards).sum + (modifierBonuses player.Cards).sum)
              + (if HasFlip7 g p then 15 else 0))) ∧
    (∀ (g : Game) (p : Int) (player : PlayerState), 0 ≤ p →
        g.Players[p.toNat]? = some player →
        -2 ^ 63 ≤ roundScore player.Cards + (if HasFlip7 g p then 15 else 0) →
        roundScore player.Cards + (if HasFlip7 g p then 15 else 0) < 2 ^ 63 →
        CalculateScore g p =
          if player.IsBust then 0
          else
            (if holdsX2 player.Cards
              then ((numberValues player.Cards).sum + (modifierBonuses player.Cards).sum) * 2
              else (numberValues player.Cards).sum + (modifierBonuses player.Cards).sum)
            + (if HasFlip7 g p then 15 else 0)) ∧
    (∀ r : Rng, CalculateScore
        (gameWithHand [numberCard 5, numberCard 10, modifierCard 3] r) 0 = 18) ∧
    (∀ r : Rng, CalculateScore
        (gameWithHand [numberCard 5, numberCard 10, x2Card] r) 0 = 30) ∧
    (∀ r : Rng, CalculateScore (gameWithHand flip7BonusHand r) 0 = 57) := by
  refine ⟨?_, ?_, fun _ => rfl, fun _ => rfl, fun _ => rfl⟩
  · intro g p player h0 hp
    rw [CalculateScore_roundScore g p player h0 hp]
    rfl
  · intro g p player h0 hp h1 h2
    rw [CalculateScore_roundScore g p player h0 hp, wrap64_of_fits _ h1 h2]
    rfl

/-- Instance of C1 at the Flip 7 hand {0,..,6,x2} of `TestFlip7Bonus`. -/
theorem C1_calculateScore_formula_witness :
    CalculateScore (gameWithHand flip7BonusHand zeroRng) 0
      = (0 + 1 + 2 + 3 + 4 + 5 + 6) * 2 + 15 := by
  rw [C1_calculateScore_formula.2.1 (gameWithHand flip7BonusHand zeroRng) 0
    (soloPlayer flip7BonusHand) (by decide) rfl (by decide) (by decide)]
  decide

/-- C3: for a valid player id, `HasFlip7` is true exactly when the Number cards
of the hand show 7 distinct values; cards of any other type are not counted. -/
theorem C3_hasFlip7_iff (g : Game) (p : Int) (player : PlayerState) (h0 : 0 ≤ p)
    (hp : g.Players[p.toNat]? = some player) :
    HasFlip7 g p = true ↔ distinctNumberCount player.Cards = 7 := by
  rw [HasFlip7_valid g p player h0 hp]
  simp

/-- Instance of C3 at the hand of `TestFlip7Detection`: seven distinct Number
values and a +2 card. -/
theorem C3_hasFlip7_iff_witness :
    HasFlip7 (gameWithHand flip7DetectionHand zeroRng) 0 = true :=
  (C3_hasFlip7_iff (gameWithHand flip7DetectionHand zeroRng) 0
    (soloPlayer flip7DetectionHand) (by decide) rfl).2 (by decide)

/-! ## The shuffle permutes the deck -/

theorem swapAt_perm (deck : List Card) (i j : Nat) : (swapAt deck i j).Perm deck := by
  unfold swapAt
  split
  · rename_i a b hi hj
    obtain ⟨hil, hia⟩ := List.getElem?_eq_some.mp hi
    obtain ⟨hjl, hjb⟩ := List.getElem?_eq_some.mp hj
    rw [List.perm_iff_count]
    intro x
    have hjl2 : j < (deck.set i b).length := by simpa using hjl
    rw [List.count_set a x (deck.set i b) j hjl2, List.count_set b x deck i hil]
    have ha : a ∈ deck := hia ▸ List.getElem_mem hil
    by_cases hij : i = j
    · subst hij
      have hab : a = b := by rw [← hia, ← hjb]
      subst hab
      have hpos : 0 < List.count a deck := List.count_pos_iff.mpr ha
      simp only [List.getElem_set_self, hia]
      by_cases hx : a = x
      · subst hx; simp; omega
      · simp [hx]
    · have hget : (deck.set i b)[j] = b := by
        rw [List.getElem_set_ne hij]; exact hjb
      rw [hget, hia]
      by_cases hx : a = x
      · subst hx
        have hpos : 0 < List.count a deck := List.count_pos_iff.mpr ha
        by_cases hb : b = a
        · simp [hb]; omega
        · simp [hb]; omega
      · by_cases hb : b = x
        · simp [hx, hb]
        · simp [hx, hb]
  · exact List.Perm.refl _

theorem shuffleLoop_perm (i : Nat) (deck : List Card) (r : Rng) :
    (shuffleLoop i deck r).1.Perm deck := by
  induction i generalizing deck r with
  | zero => exact List.Perm.refl _
  | succ k ih =>
    simp only [shuffleLoop]
    exact (ih _ _).trans (swapAt_perm deck (k + 1) _)

theorem ShuffleDeck_perm (g : Game) : (ShuffleDeck g).Deck.Perm g.Deck :=
  shuffleLoop_perm _ _ _

theorem ShuffleDeck_players (g : Game) : (ShuffleDeck g).Players = g.Players := rfl

theorem ShuffleDeck_discard (g : Game) : (ShuffleDeck g).DiscardPile = g.DiscardPile := rfl

theorem CreateDeck_players (g : Game) : (CreateDeck g).Players = g.Players :=
  ShuffleDeck_players _

theorem ReshuffleDeck_players (g : Game) : (ReshuffleDeck g).Players = g.Players :=
  ShuffleDeck_players _

theorem CreateDeck_perm (g : Game) : (CreateDeck g).Deck.Perm unshuffledDeck :=
  ShuffleDeck_perm _

theorem unshuffledDeck_eq_specDeck : unshuffledDeck = specDeck := by decide

/-! ## Deck construction: the claim -/

/-- C4: whatever the prior state and the random numbers, the deck after
`CreateDeck` is a rearrangement of the 86 specified cards: `count(v)` Number
cards of each value `v` in 0..12 (79 in all), two each of +1, +2 and +3, one x2
card; a repeated call yields the same multiset. -/
theorem C4_createDeck_composition (g : Game) :
    (CreateDeck g).Deck.Perm specDeck ∧
    (CreateDeck g).Deck.length = 86 ∧
    (∀ v : Nat, v ≤ 12 →
      (CreateDeck g).Deck.countP (fun c => c.CardType = "number" ∧ c.Value = (v : Int))
        = if v = 0 ∨ v = 1 then 1 else v) ∧
    (CreateDeck g).Deck.countP (fun c => c.CardType = "number") = 79 ∧
    (∀ m : Int, m ∈ [1, 2, 3] →
      (CreateDeck g).Deck.countP
        (fun c => c.CardType = "modifier" ∧ c.IsX2 = false ∧ c.Modifier = m) = 2) ∧
    (CreateDeck g).Deck.countP (fun c => c.CardType = "modifier" ∧ c.IsX2 = true) = 1 ∧
    (CreateDeck (CreateDeck g)).Deck.Perm (CreateDeck g).Deck := by
  have hp : (CreateDeck g).Deck.Perm specDeck := by
    rw [← unshuffledDeck_eq_specDeck]; exact CreateDeck_perm g
  refine ⟨hp, ?_, ?_, ?_, ?_, ?_, ?_⟩
  · rw [hp.length_eq]; decide
  · intro v hv
    rw [hp.countP_eq]
    interval_cases v <;> decide
  · rw [hp.countP_eq]; decide
  · intro m hm
    rw [hp.countP_eq]
    simp only [List.mem_cons, List.mem_singleton, List.not_mem_nil, or_false] at hm
    rcases hm with rfl | rfl | rfl <;> decide
  · rw [hp.countP_eq]; decide
  · exact (CreateDeck_perm _).trans (CreateDeck_perm g).symm

/-- Instance of C4: a fresh two-player game whose generator always gives 0 gets
twelve 12s and two +3 cards. -/
theorem C4_createDeck_composition_witness :
    (CreateDeck (NewGame 2 zeroRng)).Deck.countP
        (fun c => c.CardType = "number" ∧ c.Value = ((12 : Nat) : Int)) = 12 ∧
    (CreateDeck (NewGame 2 zeroRng)).Deck.countP
        (fun c => c.CardType = "modifier" ∧ c.IsX2 = false ∧ c.Modifier = 3) = 2 :=
  ⟨(C4_createDeck_composition (NewGame 2 zeroRng)).2.2.1 12 (by decide),
   (C4_createDeck_composition (NewGame 2 zeroRng)).2.2.2.2.1 3 (by decide)⟩

/-! ## Drawing -/

theorem DrawCard_cons (g : Game) (c : Card) (rest : List Card) (h : g.Deck = c :: rest) :
    DrawCard g = (some c, { g with Deck := rest }) := by
  simp [DrawCard, h]

theorem ReshuffleDeck_of_empty (g : Game) (hd : g.Deck = []) (hp : g.DiscardPile = []) :
    ReshuffleDeck g = g := by
  cases g with
  | mk players deck discard rng =>
    simp only at hd hp
    subst hd hp
    rfl

theorem DrawCard_of_empty (g : Game) (hd : g.Deck = []) (hp : g.DiscardPile = []) :
    DrawCard g = (none, g) := by
  simp [DrawCard, hd, ReshuffleDeck_of_empty g hd hp]

theorem ReshuffleDeck_perm (g : Game) :
    (ReshuffleDeck g).Deck.Perm (g.Deck ++ g.DiscardPile) :=
  ShuffleDeck_perm _

theorem DrawCard_players (g : Game) : (DrawCard g).2.Players = g.Players := by
  unfold DrawCard
  by_cases h : g.Deck.length = 0
  · simp only [h, if_true]
    split <;> rfl
  · simp only [h, if_false]
    split <;> rfl

theorem DrawCard_reshuffle (g : Game) (hd : g.Deck = []) (hp : g.DiscardPile ≠ []) :
    ∃ card, (DrawCard g).1 = some card ∧ (DrawCard g).2.DiscardPile = [] ∧
      (card :: (DrawCard g).2.Deck).Perm g.DiscardPile := by
  have hperm : (ReshuffleDeck g).Deck.Perm g.DiscardPile := by
    have := ReshuffleDeck_perm g
    simpa [hd] using this
  have hdis : (ReshuffleDeck g).DiscardPile = [] := rfl
  have hlen : g.Deck.length = 0 := by simp [hd]
  unfold DrawCard
  simp only [hlen, if_true]
  cases hdeck : (ReshuffleDeck g).Deck with
  | nil =>
    rw [hdeck] at hperm
    exact absurd (List.Perm.nil_eq hperm) (fun h => hp h.symm)
  | cons c rest =>
    refine ⟨c, rfl, hdis, ?_⟩
    rw [hdeck] at hperm
    exact hperm

/-- C9: drawing from an empty deck with a non-empty discard pile returns a card,
empties the discard pile, and the card with the new deck is a permutation of the
old discard pile, for every random stream; drawing from a non-empty deck returns
the front card, leaves the tail as deck and keeps the discard pile. No player
is touched. -/
theorem C9_drawCard_conserves (g : Game) :
    (g.Deck = [] → g.DiscardPile ≠ [] →
      ∃ card, (DrawCard g).1 = some card ∧ (DrawCard g).2.DiscardPile = [] ∧
        (card :: (DrawCard g).2.Deck).Perm g.DiscardPile ∧
        (DrawCard g).2.Players = g.Players) ∧
    (∀ (c : Card) (rest : List Card), g.Deck = c :: rest →
      (DrawCard g).1 = some c ∧ (DrawCard g).2.Deck = rest ∧
        (DrawCard g).2.DiscardPile = g.DiscardPile ∧ (DrawCard g).2.Players = g.Players) := by
  constructor
  · intro hd hp
    obtain ⟨card, h1, h2, h3⟩ := DrawCard_reshuffle g hd hp
    exact ⟨card, h1, h2, h3, DrawCard_players g⟩
  · intro c rest h
    rw [DrawCard_cons g c rest h]
    exact ⟨rfl, rfl, rfl, rfl⟩

/-! ## Hitting -/

theorem isDuplicate_iff (hand : List Card) (card : Card) :
    isDuplicate hand card = true ↔
      card.CardType = "number" ∧ card.Value ∈ numberValues hand := by
  simp only [isDuplicate, numberValues, Bool.and_eq_true, decide_eq_true_eq, List.any_eq_true,
    List.mem_map, List.mem_filter]
  constructor
  · rintro ⟨h1, e, he, h2, h3⟩
    exact ⟨h1, e, ⟨he, h2⟩, h3⟩
  · rintro ⟨h1, e, ⟨he, h2⟩, h3⟩
    exact ⟨h1, e, he, h2, h3⟩

theorem PlayerHit_active (g : Game) (p : Int) (player : PlayerState) (h0 : 0 ≤ p)
    (hp : g.Players[p.toNat]? = some player) (hb : player.IsBust = false)
    (hs : player.HasStood = false) :
    PlayerHit g p =
      match (DrawCard g).1 with
      | none => (false, (DrawCard g).2)
      | some card =>
        if isDuplicate player.Cards card then
          (true, { (DrawCard g).2 with
            Players := (DrawCard g).2.Players.set p.toNat
              { player with IsBust := true, Cards := [] },
            DiscardPile := (DrawCard g).2.DiscardPile ++ player.Cards })
        else
          (true, { (DrawCard g).2 with
            Players := (DrawCard g).2.Players.set p.toNat
              { player with Cards := player.Cards ++ [card] } }) := by
  simp only [PlayerHit, outOfRange_eq_false g p player h0 hp, hp, hb, hs, ite_self]
  rfl

theorem PlayerHit_bust (g : Game) (p : Int) (player : PlayerState) (card : Card) (h0 : 0 ≤ p)
    (hp : g.Players[p.toNat]? = some player) (hb : player.IsBust = false)
    (hs : player.HasStood = false) (hd : (DrawCard g).1 = some card)
    (hdup : isDuplicate player.Cards card = true) :
    PlayerHit g p =
      (true, { (DrawCard g).2 with
        Players := (DrawCard g).2.Players.set p.toNat
          { player with IsBust := true, Cards := [] },
        DiscardPile := (DrawCard g).2.DiscardPile ++ player.Cards }) := by
  rw [PlayerHit_active g p player h0 hp hb hs]
  simp [hd, hdup]

theorem PlayerHit_append (g : Game) (p : Int) (player : PlayerState) (card : Card) (h0 : 0 ≤ p)
    (hp : g.Players[p.toNat]? = some player) (hb : player.IsBust = false)
    (hs : player.HasStood = false) (hd : (DrawCard g).1 = some card)
    (hdup : isDuplicate player.Cards card = false) :
    PlayerHit g p =
      (true, { (DrawCard g).2 with
        Players := (DrawCard g).2.Players.set p.toNat
          { player with Cards := player.Cards ++ [card] } }) := by
  rw [PlayerHit_active g p player h0 hp hb hs]
  simp [hd, hdup]

theorem lt_length_of_getElem? {α : Type} (l : List α) (i : Nat) (a : α)
    (h : l[i]? = some a) : i < l.length :=
  (List.getElem?_eq_some.mp h).1

/-- The bust branch of `PlayerHit` at `TestBustCondition`: the hand (one 5) goes
to the discard pile, the drawn 5 has left the deck and is in no pile. -/
theorem PlayerHit_bustGame :
    (PlayerHit bustGame 0).1 = true ∧
    (PlayerHit bustGame 0).2.Players = [{ soloPlayer [] with IsBust := true }] ∧
    (PlayerHit bustGame 0).2.Deck = [] ∧
    (PlayerHit bustGame 0).2.DiscardPile = [numberCard 5] := by
  refine ⟨rfl, rfl, rfl, rfl⟩

/-- C2, as stated, fails: with an empty deck the draw first moves the discard
pile (a 5 and a 9) into the deck; the player holding a 9 draws the 9 and busts,
and the discard pile afterwards is the old hand alone, without the 5 of the old
discard pile (which is now the deck). -/
theorem C2_counterexample :
    refillBustGame.Players[(0 : Int).toNat]? = some (soloPlayer [numberCard 9]) ∧
    (soloPlayer [numberCard 9]).IsBust = false ∧
    (soloPlayer [numberCard 9]).HasStood = false ∧
    (DrawCard refillBustGame).1 = some (numberCard 9) ∧
    (numberCard 9).CardType = "number" ∧
    (numberCard 9).Value ∈ numberValues (soloPlayer [numberCard 9]).Cards ∧
    (PlayerHit refillBustGame 0).2.DiscardPile = [numberCard 9] ∧
    (PlayerHit refillBustGame 0).2.Deck = [numberCard 5] ∧
    ¬ (refillBustGame.DiscardPile ++ (soloPlayer [numberCard 9]).Cards ++ [numberCard 9]).Subperm
        (PlayerHit refillBustGame 0).2.DiscardPile := by
  refine ⟨rfl, rfl, rfl, rfl, rfl, by decide, rfl, rfl, ?_⟩
  intro h
  have hl := h.length_le
  have hd : (PlayerHit refillBustGame 0).2.DiscardPile = [numberCard 9] := rfl
  rw [hd] at hl
  simp [refillBustGame, soloPlayer] at hl

/-- C2 (amended): when an active player draws a Number card whose value is
already among the Number cards of the hand, `PlayerHit` returns true, the player
is bust with an empty hand, and the discard pile afterwards contains the discard
pile as the draw left it (the old pile when the deck was non-empty, the empty
pile when the empty deck was refilled from it) and every card of the old
hand. -/
theorem C2_playerHit_bust (g : Game) (p : Int) (player : PlayerState) (card : Card)
    (h0 : 0 ≤ p) (hp : g.Players[p.toNat]? = some player) (hb : player.IsBust = false)
    (hs : player.HasStood = false) (hd : (DrawCard g).1 = some card)
    (hn : card.CardType = "number") (hv : card.Value ∈ numberValues player.Cards) :
    (PlayerHit g p).1 = true ∧
    (∃ player', (PlayerHit g p).2.Players[p.toNat]? = some player' ∧
      player'.IsBust = true ∧ player'.Cards = []) ∧
    ((DrawCard g).2.DiscardPile ++ player.Cards).Subperm (PlayerHit g p).2.DiscardPile ∧
    (g.Deck ≠ [] → (DrawCard g).2.DiscardPile = g.DiscardPile) ∧
    (g.Deck = [] → (DrawCard g).2.DiscardPile = []) := by
  have hdup : isDuplicate player.Cards card = true := (isDuplicate_iff _ _).2 ⟨hn, hv⟩
  have hlt : p.toNat < (DrawCard g).2.Players.length := by
    rw [DrawCard_players]; exact lt_length_of_getElem? _ _ _ hp
  rw [PlayerHit_bust g p player card h0 hp hb hs hd hdup]
  refine ⟨rfl, ⟨_, List.getElem?_set_self hlt, rfl, rfl⟩, List.Subperm.refl _, ?_, ?_⟩
  · intro hne
    obtain ⟨c, rest, hc⟩ := List.exists_cons_of_ne_nil hne
    rw [DrawCard_cons g c rest hc]
  · intro he
    by_cases hdp : g.DiscardPile = []
    · rw [DrawCard_of_empty g he hdp]; exact hdp
    · obtain ⟨_, _, h2, _⟩ := DrawCard_reshuffle g he hdp
      exact h2

/-- Instance of C2 (amended) at `TestBustCondition`. -/
theorem C2_playerHit_bust_witness :
    (PlayerHit bustGame 0).1 = true ∧
    (∃ player', (PlayerHit bustGame 0).2.Players[(0 : Int).toNat]? = some player' ∧
      player'.IsBust = true ∧ player'.Cards = []) ∧
    ((DrawCard bustGame).2.DiscardPile ++ (soloPlayer [numberCard 5]).Cards).Subperm
      (PlayerHit bustGame 0).2.DiscardPile ∧
    (bustGame.Deck ≠ [] → (DrawCard bustGame).2.DiscardPile = bustGame.DiscardPile) ∧
    (bustGame.Deck = [] → (DrawCard bustGame).2.DiscardPile = []) :=
  C2_playerHit_bust bustGame 0 (soloPlayer [numberCard 5]) (numberCard 5) (by decide) rfl rfl rfl
    rfl rfl (by decide)

/-- C5: when the front card `c` of a non-empty deck is not a Number card whose
value the active player already holds, `PlayerHit` returns true, appends `c` to
that player's hand and removes it from the deck; the player's flags, the discard
pile, the generator and every other player stay as they were. -/
theorem C5_playerHit_appends (g : Game) (p : Int) (player : PlayerState) (c : Card)
    (rest : List Card) (h0 : 0 ≤ p) (hp : g.Players[p.toNat]? = some player)
    (hb : player.IsBust = false) (hs : player.HasStood = false) (hdeck : g.Deck = c :: rest)
    (hc : ¬ (c.CardType = "number" ∧ c.Value ∈ numberValues player.Cards)) :
    PlayerHit g p =
      (true, { g with Deck := rest,
                      Players := g.Players.set p.toNat
                        { player with Cards := player.Cards ++ [c] } }) ∧
    (PlayerHit g p).2.Players[p.toNat]? =
      some { ID := player.ID, Cards := player.Cards ++ [c], Score := player.Score,
             IsBust := false, HasStood := false, GameScore := player.GameScore } ∧
    (∀ q : Nat, q ≠ p.toNat → (PlayerHit g p).2.Players[q]? = g.Players[q]?) ∧
    (PlayerHit g p).2.Players.length = g.Players.length ∧
    (PlayerHit g p).2.Deck = rest ∧
    (PlayerHit g p).2.DiscardPile = g.DiscardPile := by
  have hdup : isDuplicate player.Cards c = false := by
    rw [← Bool.not_eq_true, isDuplicate_iff]; exact hc
  have hd : (DrawCard g).1 = some c := by rw [DrawCard_cons g c rest hdeck]
  have hlt : p.toNat < g.Players.length := lt_length_of_getElem? _ _ _ hp
  have key : PlayerHit g p =
      (true, { g with Deck := rest,
                      Players := g.Players.set p.toNat
                        { player with Cards := player.Cards ++ [c] } }) := by
    rw [PlayerHit_append g p player c h0 hp hb hs hd hdup, DrawCard_cons g c rest hdeck]
  rw [key]
  refine ⟨rfl, ?_, ?_, ?_, rfl, rfl⟩
  · rw [List.getElem?_set_self hlt, hb, hs]
  · intro q hq
    simp only [List.getElem?_set_ne (Ne.symm hq)]
  · simp

/-- Instance of C5: the player holding a 5 draws the +3 card from the deck. -/
theorem C5_playerHit_appends_witness :
    (PlayerHit hitGame 0).2.Players[(0 : Int).toNat]? =
      some (soloPlayer [numberCard 5, modifierCard 3]) ∧
    (PlayerHit hitGame 0).2.Deck = [numberCard 7] :=
  ⟨(C5_playerHit_appends hitGame 0 (soloPlayer [numberCard 5]) (modifierCard 3) [numberCard 7]
      (by decide) rfl rfl rfl rfl (by decide)).2.1,
   (C5_playerHit_appends hitGame 0 (soloPlayer [numberCard 5]) (modifierCard 3) [numberCard 7]
      (by decide) rfl rfl rfl rfl (by decide)).2.2.2.2.1⟩

theorem outOfRange_eq_true (g : Game) (p : Int)
    (h : p < 0 ∨ p ≥ (g.Players.length : Int)) : outOfRange g p = true := by
  simp only [outOfRange, Bool.or_eq_true, decide_eq_true_eq]
  exact h

/-- C6: `PlayerHit` returns false and leaves the game as it was when the id is
out of range, or when the player is bust or has stood; for an out-of-range id
`HasFlip7` is false and `CalculateScore` is 0 (both only read the game). -/
theorem C6_rejected_calls (g : Game) (p : Int) :
    ((p < 0 ∨ p ≥ (g.Players.length : Int)) →
      PlayerHit g p = (false, g) ∧ HasFlip7 g p = false ∧ CalculateScore g p = 0) ∧
    (∀ player : PlayerState, 0 ≤ p → g.Players[p.toNat]? = some player →
      (player.IsBust = true ∨ player.HasStood = true) → PlayerHit g p = (false, g)) := by
  constructor
  · intro h
    have ho := outOfRange_eq_true g p h
    simp [PlayerHit, HasFlip7, CalculateScore, ho]
  · intro player h0 hp hbs
    have hor : (player.IsBust || player.HasStood) = true := by
      rcases hbs with h | h <;> simp [h]
    simp [PlayerHit, outOfRange_eq_false g p player h0 hp, hp, hor]

/-- Instance of C6: ids -1 and 2 in a two-player game, the bust player 0 and the
stood player 1. -/
theorem C6_rejected_calls_witness :
    (PlayerHit idleGame (-1) = (false, idleGame) ∧ HasFlip7 idleGame (-1) = false ∧
      CalculateScore idleGame (-1) = 0) ∧
    (PlayerHit idleGame 2 = (false, idleGame) ∧ HasFlip7 idleGame 2 = false ∧
      CalculateScore idleGame 2 = 0) ∧
    PlayerHit idleGame 0 = (false, idleGame) ∧
    PlayerHit idleGame 1 = (false, idleGame) :=
  ⟨(C6_rejected_calls idleGame (-1)).1 (Or.inl (by decide)),
   (C6_rejected_calls idleGame 2).1 (Or.inr (by decide)),
   (C6_rejected_calls idleGame 0).2 { soloPlayer [] with IsBust := true } (by decide) rfl
     (Or.inl rfl),
   (C6_rejected_calls idleGame 1).2 { soloPlayer [numberCard 4] with ID := 1, HasStood := true }
     (by decide) rfl (Or.inr rfl)⟩

/-! ## Both piles empty -/

theorem PlayerHit_of_empty (g : Game) (hd : g.Deck = []) (hp : g.DiscardPile = [])
    (p : Int) : PlayerHit g p = (false, g) := by
  unfold PlayerHit
  split
  · rfl
  · split
    · rfl
    · split
      · rfl
      · simp only [DrawCard_of_empty g hd hp]

theorem dealStep_of_empty (g : Game) (hd : g.Deck = []) (hp : g.DiscardPile = [])
    (i : Nat) : dealStep g i = g := by
  unfold dealStep
  split
  · rfl
  · split
    · simp only [DrawCard_of_empty g hd hp]
    · rfl

theorem foldl_dealStep_of_empty (g : Game) (hd : g.Deck = []) (hp : g.DiscardPile = [])
    (l : List Nat) : l.foldl dealStep g = g := by
  induction l with
  | nil => rfl
  | cons i is ih => rw [List.foldl_cons, dealStep_of_empty g hd hp, ih]

/-- C10: with the deck and the discard pile both empty, `DrawCard` returns no
card, `PlayerHit` returns false (for an active player as for any other id) and
`DealInitialCard` deals nothing; each of them leaves the whole game, piles
included, exactly as it was. -/
theorem C10_empty_piles (g : Game) (hd : g.Deck = []) (hp : g.DiscardPile = []) :
    DrawCard g = (none, g) ∧
    (∀ (p : Int) (player : PlayerState), 0 ≤ p → g.Players[p.toNat]? = some player →
      player.IsBust = false → player.HasStood = false → PlayerHit g p = (false, g)) ∧
    DealInitialCard g = g :=
  ⟨DrawCard_of_empty g hd hp, fun p _ _ _ _ _ => PlayerHit_of_empty g hd hp p,
    foldl_dealStep_of_empty g hd hp _⟩

/-- Instance of C10: two active players and no card anywhere. -/
theorem C10_empty_piles_witness :
    DrawCard emptyPilesGame = (none, emptyPilesGame) ∧
    PlayerHit emptyPilesGame 0 = (false, emptyPilesGame) ∧
    DealInitialCard emptyPilesGame = emptyPilesGame :=
  ⟨(C10_empty_piles emptyPilesGame rfl rfl).1,
   (C10_empty_piles emptyPilesGame rfl rfl).2.1 0 (soloPlayer [numberCard 3]) (by decide) rfl
     rfl rfl,
   (C10_empty_piles emptyPilesGame rfl rfl).2.2⟩

/-- Instance of C9: a draw that refills the deck from a two-card discard pile,
and a draw from a two-card deck. -/
theorem C9_drawCard_conserves_witness :
    (∃ card, (DrawCard refillBustGame).1 = some card ∧
        (DrawCard refillBustGame).2.DiscardPile = [] ∧
        (card :: (DrawCard refillBustGame).2.Deck).Perm refillBustGame.DiscardPile ∧
        (DrawCard refillBustGame).2.Players = refillBustGame.Players) ∧
    ((DrawCard hitGame).1 = some (modifierCard 3) ∧ (DrawCard hitGame).2.Deck = [numberCard 7] ∧
        (DrawCard hitGame).2.DiscardPile = hitGame.DiscardPile ∧
        (DrawCard hitGame).2.Players = hitGame.Players) :=
  ⟨(C9_drawCard_conserves refillBustGame).1 rfl (by decide),
   (C9_drawCard_conserves hitGame).2 (modifierCard 3) [numberCard 7] rfl⟩

/-! ## End of round -/

theorem roundOverLoop_iff (g : Game) (l : List PlayerState) (a : Int) (ha : 0 ≤ a) :
    roundOverLoop g l a = true ↔
      (∃ player ∈ l, HasFlip7 g player.ID = true) ∨
      (a = 0 ∧ ∀ player ∈ l, player.IsBust = true ∨ player.HasStood = true) := by
  induction l generalizing a with
  | nil => simp [roundOverLoop]
  | cons pl rest ih =>
    simp only [roundOverLoop]
    by_cases hf : HasFlip7 g pl.ID = true
    · simp [hf]
    · simp only [hf, if_false, Bool.false_eq_true]
      by_cases hact : (!pl.IsBust && !pl.HasStood) = true
      · rw [if_pos hact, ih (a + 1) (by omega)]
        have hnot : ¬ (pl.IsBust = true ∨ pl.HasStood = true) := by
          simp only [Bool.and_eq_true, Bool.not_eq_true'] at hact
          simp [hact.1, hact.2]
        have hne : ¬ (a + 1 = 0) := by omega
        simp [hf, hnot, hne]
      · rw [if_neg hact, ih a ha]
        have hyes : pl.IsBust = true ∨ pl.HasStood = true := by
          simp only [Bool.and_eq_true, Bool.not_eq_true', not_and, Bool.not_eq_false] at hact
          cases hb : pl.IsBust
          · exact Or.inr (hact hb)
          · exact Or.inl rfl
        simp [hf, hyes]

/-- C8: when every player's ID is its index, `IsRoundOver` is true exactly when
some player has Flip 7 or every player is bust or has stood; so one Flip 7 ends
the round whatever the other players' flags are. -/
theorem C8_isRoundOver_iff (g : Game)
    (hid : ∀ (i : Nat) (player : PlayerState), g.Players[i]? = some player →
      player.ID = (i : Int)) :
    (IsRoundOver g = true ↔
      (∃ i : Nat, i < g.Players.length ∧ HasFlip7 g (i : Int) = true) ∨
      (¬ ∃ player ∈ g.Players, player.IsBust = false ∧ player.HasStood = false)) ∧
    ((∃ i : Nat, i < g.Players.length ∧ HasFlip7 g (i : Int) = true) →
      IsRoundOver g = true) := by
  have hex : (∃ player ∈ g.Players, HasFlip7 g player.ID = true) ↔
      (∃ i : Nat, i < g.Players.length ∧ HasFlip7 g (i : Int) = true) := by
    constructor
    · rintro ⟨player, hmem, hf⟩
      obtain ⟨i, hi, hget⟩ := List.mem_iff_getElem.mp hmem
      have hsome : g.Players[i]? = some player := by
        rw [List.getElem?_eq_getElem hi, hget]
      refine ⟨i, hi, ?_⟩
      rw [← hid i player hsome]; exact hf
    · rintro ⟨i, hi, hf⟩
      refine ⟨g.Players[i], List.getElem_mem hi, ?_⟩
      rw [hid i g.Players[i] (List.getElem?_eq_getElem hi)]; exact hf
  have hall : (∀ player ∈ g.Players, player.IsBust = true ∨ player.HasStood = true) ↔
      (¬ ∃ player ∈ g.Players, player.IsBust = false ∧ player.HasStood = false) := by
    constructor
    · rintro h ⟨player, hmem, hb, hs⟩
      rcases h player hmem with h1 | h1
      · rw [hb] at h1; exact Bool.false_ne_true h1
      · rw [hs] at h1; exact Bool.false_ne_true h1
    · intro h player hmem
      cases hb : player.IsBust
      · cases hs : player.HasStood
        · exact absurd ⟨player, hmem, hb, hs⟩ h
        · exact Or.inr rfl
      · exact Or.inl rfl
  have key : IsRoundOver g = true ↔
      (∃ i : Nat, i < g.Players.length ∧ HasFlip7 g (i : Int) = true) ∨
      (¬ ∃ player ∈ g.Players, player.IsBust = false ∧ player.HasStood = false) := by
    unfold IsRoundOver
    rw [roundOverLoop_iff g g.Players 0 (le_refl 0), hex, ← hall]
    simp
  exact ⟨key, fun h => key.mpr (Or.inl h)⟩

/-! ## No duplicate Number values -/

theorem numberValues_append_singleton (hand : List Card) (c : Card) :
    numberValues (hand ++ [c]) =
      numberValues hand ++ (if c.CardType = "number" then [c.Value] else []) := by
  by_cases h : c.CardType = "number" <;> simp [numberValues, List.filter_append, h]

theorem nodup_numberValues_append (hand : List Card) (c : Card)
    (hn : (numberValues hand).Nodup) (hd : isDuplicate hand c = false) :
    (numberValues (hand ++ [c])).Nodup := by
  rw [numberValues_append_singleton]
  by_cases h : c.CardType = "number"
  · have hnot : c.Value ∉ numberValues hand := by
      intro hmem
      have := (isDuplicate_iff hand c).2 ⟨h, hmem⟩
      rw [hd] at this
      exact Bool.false_ne_true this
    rw [if_pos h]
    exact List.Nodup.append hn (List.nodup_singleton _) (by simpa using hnot)
  · rw [if_neg h, List.append_nil]; exact hn

theorem forall_mem_set {α : Type} (Q : α → Prop) (l : List α) (i : Nat) (x : α)
    (hl : ∀ a ∈ l, Q a) (hx : Q x) : ∀ a ∈ l.set i x, Q a := by
  intro a ha
  rcases List.mem_or_eq_of_mem_set ha with h | h
  · exact hl a h
  · rw [h]; exact hx

theorem noDuplicateNumbers_NewGame (n : Nat) (r : Rng) : noDuplicateNumbers (NewGame n r) := by
  intro player hmem _
  simp only [NewGame, List.mem_map] at hmem
  obtain ⟨i, _, rfl⟩ := hmem
  simp [numberValues]

theorem noDuplicateNumbers_of_players (g g' : Game) (h : g'.Players = g.Players)
    (hg : noDuplicateNumbers g) : noDuplicateNumbers g' := by
  unfold noDuplicateNumbers
  rw [h]; exact hg

theorem noDuplicateNumbers_PlayerHit (g : Game) (p : Int) (hg : noDuplicateNumbers g) :
    noDuplicateNumbers (PlayerHit g p).2 := by
  by_cases ho : outOfRange g p = true
  · simp only [PlayerHit, ho, if_true]; exact hg
  · have h0 : 0 ≤ p := by
      simp only [outOfRange, Bool.or_eq_true, decide_eq_true_eq, not_or, not_lt] at ho
      exact ho.1
    cases hp : g.Players[p.toNat]? with
    | none => simp only [PlayerHit, ho, hp]; exact hg
    | some player =>
      have hpl : handOK player := hg player (List.getElem?_mem hp)
      have hg1 : ∀ a ∈ (DrawCard g).2.Players, handOK a := by
        rw [DrawCard_players]; exact hg
      by_cases hbs : (player.IsBust || player.HasStood) = true
      · simp only [PlayerHit, ho, hp, hbs, if_true]; exact hg
      · simp only [Bool.or_eq_true, not_or, Bool.not_eq_true] at hbs
        rw [PlayerHit_active g p player h0 hp hbs.1 hbs.2]
        cases hd : (DrawCard g).1 with
        | none => exact hg1
        | some card =>
          by_cases hdup : isDuplicate player.Cards card = true
          · simp only [hdup, if_true]
            apply forall_mem_set handOK _ _ _ hg1
            intro hb
            exact absurd hb (by simp)
          · simp only [hdup, if_false]
            apply forall_mem_set handOK _ _ _ hg1
            intro hb
            exact nodup_numberValues_append _ _ (hpl hb) (by simpa using hdup)

theorem noDuplicateNumbers_PlayerStand (g : Game) (p : Int) (hg : noDuplicateNumbers g) :
    noDuplicateNumbers (PlayerStand g p) := by
  unfold PlayerStand
  split
  · split
    · exact hg
    · rename_i player hp
      apply forall_mem_set handOK _ _ _ hg
      exact hg player (List.getElem?_mem hp)
  · exact hg

theorem noDuplicateNumbers_StartNewRound (g : Game) : noDuplicateNumbers (StartNewRound g) := by
  intro player hmem _
  simp only [StartNewRound, List.mem_map] at hmem
  obtain ⟨q, _, rfl⟩ := hmem
  simp [numberValues]

theorem dealStep_players (g : Game) (i : Nat) :
    (dealStep g i).Players = g.Players ∨
    ∃ (player : PlayerState) (c : Card), g.Players[i]? = some player ∧
      player.IsBust = false ∧ player.HasStood = false ∧
      (dealStep g i).Players = g.Players.set i { player with Cards := player.Cards ++ [c] } := by
  unfold dealStep
  cases hp : g.Players[i]? with
  | none => exact Or.inl rfl
  | some player =>
    by_cases hact : (!player.HasStood && !player.IsBust) = true
    · simp only [hact, if_true]
      cases hd : (DrawCard g).1 with
      | none => exact Or.inl (DrawCard_players g)
      | some card =>
        simp only [Bool.and_eq_true, Bool.not_eq_true'] at hact
        refine Or.inr ⟨player, card, rfl, hact.2, hact.1, ?_⟩
        simp only [DrawCard_players]
    · simp only [hact]
      exact Or.inl rfl

/-- What the first `k` iterations of `DealInitialCard` do to the players: a
player below `k` keeps the bust flag and either is unchanged or was active and
got one card; a player from `k` on is unchanged. -/
theorem foldl_dealStep_players (g : Game) (k : Nat) :
    (∀ j : Nat, k ≤ j → ((List.range k).foldl dealStep g).Players[j]? = g.Players[j]?) ∧
    (∀ (j : Nat) (q : PlayerState), ((List.range k).foldl dealStep g).Players[j]? = some q →
      ∃ player, g.Players[j]? = some player ∧ q.IsBust = player.IsBust ∧
        (q = player ∨ (player.IsBust = false ∧ player.HasStood = false ∧
          ∃ c, q.Cards = player.Cards ++ [c]))) := by
  induction k with
  | zero =>
    refine ⟨fun j _ => rfl, fun j q hq => ⟨q, hq, rfl, Or.inl rfl⟩⟩
  | succ k ih =>
    rw [List.range_succ, List.foldl_append, List.foldl_cons, List.foldl_nil]
    obtain ⟨ih1, ih2⟩ := ih
    rcases dealStep_players ((List.range k).foldl dealStep g) k with hsame | ⟨pl, c, hk, hb, hs, hset⟩
    · rw [hsame]
      exact ⟨fun j hj => ih1 j (by omega), ih2⟩
    · rw [hset]
      have hkorig : g.Players[k]? = some pl := by rw [← ih1 k (le_refl k)]; exact hk
      constructor
      · intro j hj
        rw [List.getElem?_set_ne (by omega)]
        exact ih1 j (by omega)
      · intro j q hq
        by_cases hjk : k = j
        · subst hjk
          rw [List.getElem?_set_self (lt_length_of_getElem? _ _ _ hk)] at hq
          have hq2 : q = { pl with Cards := pl.Cards ++ [c] } := (Option.some.inj hq).symm
          refine ⟨pl, hkorig, ?_, Or.inr ⟨hb, hs, c, ?_⟩⟩
          · rw [hq2]
          · rw [hq2]
        · rw [List.getElem?_set_ne hjk] at hq
          exact ih2 j q hq

theorem noDuplicateNumbers_DealInitialCard (g : Game) (hg : noDuplicateNumbers g)
    (he : handsEmpty g = true) : noDuplicateNumbers (DealInitialCard g) := by
  intro q hq
  obtain ⟨j, hj⟩ := List.mem_iff_getElem?.mp hq
  obtain ⟨player, hpl, hbust, hcases⟩ := (foldl_dealStep_players g g.Players.length).2 j q hj
  have hmem : player ∈ g.Players := List.getElem?_mem hpl
  rcases hcases with h | ⟨hb, hs, c, hc⟩
  · rw [h]; exact hg player hmem
  · intro _
    have hempty : player.Cards = [] := by
      have := (List.all_eq_true.mp he) player hmem
      simpa [hb, hs] using this
    rw [hc, hempty, List.nil_append]
    by_cases hn : c.CardType = "number" <;> simp [numberValues, hn]

theorem noDuplicateNumbers_applyOp (g : Game) (op : Op) (hg : noDuplicateNumbers g)
    (hd : (match op with
            | Op.dealInitialCard => handsEmpty g
            | _ => true) = true) :
    noDuplicateNumbers (applyOp g op) := by
  cases op with
  | createDeck => exact noDuplicateNumbers_of_players g _ (CreateDeck_players g) hg
  | dealInitialCard => exact noDuplicateNumbers_DealInitialCard g hg hd
  | playerHit p => exact noDuplicateNumbers_PlayerHit g p hg
  | playerStand p => exact noDuplicateNumbers_PlayerStand g p hg
  | startNewRound => exact noDuplicateNumbers_StartNewRound g
  | drawCard => exact noDuplicateNumbers_of_players g _ (DrawCard_players g) hg
  | reshuffleDeck => exact noDuplicateNumbers_of_players g _ (ReshuffleDeck_players g) hg

theorem noDuplicateNumbers_run (ops : List Op) (g : Game) (hg : noDuplicateNumbers g)
    (hd : dealsAtRoundStart g ops = true) : noDuplicateNumbers (run g ops) := by
  induction ops generalizing g with
  | nil => exact hg
  | cons op ops ih =>
    simp only [dealsAtRoundStart, Bool.and_eq_true] at hd
    exact ih (applyOp g op) (noDuplicateNumbers_applyOp g op hg hd.1) hd.2

/-- C7, as stated, fails: after `CreateDeck` (with the generator always giving
0) and three `DealInitialCard` calls, the single player is not bust and holds
the cards 1, 2, 2. -/
theorem C7_counterexample :
    (run (NewGame 1 zeroRng) threeDeals).Players
        = [soloPlayer [numberCard 1, numberCard 2, numberCard 2]] ∧
    ¬ noDuplicateNumbers (run (NewGame 1 zeroRng) threeDeals) := by
  have h : (run (NewGame 1 zeroRng) threeDeals).Players
      = [soloPlayer [numberCard 1, numberCard 2, numberCard 2]] := by decide
  refine ⟨h, ?_⟩
  intro hinv
  have := hinv (soloPlayer [numberCard 1, numberCard 2, numberCard 2]) (by rw [h]; simp) rfl
  revert this
  decide

/-- C7 (amended): in every state reached from `NewGame n` by the public
operations, with `DealInitialCard` applied only when every player who is neither
bust nor stood has an empty hand (as at the start of a round), each player who
is not bust holds no two Number cards of the same value. -/
theorem C7_no_duplicate_numbers (n : Nat) (r : Rng) (ops : List Op)
    (hd : dealsAtRoundStart (NewGame n r) ops = true) :
    ∀ player ∈ (run (NewGame n r) ops).Players,
      player.IsBust = false → (numberValues player.Cards).Nodup :=
  noDuplicateNumbers_run ops (NewGame n r) (noDuplicateNumbers_NewGame n r) hd

/-- Instance of C7 (amended): a two-player round with hits, a stand and a
bust. -/
theorem C7_no_duplicate_numbers_witness :
    dealsAtRoundStart (NewGame 2 zeroRng) roundOps = true ∧
    ∀ player ∈ (run (NewGame 2 zeroRng) roundOps).Players,
      player.IsBust = false → (numberValues player.Cards).Nodup :=
  ⟨by rfl, C7_no_duplicate_numbers 2 zeroRng roundOps (by rfl)⟩

theorem flip7RoundGame_ids (i : Nat) (player : PlayerState)
    (h : flip7RoundGame.Players[i]? = some player) : player.ID = (i : Int) := by
  match i, h with
  | 0, h =>
    have : player = soloPlayer [numberCard 12] := (Option.some.inj h).symm
    rw [this]; rfl
  | 1, h =>
    have : player = { soloPlayer flip7DetectionHand with ID := 1 } := (Option.some.inj h).symm
    rw [this]; rfl
  | k + 2, h => exact absurd h (by simp [flip7RoundGame])

/-- Instance of C8: player 1 has Flip 7 while player 0 is still active, and the
round is over. -/
theorem C8_isRoundOver_iff_witness :
    IsRoundOver flip7RoundGame = true ∧
    (∃ player ∈ flip7RoundGame.Players, player.IsBust = false ∧ player.HasStood = false) :=
  ⟨(C8_isRoundOver_iff flip7RoundGame flip7RoundGame_ids).2 ⟨1, by decide, by decide⟩,
   ⟨soloPlayer [numberCard 12], by decide, rfl, rfl⟩⟩

/-! ## Round reset and standing -/

/-- C12: `StartNewRound` gives every player an empty hand with `IsBust` and
`HasStood` false, and keeps each player's ID, Score and GameScore, the number of
players, the deck, the discard pile and the generator. -/
theorem C12_startNewRound_frame (g : Game) :
    (StartNewRound g).Players.length = g.Players.length ∧
    (∀ (i : Nat) (player : PlayerState), g.Players[i]? = some player →
      (StartNewRound g).Players[i]? =
        some { ID := player.ID, Cards := [], Score := player.Score, IsBust := false,
               HasStood := false, GameScore := player.GameScore }) ∧
    (StartNewRound g).Deck = g.Deck ∧
    (StartNewRound g).DiscardPile = g.DiscardPile ∧
    (StartNewRound g).rng = g.rng := by
  refine ⟨by simp [StartNewRound], ?_, rfl, rfl, rfl⟩
  intro i player h
  simp [StartNewRound, List.getElem?_map, h]

/-- Instance of C12: the stood player 1 of a mid-round game, holding two cards
and 57 points. -/
theorem C12_startNewRound_frame_witness :
    (StartNewRound midRoundGame).Players[1]? =
      some { ID := 1, Cards := [], Score := 0, IsBust := false, HasStood := false,
             GameScore := 57 } :=
  (C12_startNewRound_frame midRoundGame).2.1 1
    { ID := 1, Cards := [numberCard 4, modifierCard 2], Score := 0, IsBust := false,
      HasStood := true, GameScore := 57 }
    rfl

/-- C13: for a valid id `PlayerStand` sets that player's `HasStood` and nothing
else: the player's other fields, the other players, the deck, the discard pile
and the generator are as before; for an out-of-range id the game is
unchanged. -/
theorem C13_playerStand_frame (g : Game) (p : Int) :
    (∀ player : PlayerState, 0 ≤ p → g.Players[p.toNat]? = some player →
      (PlayerStand g p).Players[p.toNat]? =
        some { ID := player.ID, Cards := player.Cards, Score := player.Score,
               IsBust := player.IsBust, HasStood := true, GameScore := player.GameScore } ∧
      (∀ q : Nat, q ≠ p.toNat → (PlayerStand g p).Players[q]? = g.Players[q]?) ∧
      (PlayerStand g p).Players.length = g.Players.length ∧
      (PlayerStand g p).Deck = g.Deck ∧
      (PlayerStand g p).DiscardPile = g.DiscardPile ∧
      (PlayerStand g p).rng = g.rng) ∧
    ((p < 0 ∨ p ≥ (g.Players.length : Int)) → PlayerStand g p = g) := by
  constructor
  · intro player h0 hp
    have hlt : p.toNat < g.Players.length := lt_length_of_getElem? _ _ _ hp
    have hin : (decide (p ≥ 0) && decide (p < (g.Players.length : Int))) = true := by
      simp only [Bool.and_eq_true, decide_eq_true_eq]
      omega
    have key : PlayerStand g p =
        { g with Players := g.Players.set p.toNat { player with HasStood := true } } := by
      simp only [PlayerStand, hin, if_true, hp]
    rw [key]
    refine ⟨?_, ?_, ?_, rfl, rfl, rfl⟩
    · rw [List.getElem?_set_self hlt]
    · intro q hq
      rw [List.getElem?_set_ne (Ne.symm hq)]
    · simp
  · intro h
    have hout : (decide (p ≥ 0) && decide (p < (g.Players.length : Int))) = false := by
      rw [Bool.and_eq_false_iff]
      simp only [decide_eq_false_iff_not]
      omega
    simp only [PlayerStand, hout]
    rfl

/-- Instance of C13: player 0 of the hit game stands; the ids -1 and 1 are out
of range there. -/
theorem C13_playerStand_frame_witness :
    (PlayerStand hitGame 0).Players[(0 : Int).toNat]? =
      some { ID := 0, Cards := [numberCard 5], Score := 0, IsBust := false, HasStood := true,
             GameScore := 0 } ∧
    PlayerStand hitGame (-1) = hitGame ∧
    PlayerStand hitGame 1 = hitGame :=
  ⟨((C13_playerStand_frame hitGame 0).1 (soloPlayer [numberCard 5]) (by decide) rfl).1,
   (C13_playerStand_frame hitGame (-1)).2 (Or.inl (by decide)),
   (C13_playerStand_frame hitGame 1).2 (Or.inr (by decide))⟩

/-! ## The first hit after the deal -/

theorem DealInitialCard_two (g : Game) (p0 p1 : PlayerState) (c0 c1 : Card) (rest : List Card)
    (hP : g.Players = [p0, p1]) (hd : g.Deck = c0 :: c1 :: rest)
    (hb0 : p0.IsBust = false) (hs0 : p0.HasStood = false)
    (hb1 : p1.IsBust = false) (hs1 : p1.HasStood = false) :
    DealInitialCard g =
      { g with Players := [{ p0 with Cards := p0.Cards ++ [c0] },
                           { p1 with Cards := p1.Cards ++ [c1] }],
               Deck := rest } := by
  cases g with
  | mk players deck discard rng =>
    simp only at hP hd
    subst hP hd
    simp [DealInitialCard, dealStep, DrawCard, List.range_succ, hb0, hs0, hb1, hs1]

theorem CreateDeck_length (g : Game) : (CreateDeck g).Deck.length = 86 := by
  rw [(CreateDeck_perm g).length_eq]; decide

/-- C11, as stated, fails: under a shuffle that only exchanges positions 0 and
3 of the fresh deck, player 0 is dealt a 2, player 1 a 1, and the hit draws the
other 2: `PlayerHit` returns true, but player 0 is bust and holds no card, where
one card was held before. -/
theorem C11_counterexample :
    (DealInitialCard (CreateDeck (NewGame 2 swap03Rng))).Players[0]? =
      some (soloPlayer [numberCard 2]) ∧
    (PlayerHit (DealInitialCard (CreateDeck (NewGame 2 swap03Rng))) 0).1 = true ∧
    (PlayerHit (DealInitialCard (CreateDeck (NewGame 2 swap03Rng))) 0).2.Players[0]? =
      some { soloPlayer [] with IsBust := true } ∧
    ¬ ((PlayerHit (DealInitialCard (CreateDeck (NewGame 2 swap03Rng))) 0).2.Players[0]?.map
          (fun player => player.Cards.length) =
        (DealInitialCard (CreateDeck (NewGame 2 swap03Rng))).Players[0]?.map
          (fun player => player.Cards.length + 1)) := by
  decide

theorem PlayerHit_first_of_pair (g : Game) (c0 c2 : Card) (p1 : PlayerState)
    (rest : List Card) (hP : g.Players = [soloPlayer [c0], p1]) (hd : g.Deck = c2 :: rest) :
    (PlayerHit g 0).1 = true ∧
    (¬ (c2.CardType = "number" ∧ c0.CardType = "number" ∧ c0.Value = c2.Value) →
      (PlayerHit g 0).2.Players[0]? = some (soloPlayer [c0, c2])) ∧
    ((c2.CardType = "number" ∧ c0.CardType = "number" ∧ c0.Value = c2.Value) →
      (PlayerHit g 0).2.Players[0]? = some { soloPlayer [] with IsBust := true }) := by
  have hp0 : g.Players[(0 : Int).toNat]? = some (soloPlayer [c0]) := by
    rw [hP]; rfl
  have hdraw : (DrawCard g).1 = some c2 := by
    rw [DrawCard_cons g c2 rest hd]
  have hset : ∀ x : PlayerState,
      ((DrawCard g).2.Players.set (0 : Int).toNat x)[0]? = some x := by
    intro x
    rw [DrawCard_players, hP]; rfl
  have hdupiff : isDuplicate (soloPlayer [c0]).Cards c2 = true ↔
      (c2.CardType = "number" ∧ c0.CardType = "number" ∧ c0.Value = c2.Value) := by
    simp [isDuplicate, soloPlayer]
  by_cases hdup : isDuplicate (soloPlayer [c0]).Cards c2 = true
  · rw [PlayerHit_bust g 0 (soloPlayer [c0]) c2 (le_refl 0) hp0 rfl rfl hdraw hdup]
    exact ⟨rfl, fun hno => absurd (hdupiff.mp hdup) hno, fun _ => hset _⟩
  · have hdup2 : isDuplicate (soloPlayer [c0]).Cards c2 = false := by simpa using hdup
    rw [PlayerHit_append g 0 (soloPlayer [c0]) c2 (le_refl 0) hp0 rfl rfl hdraw hdup2]
    exact ⟨rfl, fun _ => hset _, fun hyes => absurd (hdupiff.mpr hyes) hdup⟩

/-- C11 (amended): for every shuffle of the fresh deck of a new two-player
game, with `c0`, `c1`, `c2` the first three cards of the shuffled deck: the deal
gives `c0` to player 0, `PlayerHit(0)` returns true, and player 0 afterwards
holds `c0` and `c2` (one card more) unless `c0` and `c2` are Number cards of the
same value, in which case player 0 is bust with an empty hand. -/
theorem C11_hit_after_deal (r : Rng) :
    ∃ (c0 c1 c2 : Card) (rest : List Card),
      (CreateDeck (NewGame 2 r)).Deck = c0 :: c1 :: c2 :: rest ∧
      (DealInitialCard (CreateDeck (NewGame 2 r))).Players[0]? = some (soloPlayer [c0]) ∧
      (PlayerHit (DealInitialCard (CreateDeck (NewGame 2 r))) 0).1 = true ∧
      (¬ (c2.CardType = "number" ∧ c0.CardType = "number" ∧ c0.Value = c2.Value) →
        (PlayerHit (DealInitialCard (CreateDeck (NewGame 2 r))) 0).2.Players[0]? =
          some (soloPlayer [c0, c2])) ∧
      ((c2.CardType = "number" ∧ c0.CardType = "number" ∧ c0.Value = c2.Value) →
        (PlayerHit (DealInitialCard (CreateDeck (NewGame 2 r))) 0).2.Players[0]? =
          some { soloPlayer [] with IsBust := true }) := by
  have hlen := CreateDeck_length (NewGame 2 r)
  have hPl : (CreateDeck (NewGame 2 r)).Players =
      [soloPlayer [], { soloPlayer [] with ID := 1 }] := by
    rw [CreateDeck_players]; rfl
  generalize CreateDeck (NewGame 2 r) = G at hlen hPl ⊢
  match hdeck : G.Deck, hlen with
  | c0 :: c1 :: c2 :: rest, _ =>
    have hdeal := DealInitialCard_two G (soloPlayer [])
      { soloPlayer [] with ID := 1 } c0 c1 (c2 :: rest) hPl hdeck rfl rfl rfl rfl
    have hP2 : (DealInitialCard G).Players =
        [soloPlayer [c0], { ID := 1, Cards := [c1], Score := 0, IsBust := false,
                            HasStood := false, GameScore := 0 }] := by
      rw [hdeal]; rfl
    have hd2 : (DealInitialCard G).Deck = c2 :: rest := by
      rw [hdeal]
    have hp0 : (DealInitialCard G).Players[0]? = some (soloPlayer [c0]) := by
      rw [hP2]; rfl
    have key := PlayerHit_first_of_pair (DealInitialCard G) c0 c2 _ rest hP2 hd2
    exact ⟨c0, c1, c2, rest, rfl, hp0, key.1, key.2.1, key.2.2⟩

/-! ## Strategies: StopAtScore and Conservative -/

theorem stopAtScore_currentScore (hand : List Card) :
    (if (hand.foldl stopAtScoreStep (0, false)).2
      then wrap64 ((hand.foldl stopAtScoreStep (0, false)).1 * 2)
      else (hand.foldl stopAtScoreStep (0, false)).1) = wrap64 (roundScore hand) :=
  scoreStep_roundScore hand

theorem stopAtScore_iff (a : StopAtScoreAlgorithm) (playerState : PlayerState)
    (gameState : GameState) (cardsRemaining : List (Int × Int)) :
    ((a.MakeDecision playerState gameState cardsRemaining).Action = "stand" ↔
      wrap64 (roundScore playerState.Cards) ≥ a.targetScore) ∧
    ((a.MakeDecision playerState gameState cardsRemaining).Action = "hit" ↔
      wrap64 (roundScore playerState.Cards) < a.targetScore) := by
  simp only [StopAtScoreAlgorithm.MakeDecision, stopAtScore_currentScore]
  have hsh : ("stand" : String) ≠ "hit" := by decide
  have hhs : ("hit" : String) ≠ "stand" := by decide
  by_cases h : wrap64 (roundScore playerState.Cards) ≥ a.targetScore
  · rw [if_pos h]
    exact ⟨⟨fun _ => h, fun _ => rfl⟩, ⟨fun he => absurd he hsh, fun hlt => by omega⟩⟩
  · rw [if_neg h]
    exact ⟨⟨fun he => absurd he hhs, fun hge => absurd hge h⟩, ⟨fun _ => by omega, fun _ => rfl⟩⟩

/-- C19, as stated, fails: the hand of a Number card of value `2^62` and the x2
card has round score `2^63 >= 25`, but the 64-bit score of the code has wrapped
to `-2^63` and `StopAtScore(25)` answers "hit". -/
theorem C19_counterexample :
    roundScore (soloPlayer overflowHand).Cards = 2 ^ 63 ∧
    (stopAt25.MakeDecision (soloPlayer overflowHand) emptyGameState []).Action = "hit" ∧
    ¬ ((stopAt25.MakeDecision (soloPlayer overflowHand) emptyGameState []).Action = "stand" ↔
        roundScore (soloPlayer overflowHand).Cards ≥ stopAt25.targetScore) := by
  have hhit : (stopAt25.MakeDecision (soloPlayer overflowHand) emptyGameState []).Action = "hit" :=
    (stopAtScore_iff stopAt25 (soloPlayer overflowHand) emptyGameState []).2.2 (by decide)
  refine ⟨by decide, hhit, ?_⟩
  intro h
  have hstand := h.2 (by decide)
  rw [hhit] at hstand
  exact absurd hstand (by decide)

/-- C19 (amended): `StopAtScore(t).MakeDecision` answers "stand" exactly when
the round score of the hand as a 64-bit `int` (Number values plus bonuses,
doubled with an x2 card, no Flip 7 bonus, reduced into the `int` range) is at
least `t`, and "hit" otherwise; for a hand whose round score lies in the `int`
range that is the round score itself; the answer is the same for every game
state and every remaining-count map. -/
theorem C19_stopAtScore (a : StopAtScoreAlgorithm) (playerState : PlayerState) :
    (∀ (gameState : GameState) (cardsRemaining : List (Int × Int)),
      ((a.MakeDecision playerState gameState cardsRemaining).Action = "stand" ↔
        wrap64 (roundScore playerState.Cards) ≥ a.targetScore) ∧
      ((a.MakeDecision playerState gameState cardsRemaining).Action = "hit" ↔
        wrap64 (roundScore playerState.Cards) < a.targetScore)) ∧
    (-2 ^ 63 ≤ roundScore playerState.Cards → roundScore playerState.Cards < 2 ^ 63 →
      ∀ (gameState : GameState) (cardsRemaining : List (Int × Int)),
        ((a.MakeDecision playerState gameState cardsRemaining).Action = "stand" ↔
          roundScore playerState.Cards ≥ a.targetScore) ∧
        ((a.MakeDecision playerState gameState cardsRemaining).Action = "hit" ↔
          roundScore playerState.Cards < a.targetScore)) ∧
    (∀ (gameState gameState' : GameState) (cardsRemaining cardsRemaining' : List (Int × Int)),
      a.MakeDecision playerState gameState cardsRemaining =
        a.MakeDecision playerState gameState' cardsRemaining') := by
  refine ⟨fun gameState cardsRemaining => stopAtScore_iff a playerState gameState cardsRemaining,
    ?_, fun _ _ _ _ => rfl⟩
  intro h1 h2 gameState cardsRemaining
  have h := stopAtScore_iff a playerState gameState cardsRemaining
  rw [wrap64_of_fits _ h1 h2] at h
  exact h

/-- Instance of C19 (amended): at threshold 25 the 36-point hand stands and a
single 5 hits. -/
theorem C19_stopAtScore_witness :
    (stopAt25.MakeDecision (soloPlayer hand36) emptyGameState remainingCounts).Action = "stand" ∧
    (stopAt25.MakeDecision (soloPlayer [numberCard 5]) emptyGameState []).Action = "hit" :=
  ⟨(((C19_stopAtScore stopAt25 (soloPlayer hand36)).2.1 (by decide) (by decide)
      emptyGameState remainingCounts).1).2 (by decide),
   (((C19_stopAtScore stopAt25 (soloPlayer [numberCard 5])).2.1 (by decide) (by decide)
      emptyGameState []).2).2 (by decide)⟩

theorem foldl_conservativeStep (hand : List Card) (st : List Int × Int × Bool) :
    hand.foldl conservativeStep st =
      (hand.foldl flip7Step st.1, hand.foldl scoreStep (st.2.1, st.2.2)) := by
  induction hand generalizing st with
  | nil => rfl
  | cons c cs ih =>
    rw [List.foldl_cons, List.foldl_cons, List.foldl_cons, ih]
    by_cases hn : c.CardType = "number"
    · simp [conservativeStep, flip7Step, scoreStep, hn]
    · by_cases hm : c.CardType = "modifier"
      · cases hx : c.IsX2 <;> simp [conservativeStep, flip7Step, scoreStep, hn, hm, hx]
      · simp [conservativeStep, flip7Step, scoreStep, hn, hm]

theorem mem_foldl_flip7Step (hand : List Card) (x : Int) :
    x ∈ hand.foldl flip7Step [] ↔ x ∈ numberValues hand := by
  have h := foldl_flip7Step_toFinset hand []
  rw [← List.mem_toFinset, h]
  simp

theorem foldl_conservativeRiskStep (u : List Int) (cr : List (Int × Int)) (st : Int × Int)
    (h1 : wrap64 st.1 = st.1) (h2 : wrap64 st.2 = st.2) :
    cr.foldl (conservativeRiskStep u) st =
      (wrap64 (st.1 + ((cr.filter (fun entry => entry.1 ∉ u)).map Prod.snd).sum),
       wrap64 (st.2 + (cr.map Prod.snd).sum)) := by
  induction cr generalizing st with
  | nil => simp [h1, h2]
  | cons e es ih =>
    rw [List.foldl_cons]
    by_cases h : e.1 ∈ u
    · have hs : conservativeRiskStep u st e = (st.1, wrap64 (st.2 + e.2)) := by
        simp [conservativeRiskStep, h]
      rw [hs, ih (st.1, wrap64 (st.2 + e.2)) h1 (wrap64_wrap64 _)]
      simp [h]
      unfold wrap64; omega
    · have hs : conservativeRiskStep u st e = (wrap64 (st.1 + e.2), wrap64 (st.2 + e.2)) := by
        simp [conservativeRiskStep, h]
      rw [hs, ih (wrap64 (st.1 + e.2), wrap64 (st.2 + e.2)) (wrap64_wrap64 _) (wrap64_wrap64 _)]
      simp [h]
      constructor <;> (unfold wrap64; omega)

theorem conservative_sums (hand : List Card) (cr : List (Int × Int)) :
    cr.foldl (conservativeRiskStep (hand.foldl flip7Step [])) (0, 0) =
      (wrap64 (safeRemaining hand cr), wrap64 (totalRemaining cr)) := by
  rw [foldl_conservativeRiskStep _ _ _ wrap64_zero wrap64_zero]
  have hf : (fun entry : Int × Int => decide (entry.1 ∉ hand.foldl flip7Step [])) =
      (fun entry : Int × Int => decide (entry.1 ∉ numberValues hand)) := by
    funext entry
    simp only [mem_foldl_flip7Step]
  simp only [safeRemaining, totalRemaining, hf, zero_add]

theorem safeRemaining_bounds (hand : List Card) (cr : List (Int × Int))
    (hnn : ∀ entry ∈ cr, 0 ≤ entry.2) :
    0 ≤ safeRemaining hand cr ∧ safeRemaining hand cr ≤ totalRemaining cr := by
  induction cr with
  | nil => simp [safeRemaining, totalRemaining]
  | cons e es ih =>
    have he : 0 ≤ e.2 := hnn e (List.mem_cons_self _ _)
    obtain ⟨i1, i2⟩ := ih (fun x hx => hnn x (List.mem_cons_of_mem _ hx))
    simp only [safeRemaining, totalRemaining] at i1 i2 ⊢
    by_cases h : e.1 ∈ numberValues hand
    · simp only [List.filter_cons, h, not_true_eq_false, decide_False, Bool.false_eq_true,
        if_false, List.map_cons, List.sum_cons]
      omega
    · simp only [List.filter_cons, h, not_false_eq_true, decide_True, if_true, List.map_cons,
        List.sum_cons]
      omega

/-- Within the bounds where the conversions are exact, the `float64` risk
exceeds the `float64` constant nearest to `c` exactly when the exact ratio
exceeds `c`, for the five constants of the strategies. -/
theorem bustRisk64_gt (hand : List Card) (cr : List (Int × Int))
    (hnn : ∀ entry ∈ cr, 0 ≤ entry.2) (hpos : 0 < totalRemaining cr)
    (hle : totalRemaining cr ≤ 2 ^ 48) :
    (bustRisk64 hand cr).gt (roundF64 (3 / 10)) = decide (3 / 10 < bustRiskExact hand cr) ∧
    (bustRisk64 hand cr).gt (roundF64 (1 / 2)) = decide (1 / 2 < bustRiskExact hand cr) ∧
    (bustRisk64 hand cr).gt (roundF64 (2 / 5)) = decide (2 / 5 < bustRiskExact hand cr) ∧
    (bustRisk64 hand cr).gt (roundF64 (1 / 5)) = decide (1 / 5 < bustRiskExact hand cr) ∧
    (bustRisk64 hand cr).gt (roundF64 (3 / 5)) = decide (3 / 5 < bustRiskExact hand cr) := by
  obtain ⟨hs1, hs2⟩ := safeRemaining_bounds hand cr hnn
  have e1 : wrap64 (totalRemaining cr) = totalRemaining cr :=
    wrap64_of_fits _ (by omega) (by omega)
  have e2 : wrap64 (safeRemaining hand cr) = safeRemaining hand cr :=
    wrap64_of_fits _ (by omega) (by omega)
  have e3 : wrap64 (totalRemaining cr - safeRemaining hand cr) =
      totalRemaining cr - safeRemaining hand cr := wrap64_of_fits _ (by omega) (by omega)
  unfold bustRisk64 bustRiskExact
  rw [e1, e2, e3]
  exact ⟨floatDiv_gt_three_tenths _ _ (by omega) (by omega) hpos hle,
    floatDiv_gt_half _ _ (by omega) (by omega) hpos hle,
    floatDiv_gt_two_fifths _ _ (by omega) (by omega) hpos hle,
    floatDiv_gt_fifth _ _ (by omega) (by omega) hpos hle,
    floatDiv_gt_three_fifths _ _ (by omega) (by omega) hpos hle⟩

theorem hit_ne_stand (d : Decision) (h : d.Action = "hit") : d.Action ≠ "stand" := by
  rw [h]
  decide

/-- A decision made by two successive tests that both answer "stand", with
"hit" as the fall-through, is "stand" exactly when one of the tests holds. -/
theorem action_of_two_tests (d : Decision) (A B : Prop) [Decidable A] [Decidable B]
    (h : d = if A then { Action := "stand" } else if B then { Action := "stand" }
      else { Action := "hit" }) :
    (d.Action = "stand" ↔ A ∨ B) ∧ (d.Action = "hit" ↔ ¬ (A ∨ B)) := by
  have hsh : ("stand" : String) ≠ "hit" := by decide
  have hhs : ("hit" : String) ≠ "stand" := by decide
  rw [h]
  by_cases h1 : A
  · rw [if_pos h1]
    exact ⟨⟨fun _ => Or.inl h1, fun _ => rfl⟩,
      ⟨fun he => absurd he hsh, fun hn => absurd (Or.inl h1) hn⟩⟩
  · rw [if_neg h1]
    by_cases h2 : B
    · rw [if_pos h2]
      exact ⟨⟨fun _ => Or.inr h2, fun _ => rfl⟩,
        ⟨fun he => absurd he hsh, fun hn => absurd (Or.inr h2) hn⟩⟩
    · rw [if_neg h2]
      refine ⟨⟨fun he => absurd he hhs, ?_⟩, ⟨fun _ => ?_, fun _ => rfl⟩⟩
      · rintro (h | h)
        · exact absurd h h1
        · exact absurd h h2
      · rintro (h | h)
        · exact absurd h h1
        · exact absurd h h2

/-- A decision made by one test that answers "stand", with "hit" as the
fall-through, is "stand" exactly when the test holds. -/
theorem action_of_one_test (d : Decision) (A : Prop) [Decidable A]
    (h : d = if A then { Action := "stand" } else { Action := "hit" }) :
    (d.Action = "stand" ↔ A) ∧ (d.Action = "hit" ↔ ¬ A) := by
  have hsh : ("stand" : String) ≠ "hit" := by decide
  have hhs : ("hit" : String) ≠ "stand" := by decide
  rw [h]
  by_cases h1 : A
  · rw [if_pos h1]
    exact ⟨⟨fun _ => h1, fun _ => rfl⟩, ⟨fun he => absurd he hsh, fun hn => absurd h1 hn⟩⟩
  · rw [if_neg h1]
    exact ⟨⟨fun he => absurd he hhs, fun h => absurd h h1⟩, ⟨fun _ => h1, fun _ => rfl⟩⟩

/-- The decision of `ConservativeAlgorithm.MakeDecision` in terms of the 64-bit
score and the `float64` risk, for every input. -/
theorem conservative_unfold64 (a : ConservativeAlgorithm) (playerState : PlayerState)
    (gameState : GameState) (cr : List (Int × Int)) :
    a.MakeDecision playerState gameState cr =
      if distinctNumberCount playerState.Cards = 6 then { Action := "hit" }
      else if wrap64 (roundScore playerState.Cards) ≥ 35 ∧
          (bustRisk64 playerState.Cards cr).gt (roundF64 (3 / 10)) = true
        then { Action := "stand" }
      else if wrap64 (roundScore playerState.Cards) ≥ 25 ∧
          (bustRisk64 playerState.Cards cr).gt (roundF64 (1 / 2)) = true
        then { Action := "stand" }
      else { Action := "hit" } := by
  simp only [ConservativeAlgorithm.MakeDecision, foldl_conservativeStep, conservative_sums,
    foldl_flip7Step_length, scoreStep_roundScore, bustRisk64, Bool.and_eq_true,
    decide_eq_true_eq]

theorem conservative_unfold (a : ConservativeAlgorithm) (playerState : PlayerState)
    (gameState : GameState) (cr : List (Int × Int))
    (hnn : ∀ entry ∈ cr, 0 ≤ entry.2) (hpos : 0 < totalRemaining cr)
    (hle : totalRemaining cr ≤ 2 ^ 48) :
    a.MakeDecision playerState gameState cr =
      if distinctNumberCount playerState.Cards = 6 then { Action := "hit" }
      else if wrap64 (roundScore playerState.Cards) ≥ 35 ∧
          3 / 10 < bustRiskExact playerState.Cards cr
        then { Action := "stand" }
      else if wrap64 (roundScore playerState.Cards) ≥ 25 ∧
          1 / 2 < bustRiskExact playerState.Cards cr
        then { Action := "stand" }
      else { Action := "hit" } := by
  obtain ⟨g1, g2, _, _, _⟩ := bustRisk64_gt playerState.Cards cr hnn hpos hle
  rw [conservative_unfold64, g1, g2]
  simp only [decide_eq_true_eq]

/-- The two float comparisons of Conservative at the 36-point hand and the
counts just above 3/10: the quotient rounds to the `float64` nearest to 0.3,
which does not exceed itself, nor 0.5. -/
theorem bustRisk64_hand36 :
    (bustRisk64 hand36 countsAboveThreeTenths).gt (roundF64 (3 / 10)) = false ∧
    (bustRisk64 hand36 countsAboveThreeTenths).gt (roundF64 (1 / 2)) = false := by
  have ht : totalRemaining countsAboveThreeTenths = 7000000000000003 := by decide
  have hs : safeRemaining hand36 countsAboveThreeTenths = 4900000000000002 := by decide
  have e1 : wrap64 (7000000000000003 : Int) = 7000000000000003 := by decide
  have e2 : wrap64 (4900000000000002 : Int) = 4900000000000002 := by decide
  have e3 : wrap64 ((7000000000000003 : Int) - 4900000000000002) = 2100000000000001 := by
    decide
  have hq : roundF64 (((2100000000000001 : Int) : Rat) / ((7000000000000003 : Int) : Rat)) =
      ((5404319552844595 : Int) : Rat) * 2 ^ (-54 : Int) :=
    roundF64_eq_of_near _ 5404319552844595 (-54) (by norm_num) (by norm_num) (by norm_num)
      (by norm_num) (by norm_num)
  have hc : roundF64 (3 / 10) = ((5404319552844595 : Int) : Rat) * 2 ^ (-54 : Int) :=
    roundF64_eq_of_near _ 5404319552844595 (-54) (by norm_num) (by norm_num) (by norm_num)
      (by norm_num) (by norm_num)
  have hh : roundF64 (1 / 2) = ((4503599627370496 : Int) : Rat) * 2 ^ (-53 : Int) :=
    roundF64_eq_of_near _ 4503599627370496 (-53) (by norm_num) (by norm_num) (by norm_num)
      (by norm_num) (by norm_num)
  unfold bustRisk64
  rw [ht, hs, e1, e2, e3, floatDiv_of_exact _ _ (by norm_num) (by norm_num) (by norm_num)
    (by norm_num), hq, hc, hh]
  simp only [FloatVal.gt, decide_eq_false_iff_not, not_lt]
  constructor
  · exact le_refl _
  · norm_num

/-- C20, as stated, fails, in two ways. The hand of a Number card of value
`2^62` and the x2 card has round score `2^63 >= 35` and, with seven of the ten
remaining cards of its value, exact risk 7/10 > 3/10, but the 64-bit score has
wrapped to `-2^63` and Conservative answers "hit". The 36-point hand with
2100000000000001 busting cards among 7000000000000003 has exact risk above
3/10, but the `float64` quotient is the `float64` nearest to 0.3, the comparison
`> 0.3` is false and Conservative answers "hit". -/
theorem C20_counterexample :
    (distinctNumberCount (soloPlayer overflowHand).Cards ≠ 6 ∧
      0 < totalRemaining overflowCounts ∧
      roundScore (soloPlayer overflowHand).Cards ≥ 35 ∧
      bustRiskExact (soloPlayer overflowHand).Cards overflowCounts > 3 / 10 ∧
      (conservative.MakeDecision (soloPlayer overflowHand) emptyGameState
        overflowCounts).Action = "hit" ∧
      (conservative.MakeDecision (soloPlayer overflowHand) emptyGameState
        overflowCounts).Action ≠ "stand") ∧
    (distinctNumberCount (soloPlayer hand36).Cards ≠ 6 ∧
      0 < totalRemaining countsAboveThreeTenths ∧
      roundScore (soloPlayer hand36).Cards ≥ 35 ∧
      bustRiskExact (soloPlayer hand36).Cards countsAboveThreeTenths > 3 / 10 ∧
      (conservative.MakeDecision (soloPlayer hand36) emptyGameState
        countsAboveThreeTenths).Action = "hit" ∧
      (conservative.MakeDecision (soloPlayer hand36) emptyGameState
        countsAboveThreeTenths).Action ≠ "stand") := by
  have core :
    (distinctNumberCount (soloPlayer overflowHand).Cards ≠ 6 ∧
      0 < totalRemaining overflowCounts ∧
      roundScore (soloPlayer overflowHand).Cards ≥ 35 ∧
      bustRiskExact (soloPlayer overflowHand).Cards overflowCounts > 3 / 10 ∧
      (conservative.MakeDecision (soloPlayer overflowHand) emptyGameState
        overflowCounts).Action = "hit") ∧
    (distinctNumberCount (soloPlayer hand36).Cards ≠ 6 ∧
      0 < totalRemaining countsAboveThreeTenths ∧
      roundScore (soloPlayer hand36).Cards ≥ 35 ∧
      bustRiskExact (soloPlayer hand36).Cards countsAboveThreeTenths > 3 / 10 ∧
      (conservative.MakeDecision (soloPlayer hand36) emptyGameState
        countsAboveThreeTenths).Action = "hit") := by
    refine ⟨⟨by decide, by decide, by decide, ?_, ?_⟩, ⟨by decide, by decide, by decide, ?_, ?_⟩⟩
    · have ht : totalRemaining overflowCounts = 10 := by decide
      have hs : safeRemaining (soloPlayer overflowHand).Cards overflowCounts = 3 := by decide
      rw [bustRiskExact, ht, hs]
      norm_num
    · rw [conservative_unfold64, if_neg (by decide), if_neg (fun h => absurd h.1 (by decide)),
        if_neg (fun h => absurd h.1 (by decide))]
    · have ht : totalRemaining countsAboveThreeTenths = 7000000000000003 := by decide
      have hs : safeRemaining (soloPlayer hand36).Cards countsAboveThreeTenths =
          4900000000000002 := by decide
      rw [bustRiskExact, ht, hs]
      norm_num
    · have h1 := bustRisk64_hand36.1
      have h2 := bustRisk64_hand36.2
      rw [conservative_unfold64, if_neg (by decide)]
      have e : (soloPlayer hand36).Cards = hand36 := rfl
      rw [e, h1, h2]
      simp
  obtain ⟨⟨a1, a2, a3, a4, a5⟩, ⟨b1, b2, b3, b4, b5⟩⟩ := core
  exact ⟨⟨a1, a2, a3, a4, a5, hit_ne_stand _ a5⟩, ⟨b1, b2, b3, b4, b5, hit_ne_stand _ b5⟩⟩

/-- C20 (amended): `Conservative.MakeDecision` answers "hit" when the hand shows
exactly 6 distinct Number values; otherwise it answers "stand" exactly when
(score >= 35 and risk > 0.3) or (score >= 25 and risk > 0.5), and "hit" in every
other case, where the score is the round score reduced into the 64-bit `int`
range (the round score itself when it lies in that range), the risk is the
`float64` quotient of the 64-bit integers `total - safe` and `total`, and 0.3
and 0.5 are the `float64` constants. For remaining counts that are not negative
and total more than 0 and at most 2^48, the two `float64` comparisons agree with
the comparisons of the exact ratio `(total - safe) / total` with 3/10 and 1/2,
so that there "stand" is answered exactly when (score >= 35 and exact risk >
3/10) or (score >= 25 and exact risk > 1/2). -/
theorem C20_conservative (a : ConservativeAlgorithm) (playerState : PlayerState)
    (gameState : GameState) (cardsRemaining : List (Int × Int)) :
    (distinctNumberCount playerState.Cards = 6 →
      (a.MakeDecision playerState gameState cardsRemaining).Action = "hit") ∧
    (distinctNumberCount playerState.Cards ≠ 6 →
      ((a.MakeDecision playerState gameState cardsRemaining).Action = "stand" ↔
        (wrap64 (roundScore playerState.Cards) ≥ 35 ∧
            (bustRisk64 playerState.Cards cardsRemaining).gt (roundF64 (3 / 10)) = true) ∨
        (wrap64 (roundScore playerState.Cards) ≥ 25 ∧
            (bustRisk64 playerState.Cards cardsRemaining).gt (roundF64 (1 / 2)) = true)) ∧
      ((a.MakeDecision playerState gameState cardsRemaining).Action = "hit" ↔
        ¬ ((wrap64 (roundScore playerState.Cards) ≥ 35 ∧
              (bustRisk64 playerState.Cards cardsRemaining).gt (roundF64 (3 / 10)) = true) ∨
           (wrap64 (roundScore playerState.Cards) ≥ 25 ∧
              (bustRisk64 playerState.Cards cardsRemaining).gt (roundF64 (1 / 2)) = true)))) ∧
    ((∀ entry ∈ cardsRemaining, 0 ≤ entry.2) → 0 < totalRemaining cardsRemaining →
      totalRemaining cardsRemaining ≤ 2 ^ 48 →
      ((bustRisk64 playerState.Cards cardsRemaining).gt (roundF64 (3 / 10)) = true ↔
        bustRiskExact playerState.Cards cardsRemaining > 3 / 10) ∧
      ((bustRisk64 playerState.Cards cardsRemaining).gt (roundF64 (1 / 2)) = true ↔
        bustRiskExact playerState.Cards cardsRemaining > 1 / 2) ∧
      (distinctNumberCount playerState.Cards ≠ 6 →
        ((a.MakeDecision playerState gameState cardsRemaining).Action = "stand" ↔
          (wrap64 (roundScore playerState.Cards) ≥ 35 ∧
              bustRiskExact playerState.Cards cardsRemaining > 3 / 10) ∨
          (wrap64 (roundScore playerState.Cards) ≥ 25 ∧
              bustRiskExact playerState.Cards cardsRemaining > 1 / 2)) ∧
        ((a.MakeDecision playerState gameState cardsRemaining).Action = "hit" ↔
          ¬ ((wrap64 (roundScore playerState.Cards) ≥ 35 ∧
                bustRiskExact playerState.Cards cardsRemaining > 3 / 10) ∨
             (wrap64 (roundScore playerState.Cards) ≥ 25 ∧
                bustRiskExact playerState.Cards cardsRemaining > 1 / 2))))) ∧
    (-2 ^ 63 ≤ roundScore playerState.Cards → roundScore playerState.Cards < 2 ^ 63 →
      wrap64 (roundScore playerState.Cards) = roundScore playerState.Cards) := by
  refine ⟨?_, ?_, ?_, fun h1 h2 => wrap64_of_fits _ h1 h2⟩
  · intro h6
    rw [conservative_unfold64, if_pos h6]
  · intro h6
    apply action_of_two_tests
    rw [conservative_unfold64, if_neg h6]
  · intro hnn htotal hle
    obtain ⟨g1, g2, _, _, _⟩ := bustRisk64_gt playerState.Cards cardsRemaining hnn htotal hle
    refine ⟨?_, ?_, ?_⟩
    · rw [g1]
      exact decide_eq_true_iff
    · rw [g2]
      exact decide_eq_true_iff
    · intro h6
      apply action_of_two_tests
      rw [conservative_unfold a playerState gameState cardsRemaining hnn htotal hle, if_neg h6]

theorem bustRiskExact_hand36 :
    bustRiskExact (soloPlayer hand36).Cards remainingCounts = 7 / 10 := by
  have ht : totalRemaining remainingCounts = 10 := by decide
  have hs : safeRemaining (soloPlayer hand36).Cards remainingCounts = 3 := by decide
  rw [bustRiskExact, ht, hs]
  norm_num

/-- Instance of C20 (amended): the 36-point hand holds 12, 11 and 10; of the ten
remaining cards seven would bust it, and 7/10 > 3/10, so the strategy stands. -/
theorem C20_conservative_witness :
    (conservative.MakeDecision (soloPlayer hand36) emptyGameState remainingCounts).Action
      = "stand" :=
  ((((C20_conservative conservative (soloPlayer hand36) emptyGameState remainingCounts).2.2.1
      (by decide) (by decide) (by decide)).2.2 (by decide)).1).2
    (Or.inl ⟨by decide, bustRiskExact_hand36 ▸ by norm_num⟩)

/-! ## The sort of the result table -/

theorem getElem?_append_cons_length {α : Type} (pre : List α) (x : α) (rest : List α) :
    (pre ++ x :: rest)[pre.length]? = some x := by
  rw [List.getElem?_append_right (le_refl _)]
  simp

theorem set_append_cons_length {α : Type} (pre : List α) (x y : α) (rest : List α) :
    (pre ++ x :: rest).set pre.length y = pre ++ y :: rest := by
  induction pre with
  | nil => rfl
  | cons a as ih => simp [List.set, ih]

theorem sortInnerStep_spec (pre done todo : List SimulationResult) (x y : SimulationResult) :
    sortInnerStep pre.length (pre ++ x :: (done ++ y :: todo)) (pre.length + 1 + done.length) =
      if y.GamesWon > x.GamesWon then pre ++ y :: (done ++ x :: todo)
      else pre ++ x :: (done ++ y :: todo) := by
  have hj : pre.length + 1 + done.length = (pre ++ x :: done).length := by
    simp only [List.length_append, List.length_cons]; omega
  have hre : ∀ z : SimulationResult,
      pre ++ z :: (done ++ y :: todo) = (pre ++ z :: done) ++ y :: todo := by
    intro z; simp
  have hi : (pre ++ x :: (done ++ y :: todo))[pre.length]? = some x :=
    getElem?_append_cons_length pre x _
  have hjy : (pre ++ x :: (done ++ y :: todo))[pre.length + 1 + done.length]? = some y := by
    rw [hre x, hj]
    exact getElem?_append_cons_length _ y todo
  unfold sortInnerStep
  rw [hi, hjy]
  simp only
  by_cases h : y.GamesWon > x.GamesWon
  · rw [if_pos h, if_pos h, set_append_cons_length pre x y]
    have hj2 : pre.length + 1 + done.length = (pre ++ y :: done).length := by
      simp only [List.length_append, List.length_cons]; omega
    rw [hre y, hj2, set_append_cons_length (pre ++ y :: done) y x todo]
    simp
  · rw [if_neg h, if_neg h]

theorem sortInner_fold (pre : List SimulationResult) (todo : List SimulationResult) :
    ∀ (x : SimulationResult) (done : List SimulationResult),
      (List.range' (pre.length + 1 + done.length) todo.length).foldl (sortInnerStep pre.length)
          (pre ++ x :: (done ++ todo)) =
        pre ++ (bubble x todo).1 :: (done ++ (bubble x todo).2) := by
  induction todo with
  | nil => intro x done; simp [bubble]
  | cons y t ih =>
    intro x done
    simp only [List.length_cons, List.range'_succ, List.foldl_cons]
    rw [sortInnerStep_spec pre done t x y]
    by_cases h : y.GamesWon > x.GamesWon
    · rw [if_pos h]
      have := ih y (done ++ [x])
      simp only [List.length_append, List.length_singleton, List.append_assoc,
        List.singleton_append] at this
      rw [show pre.length + 1 + done.length + 1 = pre.length + 1 + (done.length + 1) by omega,
        this]
      simp [bubble, h]
    · rw [if_neg h]
      have := ih x (done ++ [y])
      simp only [List.length_append, List.length_singleton, List.append_assoc,
        List.singleton_append] at this
      rw [show pre.length + 1 + done.length + 1 = pre.length + 1 + (done.length + 1) by omega,
        this]
      simp [bubble, h]

theorem sortInner_spec (pre : List SimulationResult) (x : SimulationResult)
    (suf : List SimulationResult) :
    sortInner pre.length (pre ++ x :: suf) = pre ++ (bubble x suf).1 :: (bubble x suf).2 := by
  have h := sortInner_fold pre suf x []
  simp only [List.length_nil, Nat.add_zero, List.nil_append] at h
  unfold sortInner
  rw [show (pre ++ x :: suf).length - (pre.length + 1) = suf.length by
    simp only [List.length_append, List.length_cons]; omega]
  exact h

theorem bubble_length (l : List SimulationResult) :
    ∀ x : SimulationResult, (bubble x l).2.length = l.length := by
  induction l with
  | nil => intro x; rfl
  | cons y ys ih =>
    intro x
    unfold bubble
    split <;> simp [ih]

theorem sortOuter_fold (n : Nat) :
    ∀ (pre rest : List SimulationResult), rest.length = n →
      (List.range' pre.length (rest.length - 1)).foldl (fun rs i => sortInner i rs)
          (pre ++ rest) = pre ++ selSort rest.length rest := by
  induction n with
  | zero =>
    intro pre rest hlen
    have : rest = [] := List.length_eq_zero.mp hlen
    subst this
    simp [selSort]
  | succ k ih =>
    intro pre rest hlen
    match rest, hlen with
    | x :: suf, hlen =>
      have hsuf : suf.length = k := by simpa using hlen
      cases k with
      | zero =>
        have : suf = [] := List.length_eq_zero.mp hsuf
        subst this
        simp [selSort, bubble]
      | succ m =>
        have hb : (bubble x suf).2.length = m + 1 := by rw [bubble_length, hsuf]
        have hstep := ih (pre ++ [(bubble x suf).1]) (bubble x suf).2 hb
        simp only [List.length_append, List.length_singleton, List.append_assoc,
          List.singleton_append, hb, Nat.add_sub_cancel] at hstep
        simp only [List.length_cons, hsuf, Nat.add_sub_cancel, List.range'_succ,
          List.foldl_cons, sortInner_spec, selSort]
        exact hstep

theorem sortResults_eq_selSort (results : List SimulationResult) :
    sortResults results = selSort results.length results := by
  have h := sortOuter_fold results.length [] results rfl
  simp only [List.length_nil, List.nil_append] at h
  unfold sortResults
  rw [List.range_eq_range']
  exact h

theorem bubble_cons_gt (x y : SimulationResult) (ys : List SimulationResult)
    (h : y.GamesWon > x.GamesWon) :
    bubble x (y :: ys) = ((bubble y ys).1, x :: (bubble y ys).2) := by
  simp [bubble, h]

theorem bubble_cons_le (x y : SimulationResult) (ys : List SimulationResult)
    (h : ¬ y.GamesWon > x.GamesWon) :
    bubble x (y :: ys) = ((bubble x ys).1, y :: (bubble x ys).2) := by
  simp [bubble, h]

theorem bubble_perm (l : List SimulationResult) :
    ∀ x : SimulationResult, ((bubble x l).1 :: (bubble x l).2).Perm (x :: l) := by
  induction l with
  | nil => intro x; exact List.Perm.refl _
  | cons y ys ih =>
    intro x
    by_cases h : y.GamesWon > x.GamesWon
    · rw [bubble_cons_gt x y ys h]
      exact (List.Perm.swap _ _ _).trans ((ih y).cons x)
    · rw [bubble_cons_le x y ys h]
      exact ((List.Perm.swap _ _ _).trans ((ih x).cons y)).trans (List.Perm.swap _ _ _)

theorem bubble_fst_ge (l : List SimulationResult) :
    ∀ x : SimulationResult, x.GamesWon ≤ (bubble x l).1.GamesWon ∧
      ∀ z ∈ l, z.GamesWon ≤ (bubble x l).1.GamesWon := by
  induction l with
  | nil => intro x; exact ⟨le_refl _, fun z hz => absurd hz (List.not_mem_nil z)⟩
  | cons y ys ih =>
    intro x
    by_cases h : y.GamesWon > x.GamesWon
    · rw [bubble_cons_gt x y ys h]
      obtain ⟨h1, h2⟩ := ih y
      refine ⟨by simp only; omega, ?_⟩
      intro z hz
      rcases List.mem_cons.mp hz with rfl | hz
      · exact h1
      · exact h2 z hz
    · rw [bubble_cons_le x y ys h]
      obtain ⟨h1, h2⟩ := ih x
      refine ⟨h1, ?_⟩
      intro z hz
      rcases List.mem_cons.mp hz with rfl | hz
      · simp only; omega
      · exact h2 z hz

theorem bubble_snd_le (l : List SimulationResult) (x : SimulationResult) :
    ∀ z ∈ (bubble x l).2, z.GamesWon ≤ (bubble x l).1.GamesWon := by
  intro z hz
  have hmem : z ∈ x :: l := (bubble_perm l x).subset (List.mem_cons_of_mem _ hz)
  rcases List.mem_cons.mp hmem with rfl | h
  · exact (bubble_fst_ge l z).1
  · exact (bubble_fst_ge l x).2 z h

theorem selSort_perm (n : Nat) :
    ∀ l : List SimulationResult, (selSort n l).Perm l := by
  induction n with
  | zero => intro l; exact List.Perm.refl _
  | succ k ih =>
    intro l
    match l with
    | [] => exact List.Perm.refl _
    | x :: suf =>
      simp only [selSort]
      exact ((ih _).cons _).trans (bubble_perm suf x)

theorem selSort_sorted (n : Nat) :
    ∀ l : List SimulationResult, l.length ≤ n →
      (selSort n l).Pairwise (fun a b => a.GamesWon ≥ b.GamesWon) := by
  induction n with
  | zero =>
    intro l hl
    have : l = [] := List.length_eq_zero.mp (by omega)
    subst this
    exact List.Pairwise.nil
  | succ k ih =>
    intro l hl
    match l, hl with
    | [], _ => exact List.Pairwise.nil
    | x :: suf, hl =>
      simp only [selSort]
      refine List.Pairwise.cons ?_ (ih _ (by rw [bubble_length]; simpa using hl))
      intro z hz
      exact bubble_snd_le suf x z ((selSort_perm k _).subset hz)

/-- C15: the sorting loop of `displayResults` returns a permutation of its
input in which `GamesWon` never increases from one entry to a later one. -/
theorem C15_sort_descending (results : List SimulationResult) :
    (sortResults results).Perm results ∧
    (sortResults results).Pairwise (fun a b => a.GamesWon ≥ b.GamesWon) := by
  rw [sortResults_eq_selSort]
  exact ⟨selSort_perm _ _, selSort_sorted _ _ (le_refl _)⟩

theorem bubble_of_sorted (l : List SimulationResult) (x : SimulationResult)
    (h : ∀ z ∈ l, z.GamesWon ≤ x.GamesWon) : bubble x l = (x, l) := by
  induction l with
  | nil => rfl
  | cons y ys ih =>
    have hy : ¬ y.GamesWon > x.GamesWon := by
      have := h y (List.mem_cons_self _ _); omega
    have hrest := ih (fun z hz => h z (List.mem_cons_of_mem _ hz))
    rw [bubble_cons_le x y ys hy, hrest]

theorem selSort_of_sorted (n : Nat) :
    ∀ l : List SimulationResult, l.Pairwise (fun a b => a.GamesWon ≥ b.GamesWon) →
      selSort n l = l := by
  induction n with
  | zero => intro l _; rfl
  | succ k ih =>
    intro l hl
    match l, hl with
    | [], _ => rfl
    | x :: suf, hl =>
      have hx : ∀ z ∈ suf, z.GamesWon ≤ x.GamesWon := fun z hz => (List.pairwise_cons.mp hl).1 z hz
      simp only [selSort, bubble_of_sorted suf x hx]
      rw [ih suf (List.pairwise_cons.mp hl).2]

/-- C16, as stated, fails: for the input A (1 win), B (1 win), C (2 wins) the
loop returns C, B, A, so the tied results A and B come out in the opposite
order. -/
theorem C16_counterexample :
    sortResults tiedResults = [resultOf "C" 2, resultOf "B" 1, resultOf "A" 1] ∧
    tiedResults.filter (fun r => r.GamesWon = 1) = [resultOf "A" 1, resultOf "B" 1] ∧
    (sortResults tiedResults).filter (fun r => r.GamesWon = 1)
      = [resultOf "B" 1, resultOf "A" 1] ∧
    ¬ (∀ w : Int, (sortResults tiedResults).filter (fun r => r.GamesWon = w)
        = tiedResults.filter (fun r => r.GamesWon = w)) := by
  refine ⟨by decide, by decide, by decide, ?_⟩
  intro h
  exact absurd (h 1) (by decide)

/-- C16 (amended): when the input is already in non-increasing order of
`GamesWon`, the sorting loop of `displayResults` returns it unchanged, so
results with equal `GamesWon` keep their input order. -/
theorem C16_sorted_input_unchanged (results : List SimulationResult)
    (h : results.Pairwise (fun a b => a.GamesWon ≥ b.GamesWon)) :
    sortResults results = results ∧
    ∀ w : Int, (sortResults results).filter (fun r => r.GamesWon = w)
      = results.filter (fun r => r.GamesWon = w) := by
  have key : sortResults results = results := by
    rw [sortResults_eq_selSort]; exact selSort_of_sorted _ _ h
  rw [key]
  exact ⟨rfl, fun _ => rfl⟩

/-- Instance of C16 (amended): C (2), A (1), B (1), D (0) is returned as it
is. -/
theorem C16_sorted_input_unchanged_witness :
    sortResults orderedResults = orderedResults :=
  (C16_sorted_input_unchanged orderedResults (by decide)).1

/-! ## The scoring pass of the driver -/

theorem HasFlip7_congr (g g' : Game) (i : Nat) (hlen : g'.Players.length = g.Players.length)
    (hc : (g'.Players[i]?).map PlayerState.Cards = (g.Players[i]?).map PlayerState.Cards) :
    HasFlip7 g' (i : Int) = HasFlip7 g (i : Int) := by
  simp only [HasFlip7, outOfRange, hlen, Int.toNat_ofNat]
  cases h : g.Players[i]? with
  | none =>
    rw [h] at hc
    cases h' : g'.Players[i]? with
    | none => rfl
    | some p' => rw [h'] at hc; simp at hc
  | some p =>
    rw [h] at hc
    cases h' : g'.Players[i]? with
    | none => rw [h'] at hc; simp at hc
    | some p' =>
      rw [h'] at hc
      have : p'.Cards = p.Cards := by simpa using hc
      simp only [this]

theorem CalculateScore_congr (g g' : Game) (i : Nat)
    (hlen : g'.Players.length = g.Players.length)
    (hc : (g'.Players[i]?).map PlayerState.Cards = (g.Players[i]?).map PlayerState.Cards)
    (hb : (g'.Players[i]?).map PlayerState.IsBust = (g.Players[i]?).map PlayerState.IsBust) :
    CalculateScore g' (i : Int) = CalculateScore g (i : Int) := by
  have hf := HasFlip7_congr g g' i hlen hc
  simp only [CalculateScore, outOfRange, hlen, Int.toNat_ofNat, hf]
  cases h : g.Players[i]? with
  | none =>
    rw [h] at hc
    cases h' : g'.Players[i]? with
    | none => rfl
    | some p' => rw [h'] at hc; simp at hc
  | some p =>
    rw [h] at hc hb
    cases h' : g'.Players[i]? with
    | none => rw [h'] at hc; simp at hc
    | some p' =>
      rw [h'] at hc hb
      have h1 : p'.Cards = p.Cards := by simpa using hc
      have h2 : p'.IsBust = p.IsBust := by simpa using hb
      simp only [h1, h2]

theorem scoringStep_proj (st : ScoringState) (k : Nat) (player : PlayerState)
    (h : st.g.Players[k]? = some player) :
    (scoringStep st k).g.Players =
      st.g.Players.set k
        (withGameScore player (wrap64 (player.GameScore + CalculateScore st.g (k : Int)))) ∧
    (scoringStep st k).g.Deck = st.g.Deck ∧
    (scoringStep st k).g.DiscardPile = st.g.DiscardPile ∧
    (scoringStep st k).g.rng = st.g.rng ∧
    (scoringStep st k).scores =
      st.scores.set k (wrap64 (player.GameScore + CalculateScore st.g (k : Int))) ∧
    (scoringStep st k).roundWinner =
      (if wrap64 (player.GameScore + CalculateScore st.g (k : Int)) > st.highestScore then (k : Int)
        else st.roundWinner) ∧
    (scoringStep st k).highestScore =
      (if wrap64 (player.GameScore + CalculateScore st.g (k : Int)) > st.highestScore
        then wrap64 (player.GameScore + CalculateScore st.g (k : Int)) else st.highestScore) := by
  unfold scoringStep
  rw [h]
  simp only
  split <;> exact ⟨rfl, rfl, rfl, rfl, rfl, rfl, rfl⟩

theorem scoringPass_succ (k : Nat) (g : Game) (scores flip7s busts : List Int) :
    scoringPass (k + 1) g scores flip7s busts =
      scoringStep (scoringPass k g scores flip7s busts) k := by
  simp only [scoringPass, List.range_succ, List.foldl_append, List.foldl_cons, List.foldl_nil]

/-- State of the scoring loop after the player ids below `k`: those players
have their cumulative score as `GameScore` and in `scores`, the other players
and the piles are untouched, and `roundWinner`, `highestScore` are `-1`, `-1`
while no cumulative score exceeds `-1` and otherwise the first index of the
largest cumulative score so far and that score. -/
theorem scoringPass_inv (g : Game) (scores flip7s busts : List Int) (k : Nat)
    (hk : k ≤ g.Players.length) (hs : scores.length = g.Players.length) :
    (scoringPass k g scores flip7s busts).g.Players.length = g.Players.length ∧
    (∀ (j : Nat) (player : PlayerState), g.Players[j]? = some player →
      (scoringPass k g scores flip7s busts).g.Players[j]? =
        some (if j < k then withGameScore player (cumulativeScore g j) else player)) ∧
    (scoringPass k g scores flip7s busts).g.Deck = g.Deck ∧
    (scoringPass k g scores flip7s busts).g.DiscardPile = g.DiscardPile ∧
    (scoringPass k g scores flip7s busts).g.rng = g.rng ∧
    (scoringPass k g scores flip7s busts).scores.length = scores.length ∧
    (∀ j : Nat, j < k →
      (scoringPass k g scores flip7s busts).scores[j]? = some (cumulativeScore g j)) ∧
    (∀ j : Nat, k ≤ j → (scoringPass k g scores flip7s busts).scores[j]? = scores[j]?) ∧
    (((scoringPass k g scores flip7s busts).highestScore = -1 ∧
        (scoringPass k g scores flip7s busts).roundWinner = -1 ∧
        ∀ j : Nat, j < k → cumulativeScore g j ≤ -1) ∨
      (∃ w : Nat, w < k ∧ (scoringPass k g scores flip7s busts).roundWinner = (w : Int) ∧
        (scoringPass k g scores flip7s busts).highestScore = cumulativeScore g w ∧
        -1 < cumulativeScore g w ∧
        (∀ j : Nat, j < k → cumulativeScore g j ≤ cumulativeScore g w) ∧
        (∀ j : Nat, j < w → cumulativeScore g j < cumulativeScore g w))) := by
  induction k with
  | zero =>
    refine ⟨rfl, ?_, rfl, rfl, rfl, rfl, ?_, fun _ _ => rfl, Or.inl ⟨rfl, rfl, ?_⟩⟩
    · intro j player h
      simpa [scoringPass] using h
    · intro j hj; omega
    · intro j hj; omega
  | succ k ih =>
    obtain ⟨hlen, hpl, hdeck, hdis, hrng, hslen, hsc, hsrest, hwin⟩ := ih (by omega)
    have hklt : k < g.Players.length := by omega
    have horig : g.Players[k]? = some g.Players[k] := List.getElem?_eq_getElem hklt
    have hstk : (scoringPass k g scores flip7s busts).g.Players[k]? = some g.Players[k] := by
      rw [hpl k _ horig, if_neg (lt_irrefl k)]
    have hcalc : CalculateScore (scoringPass k g scores flip7s busts).g (k : Int)
        = CalculateScore g (k : Int) := by
      apply CalculateScore_congr g _ k hlen
      · rw [hstk, horig]
      · rw [hstk, horig]
    have hcum : wrap64 (g.Players[k].GameScore + CalculateScore g (k : Int)) =
        cumulativeScore g k := by
      simp only [cumulativeScore, horig]
    obtain ⟨pg, pd, pdis, prng, ps, pw, ph⟩ := scoringStep_proj (scoringPass k g scores flip7s busts) k _ hstk
    rw [hcalc, hcum] at pg ps pw ph
    rw [scoringPass_succ]
    refine ⟨?_, ?_, ?_, ?_, ?_, ?_, ?_, ?_, ?_⟩
    · rw [pg]; simpa using hlen
    · intro j player hj
      rw [pg]
      by_cases hjk : k = j
      · subst hjk
        have hlt2 : k < (scoringPass k g scores flip7s busts).g.Players.length := by omega
        have hpe : player = g.Players[k] := by
          rw [horig] at hj; exact (Option.some.inj hj).symm
        simp only [List.getElem?_set_self hlt2, Nat.lt_succ_self, if_true, hpe]
      · simp only [List.getElem?_set_ne hjk]
        rw [hpl j player hj]
        have hiff : j < k ↔ j < k + 1 := by omega
        by_cases hlt : j < k
        · rw [if_pos hlt, if_pos (hiff.mp hlt)]
        · rw [if_neg hlt, if_neg (fun h => hlt (hiff.mpr h))]
    · rw [pd]; exact hdeck
    · rw [pdis]; exact hdis
    · rw [prng]; exact hrng
    · rw [ps]; simpa using hslen
    · intro j hj
      rw [ps]
      by_cases hjk : k = j
      · subst hjk
        rw [List.getElem?_set_self (by omega)]
      · rw [List.getElem?_set_ne hjk]
        exact hsc j (by omega)
    · intro j hj
      rw [ps, List.getElem?_set_ne (by omega)]
      exact hsrest j (by omega)
    · rw [pw, ph]
      rcases hwin with ⟨h1, h2, h3⟩ | ⟨w, hw, h1, h2, hpos, h3, h4⟩
      · rw [h1, h2]
        by_cases hgt : cumulativeScore g k > -1
        · rw [if_pos hgt, if_pos hgt]
          refine Or.inr ⟨k, by omega, rfl, rfl, hgt, ?_, ?_⟩
          · intro j hj
            by_cases hjk : j = k
            · subst hjk; exact le_refl _
            · have := h3 j (by omega); omega
          · intro j hj
            have := h3 j hj; omega
        · rw [if_neg hgt, if_neg hgt]
          refine Or.inl ⟨rfl, rfl, ?_⟩
          intro j hj
          by_cases hjk : j = k
          · subst hjk; omega
          · exact h3 j (by omega)
      · rw [h1, h2]
        by_cases hgt : cumulativeScore g k > cumulativeScore g w
        · rw [if_pos hgt, if_pos hgt]
          refine Or.inr ⟨k, by omega, rfl, rfl, by omega, ?_, ?_⟩
          · intro j hj
            by_cases hjk : j = k
            · subst hjk; exact le_refl _
            · have := h3 j (by omega); omega
          · intro j hj
            have := h3 j hj; omega
        · rw [if_neg hgt, if_neg hgt]
          refine Or.inr ⟨w, by omega, rfl, rfl, hpos, ?_, h4⟩
          intro j hj
          by_cases hjk : j = k
          · subst hjk; omega
          · exact h3 j (by omega)

/-! ## GameScore is only written by the scoring pass -/

theorem gameScores_set (l : List PlayerState) (i : Nat) (p q : PlayerState)
    (h : l[i]? = some p) (hq : q.GameScore = p.GameScore) :
    (l.set i q).map PlayerState.GameScore = l.map PlayerState.GameScore := by
  apply List.ext_getElem?
  intro j
  by_cases hij : i = j
  · subst hij
    have hlt : i < l.length := lt_length_of_getElem? _ _ _ h
    simp only [List.getElem?_map, List.getElem?_set_self hlt, h, Option.map_some', hq]
  · simp only [List.getElem?_map, List.getElem?_set_ne hij]

theorem gameScores_length (g g' : Game) (h : gameScores g' = gameScores g) :
    g'.Players.length = g.Players.length := by
  have := congrArg List.length h
  simpa [gameScores] using this

theorem gameScores_CreateDeck (g : Game) : gameScores (CreateDeck g) = gameScores g := by
  unfold gameScores; rw [CreateDeck_players]

theorem gameScores_StartNewRound (g : Game) : gameScores (StartNewRound g) = gameScores g := by
  simp [gameScores, StartNewRound, Function.comp_def]

theorem gameScores_DrawCard (g : Game) : gameScores (DrawCard g).2 = gameScores g := by
  unfold gameScores; rw [DrawCard_players]

theorem gameScores_dealStep (g : Game) (i : Nat) : gameScores (dealStep g i) = gameScores g := by
  rcases dealStep_players g i with h | ⟨player, c, hp, _, _, hset⟩
  · unfold gameScores; rw [h]
  · unfold gameScores; rw [hset]
    exact gameScores_set _ _ player _ hp rfl

theorem gameScores_DealInitialCard (g : Game) :
    gameScores (DealInitialCard g) = gameScores g := by
  unfold DealInitialCard
  generalize List.range g.Players.length = l
  induction l generalizing g with
  | nil => rfl
  | cons i is ih => rw [List.foldl_cons, ih, gameScores_dealStep]

theorem gameScores_PlayerHit (g : Game) (p : Int) :
    gameScores (PlayerHit g p).2 = gameScores g := by
  by_cases ho : outOfRange g p = true
  · simp [PlayerHit, ho]
  · have h0 : 0 ≤ p := by
      simp only [outOfRange, Bool.or_eq_true, decide_eq_true_eq, not_or, not_lt] at ho
      exact ho.1
    cases hp : g.Players[p.toNat]? with
    | none => simp [PlayerHit, ho, hp]
    | some player =>
      have hp1 : (DrawCard g).2.Players[p.toNat]? = some player := by
        rw [DrawCard_players]; exact hp
      by_cases hbs : (player.IsBust || player.HasStood) = true
      · simp [PlayerHit, ho, hp, hbs]
      · simp only [Bool.or_eq_true, not_or, Bool.not_eq_true] at hbs
        cases hd : (DrawCard g).1 with
        | none =>
          rw [PlayerHit_active g p player h0 hp hbs.1 hbs.2, hd]
          exact gameScores_DrawCard g
        | some card =>
          by_cases hdup : isDuplicate player.Cards card = true
          · rw [PlayerHit_bust g p player card h0 hp hbs.1 hbs.2 hd hdup]
            refine Eq.trans ?_ (gameScores_DrawCard g)
            exact gameScores_set _ _ player _ hp1 rfl
          · rw [PlayerHit_append g p player card h0 hp hbs.1 hbs.2 hd (by simpa using hdup)]
            refine Eq.trans ?_ (gameScores_DrawCard g)
            exact gameScores_set _ _ player _ hp1 rfl

theorem gameScores_PlayerStand (g : Game) (p : Int) :
    gameScores (PlayerStand g p) = gameScores g := by
  unfold PlayerStand
  split
  · cases hp : g.Players[p.toNat]? with
    | none => rfl
    | some player =>
      unfold gameScores
      simp only
      exact gameScores_set _ _ player _ hp rfl
  · rfl

theorem gameScores_startRound (g : Game) : gameScores (startRound g) = gameScores g := by
  unfold startRound
  rw [gameScores_DealInitialCard, gameScores_StartNewRound, gameScores_CreateDeck]

theorem gameScores_passLoop (algorithms : List Algorithm) (l : List Nat) :
    ∀ g : Game, gameScores (passLoop algorithms l g) = gameScores g := by
  induction l with
  | nil => intro g; rfl
  | cons i is ih =>
    intro g
    have key : ∀ g1 : Game, gameScores g1 = gameScores g →
        gameScores (if IsRoundOver g1 then g1 else passLoop algorithms is g1) = gameScores g := by
      intro g1 h1
      split
      · exact h1
      · rw [ih, h1]
    unfold passLoop
    split
    · rename_i player algorithm _ _
      split
      · exact ih g
      · apply key
        split
        · exact gameScores_PlayerHit g _
        · exact gameScores_PlayerStand g _
    · rfl

theorem gameScores_decisionPass (algorithms : List Algorithm) (g : Game) :
    gameScores (decisionPass algorithms g) = gameScores g :=
  gameScores_passLoop algorithms _ g

theorem gameScores_roundLoop (algorithms : List Algorithm) (fuel : Nat) :
    ∀ g g1 : Game, roundLoop algorithms fuel g = some g1 → gameScores g1 = gameScores g := by
  induction fuel with
  | zero =>
    intro g g1 h
    unfold roundLoop at h
    split at h
    · rw [← Option.some.inj h]
    · exact absurd h (by simp)
  | succ k ih =>
    intro g g1 h
    unfold roundLoop at h
    split at h
    · rw [← Option.some.inj h]
    · rw [ih _ _ h, gameScores_decisionPass]

/-! ## The winner returned by `playGame` -/

theorem roundLoop_length (algorithms : List Algorithm) (passes : Nat) (g g1 : Game)
    (hr : roundLoop algorithms passes (startRound g) = some g1) :
    g1.Players.length = g.Players.length := by
  rw [gameScores_length _ _ (gameScores_roundLoop algorithms passes _ _ hr),
    gameScores_length _ _ (gameScores_startRound g)]

/-- The scoring pass over all players of `g`: the game and the slice `scores`
hold the cumulative scores; `highestScore` is at least 200 exactly when some
cumulative score is, and `roundWinner` is then the first index holding the
largest cumulative score. -/
theorem scoringPass_full (g : Game) (scores flip7s busts : List Int)
    (hs : scores.length = g.Players.length) :
    (scoringPass g.Players.length g scores flip7s busts).g.Players.length = g.Players.length ∧
    (scoringPass g.Players.length g scores flip7s busts).scores.length = g.Players.length ∧
    (∀ j : Nat, j < g.Players.length →
      (scoringPass g.Players.length g scores flip7s busts).scores[j]? =
        some (cumulativeScore g j)) ∧
    (∀ j : Nat, j < g.Players.length →
      (gameScores (scoringPass g.Players.length g scores flip7s busts).g)[j]? =
        some (cumulativeScore g j)) ∧
    ((∃ j : Nat, j < g.Players.length ∧ cumulativeScore g j ≥ 200) →
      (scoringPass g.Players.length g scores flip7s busts).highestScore ≥ 200 ∧
      ∃ w : Nat, w < g.Players.length ∧
        (scoringPass g.Players.length g scores flip7s busts).roundWinner = (w : Int) ∧
        cumulativeScore g w ≥ 200 ∧
        (∀ j : Nat, j < g.Players.length → cumulativeScore g j ≤ cumulativeScore g w) ∧
        (∀ j : Nat, j < w → cumulativeScore g j < cumulativeScore g w)) ∧
    ((∀ j : Nat, j < g.Players.length → cumulativeScore g j < 200) →
      (scoringPass g.Players.length g scores flip7s busts).highestScore < 200) := by
  obtain ⟨hlen, hpl, _, _, _, hslen, hsc, _, hwin⟩ :=
    scoringPass_inv g scores flip7s busts g.Players.length (le_refl _) hs
  refine ⟨hlen, hslen.trans hs, hsc, ?_, ?_, ?_⟩
  · intro j hj
    have horig : g.Players[j]? = some g.Players[j] := List.getElem?_eq_getElem hj
    simp only [gameScores, List.getElem?_map, hpl j _ horig, if_pos hj, Option.map_some',
      withGameScore]
  · rintro ⟨j, hj, h200⟩
    rcases hwin with ⟨_, _, h3⟩ | ⟨w, hw, h1, h2, _, h3, h4⟩
    · have := h3 j hj
      omega
    · have hge : cumulativeScore g w ≥ 200 := by
        have := h3 j hj
        omega
      exact ⟨by rw [h2]; exact hge, w, hw, h1, hge, h3, h4⟩
  · intro hall
    rcases hwin with ⟨h1, _, _⟩ | ⟨w, hw, _, h2, _, _, _⟩
    · rw [h1]; omega
    · rw [h2]; exact hall w hw

/-- One iteration of the outer loop of `playGame`, from the game `g` in which
the round is started and played to its end `g1`. -/
theorem playGameLoop_round (algorithms : List Algorithm) (passes rounds : Nat) (g g1 : Game)
    (scores flip7s busts : List Int)
    (hr : roundLoop algorithms passes (startRound g) = some g1) :
    playGameLoop algorithms passes (rounds + 1) g scores flip7s busts =
      if (scoringPass algorithms.length g1 scores flip7s busts).highestScore ≥ 200 then
        some ((scoringPass algorithms.length g1 scores flip7s busts).roundWinner,
          (scoringPass algorithms.length g1 scores flip7s busts).scores,
          (scoringPass algorithms.length g1 scores flip7s busts).flip7s,
          (scoringPass algorithms.length g1 scores flip7s busts).busts)
      else
        playGameLoop algorithms passes rounds
          (scoringPass algorithms.length g1 scores flip7s busts).g
          (scoringPass algorithms.length g1 scores flip7s busts).scores
          (scoringPass algorithms.length g1 scores flip7s busts).flip7s
          (scoringPass algorithms.length g1 scores flip7s busts).busts := by
  conv_lhs => unfold playGameLoop
  rw [hr]

theorem playGameLoop_result (algorithms : List Algorithm) (passes : Nat) (rounds : Nat) :
    ∀ (g : Game) (scores flip7s busts : List Int) (winner : Int) (sc fl bu : List Int),
      g.Players.length = algorithms.length → scores.length = algorithms.length →
      playGameLoop algorithms passes rounds g scores flip7s busts = some (winner, sc, fl, bu) →
      ∃ (g0 g1 : Game) (w : Nat), g0.Players.length = algorithms.length ∧
        roundLoop algorithms passes (startRound g0) = some g1 ∧
        (∀ j : Nat, j < algorithms.length → sc[j]? = some (cumulativeScore g1 j)) ∧
        winner = (w : Int) ∧ w < algorithms.length ∧ cumulativeScore g1 w ≥ 200 ∧
        (∀ j : Nat, j < algorithms.length → cumulativeScore g1 j ≤ cumulativeScore g1 w) ∧
        (∀ j : Nat, j < w → cumulativeScore g1 j < cumulativeScore g1 w) := by
  induction rounds with
  | zero =>
    intro g scores flip7s busts winner sc fl bu _ _ h
    exact absurd h (by simp [playGameLoop])
  | succ k ih =>
    intro g scores flip7s busts winner sc fl bu hg hs h
    cases hr : roundLoop algorithms passes (startRound g) with
    | none =>
      unfold playGameLoop at h
      rw [hr] at h
      exact absurd h (by simp)
    | some g1 =>
      rw [playGameLoop_round algorithms passes k g g1 scores flip7s busts hr] at h
      have hlen1 : g1.Players.length = algorithms.length := by
        rw [roundLoop_length algorithms passes g g1 hr, hg]
      have hs1 : scores.length = g1.Players.length := by rw [hs, hlen1]
      have full := scoringPass_full g1 scores flip7s busts hs1
      rw [hlen1] at full
      obtain ⟨flen, fslen, fsc, _, fwin, flow⟩ := full
      by_cases h200 : (scoringPass algorithms.length g1 scores flip7s busts).highestScore ≥ 200
      · rw [if_pos h200] at h
        have hex : ∃ j : Nat, j < algorithms.length ∧ cumulativeScore g1 j ≥ 200 := by
          by_contra hno
          have hall : ∀ j : Nat, j < algorithms.length → cumulativeScore g1 j < 200 := by
            intro j hj
            by_contra hge
            exact hno ⟨j, hj, by omega⟩
          have := flow hall
          omega
        obtain ⟨_, w, hw, hwin, hge, hmax, hfirst⟩ := fwin hex
        have hres := Option.some.inj h
        have e1 : (scoringPass algorithms.length g1 scores flip7s busts).roundWinner = winner :=
          congrArg Prod.fst hres
        have e2 : (scoringPass algorithms.length g1 scores flip7s busts).scores = sc :=
          congrArg (fun x => x.2.1) hres
        refine ⟨g, g1, w, hg, hr, ?_, ?_, hw, hge, hmax, hfirst⟩
        · intro j hj
          rw [← e2]; exact fsc j hj
        · rw [← e1]; exact hwin
      · rw [if_neg h200] at h
        exact ih _ _ _ _ winner sc fl bu flen fslen h

/-- C14: `playGame` is its outer loop started on a new game with all counters
at 0. In an iteration of that loop that starts and plays a round from the game
`g` (one strategy per player) to its end `g1`: if some cumulative score
(`GameScore` plus this round's score) is at least 200, the loop returns at once,
the returned scores are the cumulative scores, and the returned winner is the
smallest index whose cumulative score equals their maximum; if every cumulative
score is below 200, the loop goes into another round, on the game that holds the
cumulative scores as `GameScore`; and a round that does not end within the
allowance gives no result. Whenever `playGame` returns, it returns from such a
round. -/
theorem C14_playGame_winner (algorithms : List Algorithm) (passes rounds : Nat) :
    (∀ r : Rng, playGame algorithms passes rounds r =
      playGameLoop algorithms passes rounds (NewGame algorithms.length r)
        (List.replicate algorithms.length 0) (List.replicate algorithms.length 0)
        (List.replicate algorithms.length 0)) ∧
    (∀ (g g1 : Game) (scores flip7s busts : List Int),
      g.Players.length = algorithms.length → scores.length = algorithms.length →
      roundLoop algorithms passes (startRound g) = some g1 →
      ((∃ j : Nat, j < algorithms.length ∧ cumulativeScore g1 j ≥ 200) →
        ∃ (w : Nat) (sc fl bu : List Int),
          playGameLoop algorithms passes (rounds + 1) g scores flip7s busts =
            some ((w : Int), sc, fl, bu) ∧
          w < algorithms.length ∧ sc.length = algorithms.length ∧
          (∀ j : Nat, j < algorithms.length → sc[j]? = some (cumulativeScore g1 j)) ∧
          cumulativeScore g1 w ≥ 200 ∧
          (∀ j : Nat, j < algorithms.length → cumulativeScore g1 j ≤ cumulativeScore g1 w) ∧
          (∀ j : Nat, j < w → cumulativeScore g1 j < cumulativeScore g1 w)) ∧
      ((∀ j : Nat, j < algorithms.length → cumulativeScore g1 j < 200) →
        playGameLoop algorithms passes (rounds + 1) g scores flip7s busts =
          playGameLoop algorithms passes rounds
            (scoringPass algorithms.length g1 scores flip7s busts).g
            (scoringPass algorithms.length g1 scores flip7s busts).scores
            (scoringPass algorithms.length g1 scores flip7s busts).flip7s
            (scoringPass algorithms.length g1 scores flip7s busts).busts ∧
        (scoringPass algorithms.length g1 scores flip7s busts).g.Players.length =
          algorithms.length ∧
        (∀ j : Nat, j < algorithms.length →
          (gameScores (scoringPass algorithms.length g1 scores flip7s busts).g)[j]? =
            some (cumulativeScore g1 j)))) ∧
    (∀ (g : Game) (scores flip7s busts : List Int),
      roundLoop algorithms passes (startRound g) = none →
      playGameLoop algorithms passes (rounds + 1) g scores flip7s busts = none) ∧
    (∀ (r : Rng) (winner : Int) (scores flip7s busts : List Int),
      playGame algorithms passes rounds r = some (winner, scores, flip7s, busts) →
      ∃ (g g1 : Game) (w : Nat), g.Players.length = algorithms.length ∧
        roundLoop algorithms passes (startRound g) = some g1 ∧
        (∀ j : Nat, j < algorithms.length → scores[j]? = some (cumulativeScore g1 j)) ∧
        winner = (w : Int) ∧ w < algorithms.length ∧ cumulativeScore g1 w ≥ 200 ∧
        (∀ j : Nat, j < algorithms.length → cumulativeScore g1 j ≤ cumulativeScore g1 w) ∧
        (∀ j : Nat, j < w → cumulativeScore g1 j < cumulativeScore g1 w)) := by
  refine ⟨fun _ => rfl, ?_, ?_, ?_⟩
  · intro g g1 scores flip7s busts hg hs hr
    have hlen1 : g1.Players.length = algorithms.length := by
      rw [roundLoop_length algorithms passes g g1 hr, hg]
    have full := scoringPass_full g1 scores flip7s busts (by rw [hs, hlen1])
    rw [hlen1] at full
    obtain ⟨flen, fslen, fsc, fgs, fwin, flow⟩ := full
    constructor
    · intro hex
      obtain ⟨h200, w, hw, hwin, hge, hmax, hfirst⟩ := fwin hex
      refine ⟨w, (scoringPass algorithms.length g1 scores flip7s busts).scores,
        (scoringPass algorithms.length g1 scores flip7s busts).flip7s,
        (scoringPass algorithms.length g1 scores flip7s busts).busts, ?_, hw, fslen, fsc, hge,
        hmax, hfirst⟩
      rw [playGameLoop_round algorithms passes rounds g g1 scores flip7s busts hr, if_pos h200,
        hwin]
    · intro hall
      have hlt := flow hall
      refine ⟨?_, flen, fgs⟩
      rw [playGameLoop_round algorithms passes rounds g g1 scores flip7s busts hr,
        if_neg (by omega)]
  · intro g scores flip7s busts hr
    conv_lhs => unfold playGameLoop
    rw [hr]
  · intro r winner scores flip7s busts h
    have hn : (NewGame algorithms.length r).Players.length = algorithms.length := by
      simp only [NewGame, List.length_map, List.length_range]
    exact playGameLoop_result algorithms passes rounds (NewGame algorithms.length r)
      (List.replicate algorithms.length 0) (List.replicate algorithms.length 0)
      (List.replicate algorithms.length 0) winner scores flip7s busts hn
      (List.length_replicate _ _) h

/-- Instance of C14: one player with the strategy `Stop at 40`, every deck
reversed by the shuffle. The first round ends with 48 points, below 200, and
the loop goes into the next round; the player stands at 48 each round and the
game ends in the fifth round with 240 points and winner 0. -/
theorem C14_playGame_winner_witness :
    playGame [stopAt40.toAlgorithm] 20 10 reverseRng = some (0, [240], [0], [0]) ∧
    (∃ (g g1 : Game) (w : Nat), g.Players.length = [stopAt40.toAlgorithm].length ∧
      roundLoop [stopAt40.toAlgorithm] 20 (startRound g) = some g1 ∧
      (∀ j : Nat, j < [stopAt40.toAlgorithm].length →
        [(240 : Int)][j]? = some (cumulativeScore g1 j)) ∧
      (0 : Int) = (w : Int) ∧ w < [stopAt40.toAlgorithm].length ∧ cumulativeScore g1 w ≥ 200 ∧
      (∀ j : Nat, j < [stopAt40.toAlgorithm].length →
        cumulativeScore g1 j ≤ cumulativeScore g1 w) ∧
      (∀ j : Nat, j < w → cumulativeScore g1 j < cumulativeScore g1 w)) ∧
    cumulativeScore firstRoundEnd 0 = 48 ∧
    playGameLoop [stopAt40.toAlgorithm] 20 (9 + 1) (NewGame 1 reverseRng) [0] [0] [0] =
      playGameLoop [stopAt40.toAlgorithm] 20 9
        (scoringPass [stopAt40.toAlgorithm].length firstRoundEnd [0] [0] [0]).g
        (scoringPass [stopAt40.toAlgorithm].length firstRoundEnd [0] [0] [0]).scores
        (scoringPass [stopAt40.toAlgorithm].length firstRoundEnd [0] [0] [0]).flip7s
        (scoringPass [stopAt40.toAlgorithm].length firstRoundEnd [0] [0] [0]).busts :=
  ⟨by decide,
   (C14_playGame_winner [stopAt40.toAlgorithm] 20 10).2.2.2 reverseRng 0 [240] [0] [0]
     (by decide),
   by decide,
   ((((C14_playGame_winner [stopAt40.toAlgorithm] 20 9).2.1 (NewGame 1 reverseRng) firstRoundEnd
      [0] [0] [0] rfl rfl rfl).2)
      (fun j hj => by
        have hj0 : j = 0 := by
          simp only [List.length_singleton] at hj
          omega
        subst hj0
        decide)).1⟩

/-! ## GameScore never decreases -/

theorem DrawCard_none (g : Game) (h : (DrawCard g).1 = none) :
    g.Deck = [] ∧ g.DiscardPile = [] := by
  cases hd : g.Deck with
  | cons c rest => rw [DrawCard_cons g c rest hd] at h; exact absurd h (by simp)
  | nil =>
    refine ⟨rfl, ?_⟩
    by_contra hne
    obtain ⟨card, h1, _⟩ := DrawCard_reshuffle g hd hne
    rw [h1] at h
    exact absurd h (by simp)

theorem DrawCard_some_pileSize (g : Game) (c : Card) (h : (DrawCard g).1 = some c) :
    pileSize (DrawCard g).2 + 1 = pileSize g := by
  cases hd : g.Deck with
  | cons c' rest =>
    rw [DrawCard_cons g c' rest hd]
    simp [pileSize, hd]
    omega
  | nil =>
    by_cases hne : g.DiscardPile = []
    · rw [DrawCard_of_empty g hd hne] at h
      exact absurd h (by simp)
    · obtain ⟨card, _, h2, h3⟩ := DrawCard_reshuffle g hd hne
      have hl := h3.length_eq
      simp only [List.length_cons] at hl
      simp only [pileSize, h2, hd, List.length_nil]
      omega

theorem activeCount_set (l : List PlayerState) (i : Nat) (p q : PlayerState)
    (h : l[i]? = some p) :
    (l.set i q).countP isActive + (if isActive p then 1 else 0) =
      l.countP isActive + (if isActive q then 1 else 0) := by
  obtain ⟨hlt, hget⟩ := List.getElem?_eq_some.mp h
  have h1 := List.countP_set isActive l i q hlt
  have h2 := List.boole_getElem_le_countP isActive l i hlt
  rw [hget] at h1 h2
  omega

theorem smaller_trans (g2 g1 g : Game) (h1 : smaller g2 g1) (h2 : smaller g1 g) :
    smaller g2 g := by
  unfold smaller at *
  omega

theorem smaller_PlayerStand (g : Game) (i : Nat) (player : PlayerState)
    (hp : g.Players[i]? = some player) (hact : isActive player = true) :
    smaller (PlayerStand g (i : Int)) g := by
  have hlt : i < g.Players.length := lt_length_of_getElem? _ _ _ hp
  have hin : (decide ((i : Int) ≥ 0) && decide ((i : Int) < (g.Players.length : Int))) = true := by
    simp only [Bool.and_eq_true, decide_eq_true_eq]
    omega
  have key : (PlayerStand g (i : Int)).Players =
      g.Players.set i { player with HasStood := true } := by
    simp only [PlayerStand, hin, if_true, Int.toNat_ofNat, hp]
  have hc := activeCount_set g.Players i player { player with HasStood := true } hp
  have hq : isActive { player with HasStood := true } = false := by simp [isActive]
  rw [hact, hq] at hc
  left
  unfold activeCount
  rw [key]
  simp only [if_true, Bool.false_eq_true, if_false] at hc
  omega

theorem PlayerHit_progress (g : Game) (i : Nat) (player : PlayerState)
    (hp : g.Players[i]? = some player) (hact : isActive player = true) :
    (g.Deck = [] ∧ g.DiscardPile = [] ∧ (PlayerHit g (i : Int)).2 = g) ∨
      smaller (PlayerHit g (i : Int)).2 g := by
  have hb : player.IsBust = false := by
    simp only [isActive, Bool.and_eq_true, Bool.not_eq_true'] at hact; exact hact.1
  have hs : player.HasStood = false := by
    simp only [isActive, Bool.and_eq_true, Bool.not_eq_true'] at hact; exact hact.2
  have hp' : g.Players[((i : Int)).toNat]? = some player := by
    rw [Int.toNat_ofNat]; exact hp
  have hp1 : (DrawCard g).2.Players[i]? = some player := by
    rw [DrawCard_players]; exact hp
  cases hd : (DrawCard g).1 with
  | none =>
    obtain ⟨h1, h2⟩ := DrawCard_none g hd
    exact Or.inl ⟨h1, h2, by rw [PlayerHit_of_empty g h1 h2]⟩
  | some card =>
    right
    have hpile := DrawCard_some_pileSize g card hd
    by_cases hdup : isDuplicate player.Cards card = true
    · rw [PlayerHit_bust g (i : Int) player card (Int.ofNat_nonneg i) hp' hb hs hd hdup]
      have hc := activeCount_set (DrawCard g).2.Players i player
        { player with IsBust := true, Cards := [] } hp1
      have hq : isActive { player with IsBust := true, Cards := [] } = false := by
        simp [isActive]
      have he : (DrawCard g).2.Players.countP isActive = g.Players.countP isActive := by
        rw [DrawCard_players]
      rw [hact, hq] at hc
      left
      simp only [activeCount, Int.toNat_ofNat]
      simp only [if_true, Bool.false_eq_true, if_false] at hc
      omega
    · rw [PlayerHit_append g (i : Int) player card (Int.ofNat_nonneg i) hp' hb hs hd
        (by simpa using hdup)]
      have hc := activeCount_set (DrawCard g).2.Players i player
        { player with Cards := player.Cards ++ [card] } hp1
      have hq : isActive { player with Cards := player.Cards ++ [card] } = true := by
        simp [isActive, hb, hs]
      have he : (DrawCard g).2.Players.countP isActive = g.Players.countP isActive := by
        rw [DrawCard_players]
      rw [hact, hq] at hc
      right
      simp only [activeCount, pileSize, Int.toNat_ofNat]
      simp only [pileSize] at hpile
      simp only [if_true] at hc
      omega

theorem passLoop_cons_inactive (algorithms : List Algorithm) (i : Nat) (rest : List Nat)
    (g : Game) (player : PlayerState) (algorithm : Algorithm)
    (hp : g.Players[i]? = some player) (ha : algorithms[i]? = some algorithm)
    (hin : isActive player = false) :
    passLoop algorithms (i :: rest) g = passLoop algorithms rest g := by
  have hor : (player.IsBust || player.HasStood) = true := by
    cases hb : player.IsBust <;> cases hs : player.HasStood <;> simp [isActive, hb, hs] at hin ⊢
  rw [passLoop, hp, ha]
  simp only [hor, if_true]

theorem passLoop_cons_active (algorithms : List Algorithm) (i : Nat) (rest : List Nat)
    (g : Game) (player : PlayerState) (algorithm : Algorithm)
    (hp : g.Players[i]? = some player) (ha : algorithms[i]? = some algorithm)
    (hact : isActive player = true) :
    passLoop algorithms (i :: rest) g =
      if IsRoundOver (applyDecision algorithm player g i) then applyDecision algorithm player g i
      else passLoop algorithms rest (applyDecision algorithm player g i) := by
  have hor : (player.IsBust || player.HasStood) = false := by
    cases hb : player.IsBust <;> cases hs : player.HasStood <;> simp [isActive, hb, hs] at hact ⊢
  rw [passLoop, hp, ha]
  simp only [hor, Bool.false_eq_true, if_false]
  rfl

theorem applyDecision_progress (algorithm : Algorithm) (player : PlayerState) (g : Game)
    (i : Nat) (hp : g.Players[i]? = some player) (hact : isActive player = true) :
    (applyDecision algorithm player g i).Players.length = g.Players.length ∧
    ((g.Deck = [] ∧ g.DiscardPile = [] ∧ applyDecision algorithm player g i = g) ∨
      smaller (applyDecision algorithm player g i) g) := by
  unfold applyDecision
  split
  · exact ⟨gameScores_length _ _ (gameScores_PlayerHit g _), PlayerHit_progress g i player hp hact⟩
  · exact ⟨gameScores_length _ _ (gameScores_PlayerStand g _),
      Or.inr (smaller_PlayerStand g i player hp hact)⟩

/-- One run of the inner loop from a game whose round is not over: either the
game has made progress, or it is unchanged and every visited active player found
both piles empty. -/
theorem passLoop_progress (algorithms : List Algorithm) (l : List Nat) :
    ∀ g : Game, IsRoundOver g = false →
      (∀ i ∈ l, i < g.Players.length ∧ i < algorithms.length) →
      smaller (passLoop algorithms l g) g ∨
      (passLoop algorithms l g = g ∧
        ∀ i ∈ l, ∀ player : PlayerState, g.Players[i]? = some player →
          isActive player = true → g.Deck = [] ∧ g.DiscardPile = []) := by
  induction l with
  | nil =>
    intro g _ _
    exact Or.inr ⟨rfl, fun i hi => absurd hi (List.not_mem_nil i)⟩
  | cons i rest ih =>
    intro g hover hvalid
    obtain ⟨hi1, hi2⟩ := hvalid i (List.mem_cons_self _ _)
    have hvrest : ∀ j ∈ rest, j < g.Players.length ∧ j < algorithms.length :=
      fun j hj => hvalid j (List.mem_cons_of_mem _ hj)
    have hp : g.Players[i]? = some g.Players[i] := List.getElem?_eq_getElem hi1
    have ha : algorithms[i]? = some algorithms[i] := List.getElem?_eq_getElem hi2
    cases hact : isActive g.Players[i] with
    | false =>
      rw [passLoop_cons_inactive algorithms i rest g _ _ hp ha hact]
      rcases ih g hover hvrest with h | ⟨h1, h2⟩
      · exact Or.inl h
      · refine Or.inr ⟨h1, ?_⟩
        intro j hj player hpj hactj
        rcases List.mem_cons.mp hj with rfl | hj
        · rw [hp] at hpj
          rw [← Option.some.inj hpj, hact] at hactj
          exact absurd hactj (by simp)
        · exact h2 j hj player hpj hactj
    | true =>
      rw [passLoop_cons_active algorithms i rest g _ _ hp ha hact]
      obtain ⟨hlen, hprog⟩ := applyDecision_progress algorithms[i] g.Players[i] g i hp hact
      rcases hprog with ⟨hd, hdis, hsame⟩ | hsm
      · rw [hsame]
        simp only [hover, Bool.false_eq_true, if_false]
        rcases ih g hover hvrest with h | ⟨h1, h2⟩
        · exact Or.inl h
        · refine Or.inr ⟨h1, ?_⟩
          intro j hj player hpj hactj
          rcases List.mem_cons.mp hj with rfl | hj
          · exact ⟨hd, hdis⟩
          · exact h2 j hj player hpj hactj
      · left
        cases hover1 : IsRoundOver (applyDecision algorithms[i] g.Players[i] g i) with
        | true => simp only [if_true]; exact hsm
        | false =>
          simp only [Bool.false_eq_true, if_false]
          have hv1 : ∀ j ∈ rest,
              j < (applyDecision algorithms[i] g.Players[i] g i).Players.length ∧
                j < algorithms.length := by
            intro j hj
            rw [hlen]; exact hvrest j hj
          rcases ih _ hover1 hv1 with h | ⟨h1, _⟩
          · exact smaller_trans _ _ _ h hsm
          · rw [h1]; exact hsm

theorem exists_active_of_not_over (g : Game) (hover : IsRoundOver g = false) :
    ∃ (j : Nat) (player : PlayerState), g.Players[j]? = some player ∧ isActive player = true := by
  by_contra hno
  have hall : ∀ player ∈ g.Players, player.IsBust = true ∨ player.HasStood = true := by
    intro player hmem
    obtain ⟨j, hj⟩ := List.mem_iff_getElem?.mp hmem
    cases hb : player.IsBust
    · cases hs : player.HasStood
      · exact absurd ⟨j, player, hj, by simp [isActive, hb, hs]⟩ hno
      · exact Or.inr rfl
    · exact Or.inl rfl
  have : IsRoundOver g = true :=
    (roundOverLoop_iff g g.Players 0 (le_refl 0)).mpr (Or.inr ⟨rfl, hall⟩)
  rw [hover] at this
  exact absurd this (by simp)

theorem decisionPass_smaller (algorithms : List Algorithm) (g : Game)
    (hlen : algorithms.length = g.Players.length) (hover : IsRoundOver g = false)
    (hpile : ¬ (g.Deck = [] ∧ g.DiscardPile = [])) :
    smaller (decisionPass algorithms g) g := by
  have hvalid : ∀ i ∈ List.range algorithms.length,
      i < g.Players.length ∧ i < algorithms.length := by
    intro i hi
    have := List.mem_range.mp hi
    omega
  rcases passLoop_progress algorithms (List.range algorithms.length) g hover hvalid with
    h | ⟨_, h2⟩
  · exact h
  · obtain ⟨j, player, hj, hact⟩ := exists_active_of_not_over g hover
    have hjlt : j < g.Players.length := lt_length_of_getElem? _ _ _ hj
    exact absurd (h2 j (List.mem_range.mpr (by omega)) player hj hact) hpile

theorem decisionPass_length (algorithms : List Algorithm) (g : Game) :
    (decisionPass algorithms g).Players.length = g.Players.length :=
  gameScores_length _ _ (gameScores_decisionPass algorithms g)

theorem round_reaches_end_or_empty (algorithms : List Algorithm) :
    ∀ (a s : Nat) (g : Game), algorithms.length = g.Players.length →
      activeCount g = a → pileSize g = s →
      ∃ k : Nat, (∀ j : Nat, j < k → IsRoundOver (passesFrom algorithms j g) = false) ∧
        (IsRoundOver (passesFrom algorithms k g) = true ∨
          ((passesFrom algorithms k g).Deck = [] ∧
            (passesFrom algorithms k g).DiscardPile = [])) := by
  intro a
  induction a using Nat.strong_induction_on with
  | _ a iha =>
    intro s
    induction s using Nat.strong_induction_on with
    | _ s ihs =>
      intro g hlen ha hs
      cases hover : IsRoundOver g with
      | true => exact ⟨0, fun j hj => absurd hj (Nat.not_lt_zero j), Or.inl hover⟩
      | false =>
        by_cases hpile : g.Deck = [] ∧ g.DiscardPile = []
        · exact ⟨0, fun j hj => absurd hj (Nat.not_lt_zero j), Or.inr hpile⟩
        · have hsm := decisionPass_smaller algorithms g hlen hover hpile
          have hlen1 : algorithms.length = (decisionPass algorithms g).Players.length := by
            rw [decisionPass_length]; exact hlen
          have hnext : ∃ k : Nat,
              (∀ j : Nat, j < k →
                IsRoundOver (passesFrom algorithms j (decisionPass algorithms g)) = false) ∧
              (IsRoundOver (passesFrom algorithms k (decisionPass algorithms g)) = true ∨
                ((passesFrom algorithms k (decisionPass algorithms g)).Deck = [] ∧
                  (passesFrom algorithms k (decisionPass algorithms g)).DiscardPile = [])) := by
            rcases hsm with h | ⟨h1, h2⟩
            · exact iha _ (by omega) _ _ hlen1 rfl rfl
            · rw [← ha] at ihs
              rw [← h1] at ihs
              exact ihs _ (by omega) _ hlen1 rfl rfl
          obtain ⟨k, hk1, hk2⟩ := hnext
          refine ⟨k + 1, ?_, hk2⟩
          intro j hj
          cases j with
          | zero => exact hover
          | succ j' => exact hk1 j' (by omega)

theorem passLoop_stuck (algorithms : List Algorithm)
    (hhit : ∀ a ∈ algorithms, ∀ (ps : PlayerState) (gs : GameState) (cr : List (Int × Int)),
      (a.MakeDecision ps gs cr).Action = "hit")
    (g : Game) (hd : g.Deck = []) (hp : g.DiscardPile = []) (hover : IsRoundOver g = false)
    (l : List Nat) : passLoop algorithms l g = g := by
  induction l with
  | nil => rfl
  | cons i rest ih =>
    cases hpl : g.Players[i]? with
    | none => rw [passLoop, hpl]
    | some player =>
      cases hal : algorithms[i]? with
      | none => rw [passLoop, hpl, hal]
      | some algorithm =>
        cases hact : isActive player with
        | false => rw [passLoop_cons_inactive algorithms i rest g player algorithm hpl hal hact, ih]
        | true =>
          have hg1 : applyDecision algorithm player g i = g := by
            unfold applyDecision
            rw [if_pos (hhit algorithm (List.getElem?_mem hal) _ _ _), PlayerHit_of_empty g hd hp]
          rw [passLoop_cons_active algorithms i rest g player algorithm hpl hal hact, hg1, hover]
          simp only [Bool.false_eq_true, if_false]
          exact ih

theorem roundLoop_stuck (algorithms : List Algorithm)
    (hhit : ∀ a ∈ algorithms, ∀ (ps : PlayerState) (gs : GameState) (cr : List (Int × Int)),
      (a.MakeDecision ps gs cr).Action = "hit")
    (g : Game) (hd : g.Deck = []) (hp : g.DiscardPile = []) (hover : IsRoundOver g = false) :
    (∀ k : Nat, passesFrom algorithms k g = g) ∧
    (∀ passes : Nat, roundLoop algorithms passes g = none) := by
  have hpass : decisionPass algorithms g = g := passLoop_stuck algorithms hhit g hd hp hover _
  constructor
  · intro k
    induction k with
    | zero => rfl
    | succ k ih => rw [passesFrom, hpass, ih]
  · intro passes
    induction passes with
    | zero => simp [roundLoop, hover]
    | succ k ih => rw [roundLoop, hover, hpass]; simpa using ih

/-! ## A round of at most 13 players ends -/

theorem numberCardCount_eq_length (hand : List Card) :
    numberCardCount hand = (numberValues hand).length := by
  simp [numberCardCount, numberValues, List.countP_eq_length_filter]

theorem numberCardCount_append (a b : List Card) :
    numberCardCount (a ++ b) = numberCardCount a + numberCardCount b := by
  simp [numberCardCount, List.countP_append]

theorem numberCardCount_perm (a b : List Card) (h : a.Perm b) :
    numberCardCount a = numberCardCount b :=
  h.countP_eq _

theorem no_flip7_of_open (g : Game) (hid : idsAreIndices g) (hover : IsRoundOver g = false)
    (i : Nat) (player : PlayerState) (hp : g.Players[i]? = some player) :
    distinctNumberCount player.Cards ≠ 7 := by
  intro h7
  have hp2 : g.Players[((i : Int)).toNat]? = some player := by
    rw [Int.toNat_ofNat]; exact hp
  have hf : HasFlip7 g (i : Int) = true := by
    rw [HasFlip7_valid g (i : Int) player (Int.ofNat_nonneg i) hp2, h7]
    rfl
  have : IsRoundOver g = true :=
    (roundOverLoop_iff g g.Players 0 (le_refl 0)).mpr
      (Or.inl ⟨player, List.getElem?_mem hp, by rw [hid i player hp]; exact hf⟩)
  rw [hover] at this
  exact absurd this (by simp)

theorem sum_map_set (f : PlayerState → Nat) (l : List PlayerState) (i : Nat)
    (p q : PlayerState) (h : l[i]? = some p) :
    ((l.set i q).map f).sum + f p = (l.map f).sum + f q := by
  induction l generalizing i with
  | nil => simp at h
  | cons x xs ih =>
    cases i with
    | zero =>
      simp only [List.getElem?_cons_zero, Option.some.injEq] at h
      subst h
      simp only [List.set_cons_zero, List.map_cons, List.sum_cons]
      omega
    | succ j =>
      simp only [List.getElem?_cons_succ] at h
      have := ih j h
      simp only [List.set_cons_succ, List.map_cons, List.sum_cons]
      omega

theorem DrawCard_numberCards (g : Game) (c : Card) (h : (DrawCard g).1 = some c) :
    numberCardCount (DrawCard g).2.Deck + numberCardCount (DrawCard g).2.DiscardPile +
        numberCardCount [c] =
      numberCardCount g.Deck + numberCardCount g.DiscardPile := by
  cases hd : g.Deck with
  | cons c1 rest =>
    rw [DrawCard_cons g c1 rest hd] at h ⊢
    simp only [Option.some.injEq] at h
    subst h
    have : numberCardCount (c1 :: rest) = numberCardCount [c1] + numberCardCount rest :=
      numberCardCount_append [c1] rest
    simp only [this]
    omega
  | nil =>
    by_cases hne : g.DiscardPile = []
    · rw [DrawCard_of_empty g hd hne] at h
      exact absurd h (by simp)
    · obtain ⟨card, h1, h2, h3⟩ := DrawCard_reshuffle g hd hne
      rw [h1] at h
      simp only [Option.some.injEq] at h
      subst h
      have e := numberCardCount_perm _ _ h3
      have e2 : numberCardCount (card :: (DrawCard g).2.Deck) =
          numberCardCount [card] + numberCardCount (DrawCard g).2.Deck :=
        numberCardCount_append [card] _
      rw [h2]
      have e3 : numberCardCount ([] : List Card) = 0 := rfl
      omega

theorem playerInv_of_getElem? (g : Game) (hinv : ∀ player ∈ g.Players, playerInv player)
    (i : Nat) (player : PlayerState) (hp : g.Players[i]? = some player) : playerInv player :=
  hinv player (List.getElem?_mem hp)

theorem idsAreIndices_set (l : List PlayerState) (i : Nat) (p q : PlayerState)
    (hid : ∀ (j : Nat) (player : PlayerState), l[j]? = some player → player.ID = (j : Int))
    (hp : l[i]? = some p) (hq : q.ID = p.ID) :
    ∀ (j : Nat) (player : PlayerState), (l.set i q)[j]? = some player →
      player.ID = (j : Int) := by
  intro j player hj
  by_cases hij : i = j
  · subst hij
    have hlt : i < l.length := lt_length_of_getElem? _ _ _ hp
    rw [List.getElem?_set_self hlt] at hj
    rw [← Option.some.inj hj, hq]
    exact hid i p hp
  · rw [List.getElem?_set_ne hij] at hj
    exact hid j player hj

theorem roundInv_PlayerStand (g : Game) (i : Nat) (hinv : roundInv g) :
    roundInv (PlayerStand g (i : Int)) := by
  cases hp : g.Players[i]? with
  | none =>
    have : PlayerStand g (i : Int) = g := by
      unfold PlayerStand
      split
      · simp only [Int.toNat_ofNat, hp]
      · rfl
    rw [this]; exact hinv
  | some player =>
    have hlt : i < g.Players.length := lt_length_of_getElem? _ _ _ hp
    have hin : (decide ((i : Int) ≥ 0) && decide ((i : Int) < (g.Players.length : Int))) = true := by
      simp only [Bool.and_eq_true, decide_eq_true_eq]
      omega
    have key : PlayerStand g (i : Int) =
        { g with Players := g.Players.set i { player with HasStood := true } } := by
      simp only [PlayerStand, hin, if_true, Int.toNat_ofNat, hp]
    obtain ⟨hid, hpl, hsum⟩ := hinv
    rw [key]
    refine ⟨?_, ?_, ?_⟩
    · exact idsAreIndices_set g.Players i player _ hid hp rfl
    · apply forall_mem_set playerInv _ _ _ hpl
      exact hpl player (List.getElem?_mem hp)
    · have hs := sum_map_set accounted g.Players i player { player with HasStood := true } hp
      have ha : accounted { player with HasStood := true } = accounted player := rfl
      simp only
      omega

theorem numberCardCount_singleton_le (c : Card) : numberCardCount [c] ≤ 1 := by
  unfold numberCardCount
  exact le_trans (List.countP_le_length _) (by simp)

theorem numberCards_le_six_of_open (g : Game) (hinv : roundInv g)
    (hover : IsRoundOver g = false) (i : Nat) (player : PlayerState)
    (hp : g.Players[i]? = some player) (hb : player.IsBust = false) :
    numberCardCount player.Cards ≤ 6 := by
  obtain ⟨hid, hpl, _⟩ := hinv
  obtain ⟨hnd, _, h7⟩ := hpl player (List.getElem?_mem hp)
  have hne := no_flip7_of_open g hid hover i player hp
  have hcard : distinctNumberCount player.Cards = (numberValues player.Cards).length := by
    unfold distinctNumberCount
    exact List.toFinset_card_of_nodup (hnd hb)
  rw [numberCardCount_eq_length] at h7 ⊢
  omega

theorem roundInv_PlayerHit (g : Game) (i : Nat) (hinv : roundInv g)
    (hover : IsRoundOver g = false) : roundInv (PlayerHit g (i : Int)).2 := by
  by_cases ho : outOfRange g (i : Int) = true
  · simp only [PlayerHit, ho, if_true]; exact hinv
  · cases hp : g.Players[i]? with
    | none =>
      have hp2 : g.Players[((i : Int)).toNat]? = none := by
        rw [Int.toNat_ofNat]; exact hp
      simp only [PlayerHit, ho, hp2]; exact hinv
    | some player =>
      have hp2 : g.Players[((i : Int)).toNat]? = some player := by
        rw [Int.toNat_ofNat]; exact hp
      by_cases hbs : (player.IsBust || player.HasStood) = true
      · simp only [PlayerHit, ho, hp2, hbs, if_true]; exact hinv
      · simp only [Bool.or_eq_true, not_or, Bool.not_eq_true] at hbs
        have h6 := numberCards_le_six_of_open g hinv hover i player hp hbs.1
        obtain ⟨hid, hpl, hsum⟩ := hinv
        have hpi := hpl player (List.getElem?_mem hp)
        have hp1 : (DrawCard g).2.Players[i]? = some player := by
          rw [DrawCard_players]; exact hp
        have hid1 : ∀ (j : Nat) (q : PlayerState), (DrawCard g).2.Players[j]? = some q →
            q.ID = (j : Int) := by
          rw [DrawCard_players]; exact hid
        have hpl1 : ∀ a ∈ (DrawCard g).2.Players, playerInv a := by
          rw [DrawCard_players]; exact hpl
        cases hd : (DrawCard g).1 with
        | none =>
          obtain ⟨e1, e2⟩ := DrawCard_none g hd
          rw [PlayerHit_of_empty g e1 e2]
          exact ⟨hid, hpl, hsum⟩
        | some card =>
          have hdraw := DrawCard_numberCards g card hd
          have hc1 := numberCardCount_singleton_le card
          by_cases hdup : isDuplicate player.Cards card = true
          · rw [PlayerHit_bust g (i : Int) player card (Int.ofNat_nonneg i) hp2 hbs.1 hbs.2 hd hdup]
            have hnum : numberCardCount [card] = 1 := by
              have := ((isDuplicate_iff player.Cards card).mp hdup).1
              simp [numberCardCount, this]
            have hs := sum_map_set accounted (DrawCard g).2.Players i player
              { player with IsBust := true, Cards := [] } hp1
            have ha1 : accounted { player with IsBust := true, Cards := [] } = 1 := by
              simp [accounted, numberCardCount]
            have ha2 : accounted player = numberCardCount player.Cards := by
              simp [accounted, hbs.1]
            have hsum1 : (List.map accounted (DrawCard g).2.Players).sum =
                (List.map accounted g.Players).sum := by rw [DrawCard_players]
            refine ⟨?_, ?_, ?_⟩
            · simp only [Int.toNat_ofNat]
              exact idsAreIndices_set _ i player _ hid1 hp1 rfl
            · simp only [Int.toNat_ofNat]
              apply forall_mem_set playerInv _ _ _ hpl1
              exact ⟨fun hb => absurd hb (by simp), fun _ => rfl, by simp [numberCardCount]⟩
            · simp only [Int.toNat_ofNat, numberCardCount_append]
              omega
          · have hdup2 : isDuplicate player.Cards card = false := by simpa using hdup
            rw [PlayerHit_append g (i : Int) player card (Int.ofNat_nonneg i) hp2 hbs.1 hbs.2 hd
              hdup2]
            have hs := sum_map_set accounted (DrawCard g).2.Players i player
              { player with Cards := player.Cards ++ [card] } hp1
            have ha1 : accounted { player with Cards := player.Cards ++ [card] } =
                numberCardCount player.Cards + numberCardCount [card] := by
              simp [accounted, hbs.1, numberCardCount_append]
            have ha2 : accounted player = numberCardCount player.Cards := by
              simp [accounted, hbs.1]
            have hsum1 : (List.map accounted (DrawCard g).2.Players).sum =
                (List.map accounted g.Players).sum := by rw [DrawCard_players]
            refine ⟨?_, ?_, ?_⟩
            · simp only [Int.toNat_ofNat]
              exact idsAreIndices_set _ i player _ hid1 hp1 rfl
            · simp only [Int.toNat_ofNat]
              apply forall_mem_set playerInv _ _ _ hpl1
              refine ⟨fun _ => nodup_numberValues_append _ _ (hpi.1 hbs.1) hdup2,
                fun hb => ?_, ?_⟩
              · have : player.IsBust = true := hb
                rw [hbs.1] at this
                exact absurd this (by simp)
              · show numberCardCount (player.Cards ++ [card]) ≤ 7
                rw [numberCardCount_append]
                omega
            · simp only [Int.toNat_ofNat]
              omega

theorem roundInv_applyDecision (algorithm : Algorithm) (player : PlayerState) (g : Game)
    (i : Nat) (hinv : roundInv g) (hover : IsRoundOver g = false) :
    roundInv (applyDecision algorithm player g i) := by
  unfold applyDecision
  split
  · exact roundInv_PlayerHit g i hinv hover
  · exact roundInv_PlayerStand g i hinv

theorem roundInv_passLoop (algorithms : List Algorithm) (l : List Nat) :
    ∀ g : Game, roundInv g → IsRoundOver g = false → roundInv (passLoop algorithms l g) := by
  induction l with
  | nil => intro g hinv _; exact hinv
  | cons i rest ih =>
    intro g hinv hover
    cases hp : g.Players[i]? with
    | none => rw [passLoop, hp]; exact hinv
    | some player =>
      cases ha : algorithms[i]? with
      | none => rw [passLoop, hp, ha]; exact hinv
      | some algorithm =>
        cases hact : isActive player with
        | false =>
          rw [passLoop_cons_inactive algorithms i rest g player algorithm hp ha hact]
          exact ih g hinv hover
        | true =>
          rw [passLoop_cons_active algorithms i rest g player algorithm hp ha hact]
          have h1 := roundInv_applyDecision algorithm player g i hinv hover
          cases hover1 : IsRoundOver (applyDecision algorithm player g i) with
          | true => simp only [if_true]; exact h1
          | false =>
            simp only [Bool.false_eq_true, if_false]
            exact ih _ h1 hover1

theorem roundInv_passesFrom (algorithms : List Algorithm) (k : Nat) :
    ∀ g : Game, roundInv g →
      (∀ j : Nat, j < k → IsRoundOver (passesFrom algorithms j g) = false) →
      roundInv (passesFrom algorithms k g) := by
  induction k with
  | zero => intro g hinv _; exact hinv
  | succ k ih =>
    intro g hinv hopen
    have h0 : IsRoundOver g = false := hopen 0 (Nat.succ_pos k)
    show roundInv (passesFrom algorithms k (decisionPass algorithms g))
    apply ih
    · exact roundInv_passLoop algorithms _ g hinv h0
    · intro j hj
      exact hopen (j + 1) (by omega)

theorem sum_accounted_le (l : List PlayerState) (h : ∀ player ∈ l, accounted player ≤ 6) :
    (l.map accounted).sum ≤ 6 * l.length := by
  induction l with
  | nil => simp
  | cons x xs ih =>
    have h1 := h x (List.mem_cons_self _ _)
    have h2 := ih (fun p hp => h p (List.mem_cons_of_mem _ hp))
    simp only [List.map_cons, List.sum_cons, List.length_cons]
    omega

/-- In a round that is not over, with both piles empty, the players account for
all 79 Number cards, at most 6 each. -/
theorem players_of_empty_piles (g : Game) (hinv : roundInv g) (hover : IsRoundOver g = false)
    (hd : g.Deck = []) (hp : g.DiscardPile = []) : 79 ≤ 6 * g.Players.length := by
  have hall : ∀ player ∈ g.Players, accounted player ≤ 6 := by
    intro player hmem
    obtain ⟨i, hi⟩ := List.mem_iff_getElem?.mp hmem
    cases hb : player.IsBust with
    | false =>
      have := numberCards_le_six_of_open g hinv hover i player hi hb
      simp only [accounted, hb, Bool.false_eq_true, if_false]
      omega
    | true =>
      have hc := (hinv.2.1 player hmem).2.1 hb
      simp [accounted, hb, hc, numberCardCount]
  have hsum := sum_accounted_le g.Players hall
  have h79 := hinv.2.2
  rw [hd, hp] at h79
  have e : numberCardCount ([] : List Card) = 0 := rfl
  omega

theorem dealStep_inv (G : Game) (k : Nat)
    (hid : idsAreIndices G)
    (hpl : ∀ (j : Nat) (player : PlayerState), G.Players[j]? = some player →
      player.IsBust = false ∧ player.Cards.length ≤ 1 ∧ (k ≤ j → player.Cards = []))
    (hsum : 79 ≤ numberCardCount G.Deck + numberCardCount G.DiscardPile +
      (G.Players.map accounted).sum) :
    idsAreIndices (dealStep G k) ∧
    (dealStep G k).Players.length = G.Players.length ∧
    (∀ (j : Nat) (player : PlayerState), (dealStep G k).Players[j]? = some player →
      player.IsBust = false ∧ player.Cards.length ≤ 1 ∧ (k + 1 ≤ j → player.Cards = [])) ∧
    79 ≤ numberCardCount (dealStep G k).Deck + numberCardCount (dealStep G k).DiscardPile +
      ((dealStep G k).Players.map accounted).sum := by
  have hweak : ∀ (j : Nat) (player : PlayerState), G.Players[j]? = some player →
      player.IsBust = false ∧ player.Cards.length ≤ 1 ∧ (k + 1 ≤ j → player.Cards = []) := by
    intro j player hj
    obtain ⟨a, b, c⟩ := hpl j player hj
    exact ⟨a, b, fun h => c (by omega)⟩
  cases hp : G.Players[k]? with
  | none =>
    have : dealStep G k = G := by simp only [dealStep, hp]
    rw [this]
    exact ⟨hid, rfl, hweak, hsum⟩
  | some player =>
    obtain ⟨hb, _, hempty⟩ := hpl k player hp
    have hcards : player.Cards = [] := hempty (le_refl k)
    by_cases hact : (!player.HasStood && !player.IsBust) = true
    · cases hd : (DrawCard G).1 with
      | none =>
        obtain ⟨e1, e2⟩ := DrawCard_none G hd
        have : dealStep G k = G := by
          simp only [dealStep, hp, hact, if_true, DrawCard_of_empty G e1 e2]
        rw [this]
        exact ⟨hid, rfl, hweak, hsum⟩
      | some card =>
        have key : dealStep G k =
            { (DrawCard G).2 with
              Players := (DrawCard G).2.Players.set k
                { player with Cards := player.Cards ++ [card] } } := by
          simp only [dealStep, hp, hact, if_true, hd]
        have hp1 : (DrawCard G).2.Players[k]? = some player := by
          rw [DrawCard_players]; exact hp
        have hdraw := DrawCard_numberCards G card hd
        have hs := sum_map_set accounted (DrawCard G).2.Players k player
          { player with Cards := player.Cards ++ [card] } hp1
        have ha1 : accounted { player with Cards := player.Cards ++ [card] } =
            numberCardCount [card] := by
          simp [accounted, hb, hcards]
        have ha2 : accounted player = 0 := by
          simp [accounted, hb, hcards, numberCardCount]
        have hsum1 : (List.map accounted (DrawCard G).2.Players).sum =
            (List.map accounted G.Players).sum := by rw [DrawCard_players]
        rw [key]
        refine ⟨?_, ?_, ?_, ?_⟩
        · have hidG : ∀ (j : Nat) (q : PlayerState), (DrawCard G).2.Players[j]? = some q →
              q.ID = (j : Int) := by
            rw [DrawCard_players]; exact hid
          exact idsAreIndices_set _ k player _ hidG hp1 rfl
        · simp only [List.length_set, DrawCard_players]
        · intro j q hj
          simp only at hj
          by_cases hkj : k = j
          · subst hkj
            have hlt : k < (DrawCard G).2.Players.length := lt_length_of_getElem? _ _ _ hp1
            rw [List.getElem?_set_self hlt] at hj
            rw [← Option.some.inj hj]
            refine ⟨hb, ?_, fun h => absurd h (by omega)⟩
            simp [hcards]
          · rw [List.getElem?_set_ne hkj, DrawCard_players] at hj
            exact hweak j q hj
        · simp only
          omega
    · have : dealStep G k = G := by
        simp only [dealStep, hp, hact, Bool.false_eq_true, if_false]
      rw [this]
      exact ⟨hid, rfl, hweak, hsum⟩

theorem foldl_dealStep_inv (G0 : Game) (hid : idsAreIndices G0)
    (hpl : ∀ (j : Nat) (player : PlayerState), G0.Players[j]? = some player →
      player.IsBust = false ∧ player.Cards = [])
    (hsum : 79 ≤ numberCardCount G0.Deck + numberCardCount G0.DiscardPile +
      (G0.Players.map accounted).sum) (k : Nat) :
    idsAreIndices ((List.range k).foldl dealStep G0) ∧
    ((List.range k).foldl dealStep G0).Players.length = G0.Players.length ∧
    (∀ (j : Nat) (player : PlayerState),
      ((List.range k).foldl dealStep G0).Players[j]? = some player →
      player.IsBust = false ∧ player.Cards.length ≤ 1 ∧ (k ≤ j → player.Cards = [])) ∧
    79 ≤ numberCardCount ((List.range k).foldl dealStep G0).Deck +
      numberCardCount ((List.range k).foldl dealStep G0).DiscardPile +
      (((List.range k).foldl dealStep G0).Players.map accounted).sum := by
  induction k with
  | zero =>
    refine ⟨hid, rfl, ?_, hsum⟩
    intro j player hj
    obtain ⟨a, b⟩ := hpl j player hj
    exact ⟨a, by simp [b], fun _ => b⟩
  | succ k ih =>
    obtain ⟨i1, i2, i3, i4⟩ := ih
    rw [List.range_succ, List.foldl_append, List.foldl_cons, List.foldl_nil]
    obtain ⟨d1, d2, d3, d4⟩ := dealStep_inv _ k i1 i3 i4
    exact ⟨d1, d2.trans i2, d3, d4⟩

theorem numberCardCount_unshuffledDeck : numberCardCount unshuffledDeck = 79 := by decide

theorem roundInv_deal_of_reset (G : Game) (hid : idsAreIndices G)
    (hdeck : numberCardCount G.Deck = 79) : roundInv (DealInitialCard (StartNewRound G)) := by
  have hid0 : idsAreIndices (StartNewRound G) := by
    intro i player hp
    simp only [StartNewRound, List.getElem?_map] at hp
    cases hq : G.Players[i]? with
    | none => rw [hq] at hp; simp at hp
    | some q =>
      rw [hq] at hp
      simp only [Option.map_some', Option.some.injEq] at hp
      rw [← hp]
      exact hid i q hq
  have hpl0 : ∀ (j : Nat) (player : PlayerState),
      (StartNewRound G).Players[j]? = some player →
      player.IsBust = false ∧ player.Cards = [] := by
    intro j player hp
    simp only [StartNewRound, List.getElem?_map] at hp
    cases hq : G.Players[j]? with
    | none => rw [hq] at hp; simp at hp
    | some q =>
      rw [hq] at hp
      simp only [Option.map_some', Option.some.injEq] at hp
      rw [← hp]
      exact ⟨rfl, rfl⟩
  have hsum0 : 79 ≤ numberCardCount (StartNewRound G).Deck +
      numberCardCount (StartNewRound G).DiscardPile +
      ((StartNewRound G).Players.map accounted).sum := by
    have : (StartNewRound G).Deck = G.Deck := rfl
    rw [this, hdeck]; omega
  obtain ⟨f1, _, f3, f4⟩ := foldl_dealStep_inv (StartNewRound G) hid0 hpl0 hsum0
    (StartNewRound G).Players.length
  refine ⟨f1, ?_, f4⟩
  intro player hmem
  obtain ⟨j, hj⟩ := List.mem_iff_getElem?.mp hmem
  obtain ⟨hb, hlen, _⟩ := f3 j player hj
  have hn : (numberValues player.Cards).length ≤ 1 := by
    unfold numberValues
    rw [List.length_map]
    exact le_trans (List.length_filter_le _ _) hlen
  refine ⟨fun _ => ?_, fun h => ?_, ?_⟩
  · match hv : numberValues player.Cards, hn with
    | [], _ => exact List.nodup_nil
    | [x], _ => exact List.nodup_singleton x
  · rw [hb] at h
    exact absurd h (by simp)
  · rw [numberCardCount_eq_length]
    omega

theorem roundInv_startRound (g : Game) (hid : idsAreIndices g) : roundInv (startRound g) := by
  have hid1 : idsAreIndices (CreateDeck g) := by
    unfold idsAreIndices
    rw [CreateDeck_players]
    exact hid
  have hdeck : numberCardCount (CreateDeck g).Deck = 79 := by
    rw [numberCardCount_perm _ _ (CreateDeck_perm g), numberCardCount_unshuffledDeck]
  exact roundInv_deal_of_reset (CreateDeck g) hid1 hdeck

theorem idsAreIndices_NewGame (n : Nat) (r : Rng) : idsAreIndices (NewGame n r) := by
  intro i player hp
  simp only [NewGame, List.getElem?_map] at hp
  cases hq : (List.range n)[i]? with
  | none => rw [hq] at hp; simp at hp
  | some q =>
    rw [hq] at hp
    simp only [Option.map_some', Option.some.injEq] at hp
    have hqi : q = i := by
      obtain ⟨hlt, hget⟩ := List.getElem?_eq_some.mp hq
      rw [List.getElem_range] at hget
      exact hget.symm
    rw [← hp, hqi]

theorem roundLoop_of_reached (algorithms : List Algorithm) (k : Nat) :
    ∀ g : Game, (∀ j : Nat, j < k → IsRoundOver (passesFrom algorithms j g) = false) →
      IsRoundOver (passesFrom algorithms k g) = true →
      ∀ m : Nat, roundLoop algorithms (k + m) g = some (passesFrom algorithms k g) := by
  induction k with
  | zero =>
    intro g _ hover m
    simp only [passesFrom] at hover
    cases m with
    | zero => simp [roundLoop, passesFrom, hover]
    | succ m => simp [roundLoop, passesFrom, hover]
  | succ k ih =>
    intro g hopen hover m
    have h0 : IsRoundOver g = false := hopen 0 (Nat.succ_pos k)
    have e : k + 1 + m = (k + m) + 1 := by omega
    rw [e, roundLoop, h0]
    simp only [Bool.false_eq_true, if_false, passesFrom]
    apply ih (decisionPass algorithms g)
    · intro j hj
      have := hopen (j + 1) (by omega)
      simpa [passesFrom] using this
    · simpa [passesFrom] using hover

theorem roundLoop_none_of_open (algorithms : List Algorithm) (passes : Nat) :
    ∀ g : Game, (∀ j : Nat, j ≤ passes → IsRoundOver (passesFrom algorithms j g) = false) →
      roundLoop algorithms passes g = none := by
  induction passes with
  | zero =>
    intro g hopen
    have h0 : IsRoundOver g = false := hopen 0 (le_refl 0)
    simp [roundLoop, h0]
  | succ k ih =>
    intro g hopen
    have h0 : IsRoundOver g = false := hopen 0 (Nat.zero_le _)
    rw [roundLoop, h0]
    simp only [Bool.false_eq_true, if_false]
    apply ih
    intro j hj
    exact hopen (j + 1) (by omega)

theorem passesFrom_add (algorithms : List Algorithm) (a b : Nat) :
    ∀ g : Game, passesFrom algorithms (a + b) g =
      passesFrom algorithms b (passesFrom algorithms a g) := by
  induction a with
  | zero => intro g; simp [passesFrom]
  | succ a ih =>
    intro g
    have e : a + 1 + b = (a + b) + 1 := by omega
    rw [e]
    simp only [passesFrom]
    exact ih _

theorem alwaysHit14_hits : ∀ a ∈ alwaysHit14, ∀ (ps : PlayerState) (gs : GameState)
    (cr : List (Int × Int)), (a.MakeDecision ps gs cr).Action = "hit" := by
  intro a ha ps gs cr
  have : a = alwaysHit := List.eq_of_mem_replicate ha
  rw [this]; rfl

/-- C18, as stated, fails: with 14 players who always hit and a shuffle that
leaves the fresh deck in its order, nobody goes bust or reaches Flip 7, after
six passes all 86 cards are in the hands and both piles are empty, every later
hit draws nothing, and the round is never over: no number of passes ends the
round loop. -/
theorem C18_counterexample :
    alwaysHit14.length = (startRound (NewGame 14 identityRng)).Players.length ∧
    (passesFrom alwaysHit14 6 (startRound (NewGame 14 identityRng))).Deck = [] ∧
    (passesFrom alwaysHit14 6 (startRound (NewGame 14 identityRng))).DiscardPile = [] ∧
    (∀ k : Nat,
      IsRoundOver (passesFrom alwaysHit14 k (startRound (NewGame 14 identityRng))) = false) ∧
    (∀ passes : Nat,
      roundLoop alwaysHit14 passes (startRound (NewGame 14 identityRng)) = none) := by
  have hd : (passesFrom alwaysHit14 6 (startRound (NewGame 14 identityRng))).Deck = [] := by
    decide
  have hp : (passesFrom alwaysHit14 6 (startRound (NewGame 14 identityRng))).DiscardPile = [] := by
    decide
  have hover6 :
      IsRoundOver (passesFrom alwaysHit14 6 (startRound (NewGame 14 identityRng))) = false := by
    decide
  have hstuck := roundLoop_stuck alwaysHit14 alwaysHit14_hits _ hd hp hover6
  have hopen : ∀ k : Nat,
      IsRoundOver (passesFrom alwaysHit14 k (startRound (NewGame 14 identityRng))) = false := by
    intro k
    by_cases hk : k < 6
    · interval_cases k <;> decide
    · obtain ⟨m, rfl⟩ : ∃ m, k = 6 + m := ⟨k - 6, by omega⟩
      rw [passesFrom_add, hstuck.1 m]
      exact hover6
  exact ⟨by decide, hd, hp, hopen,
    fun passes => roundLoop_none_of_open alwaysHit14 passes _ (fun j _ => hopen j)⟩

/-- C18 (amended): with one strategy per player. In a game of at most 13
players whose IDs are their indices (as in every game `NewGame` builds), the
round started by `CreateDeck`,
`StartNewRound` and `DealInitialCard` reaches, after finitely many decision
passes, a game where `IsRoundOver` is true, and the round loop of the driver
returns that game for every allowance of at least that many passes. For any
number of players and from any game, the passes reach a game where
`IsRoundOver` is true (which the round loop then returns) or where the deck and
the discard pile are both empty; with both piles empty `PlayerHit` returns false
and leaves the game as it is. -/
theorem C18_round_ends_or_piles_empty (algorithms : List Algorithm) (g : Game)
    (hlen : algorithms.length = g.Players.length) :
    (idsAreIndices g → g.Players.length ≤ 13 →
      ∃ k : Nat,
        (∀ j : Nat, j < k → IsRoundOver (passesFrom algorithms j (startRound g)) = false) ∧
        IsRoundOver (passesFrom algorithms k (startRound g)) = true ∧
        (∀ m : Nat, roundLoop algorithms (k + m) (startRound g) =
          some (passesFrom algorithms k (startRound g)))) ∧
    (∃ k : Nat, (∀ j : Nat, j < k → IsRoundOver (passesFrom algorithms j g) = false) ∧
      (IsRoundOver (passesFrom algorithms k g) = true ∨
        ((passesFrom algorithms k g).Deck = [] ∧ (passesFrom algorithms k g).DiscardPile = [])) ∧
      (IsRoundOver (passesFrom algorithms k g) = true →
        ∀ m : Nat, roundLoop algorithms (k + m) g = some (passesFrom algorithms k g))) ∧
    (g.Deck = [] → g.DiscardPile = [] → ∀ p : Int, PlayerHit g p = (false, g)) ∧
    (∀ (n : Nat) (r : Rng), idsAreIndices (NewGame n r) ∧ (NewGame n r).Players.length = n) := by
  refine ⟨?_, ?_, fun hd hp p => PlayerHit_of_empty g hd hp p,
    fun n r => ⟨idsAreIndices_NewGame n r, by simp [NewGame]⟩⟩
  · intro hid h13
    have hlen1 : algorithms.length = (startRound g).Players.length := by
      rw [gameScores_length _ _ (gameScores_startRound g)]; exact hlen
    obtain ⟨k, h1, h2⟩ := round_reaches_end_or_empty algorithms _ _ (startRound g) hlen1 rfl rfl
    have hinv := roundInv_passesFrom algorithms k (startRound g) (roundInv_startRound g hid) h1
    have hover : IsRoundOver (passesFrom algorithms k (startRound g)) = true := by
      rcases h2 with h | ⟨hd, hp⟩
      · exact h
      · by_contra hno
        have hopen : IsRoundOver (passesFrom algorithms k (startRound g)) = false := by
          simpa using hno
        have h79 := players_of_empty_piles _ hinv hopen hd hp
        have hl : (passesFrom algorithms k (startRound g)).Players.length = g.Players.length := by
          have e : ∀ (j : Nat) (G : Game),
              (passesFrom algorithms j G).Players.length = G.Players.length := by
            intro j
            induction j with
            | zero => intro G; rfl
            | succ j ih => intro G; simp only [passesFrom]; rw [ih, decisionPass_length]
          rw [e, gameScores_length _ _ (gameScores_startRound g)]
        omega
    exact ⟨k, h1, hover, roundLoop_of_reached algorithms k _ h1 hover⟩
  · obtain ⟨k, h1, h2⟩ := round_reaches_end_or_empty algorithms _ _ g hlen rfl rfl
    exact ⟨k, h1, h2, fun hover => roundLoop_of_reached algorithms k g h1 hover⟩

/-- Instance of C18 (amended): one player with the strategy `Stop at 40` on a
reversed deck; and a game with both piles empty. -/
theorem C18_round_ends_or_piles_empty_witness :
    (∃ k : Nat,
      (∀ j : Nat, j < k →
        IsRoundOver (passesFrom [stopAt40.toAlgorithm] j (startRound (NewGame 1 reverseRng)))
          = false) ∧
      IsRoundOver (passesFrom [stopAt40.toAlgorithm] k (startRound (NewGame 1 reverseRng)))
          = true ∧
      (∀ m : Nat, roundLoop [stopAt40.toAlgorithm] (k + m) (startRound (NewGame 1 reverseRng)) =
        some (passesFrom [stopAt40.toAlgorithm] k (startRound (NewGame 1 reverseRng))))) ∧
    (∀ p : Int, PlayerHit emptyPilesGame p = (false, emptyPilesGame)) :=
  ⟨(C18_round_ends_or_piles_empty [stopAt40.toAlgorithm] (NewGame 1 reverseRng) (by decide)).1
      (idsAreIndices_NewGame 1 reverseRng) (by decide),
   (C18_round_ends_or_piles_empty [alwaysHit, alwaysHit] emptyPilesGame (by decide)).2.2.1 rfl
     rfl⟩

/-- Instance of C11 (amended): the shuffle under the generator that always
gives 0. -/
theorem C11_hit_after_deal_witness :
    ∃ (c0 c1 c2 : Card) (rest : List Card),
      (CreateDeck (NewGame 2 zeroRng)).Deck = c0 :: c1 :: c2 :: rest ∧
      (DealInitialCard (CreateDeck (NewGame 2 zeroRng))).Players[0]? = some (soloPlayer [c0]) ∧
      (PlayerHit (DealInitialCard (CreateDeck (NewGame 2 zeroRng))) 0).1 = true ∧
      (¬ (c2.CardType = "number" ∧ c0.CardType = "number" ∧ c0.Value = c2.Value) →
        (PlayerHit (DealInitialCard (CreateDeck (NewGame 2 zeroRng))) 0).2.Players[0]? =
          some (soloPlayer [c0, c2])) ∧
      ((c2.CardType = "number" ∧ c0.CardType = "number" ∧ c0.Value = c2.Value) →
        (PlayerHit (DealInitialCard (CreateDeck (NewGame 2 zeroRng))) 0).2.Players[0]? =
          some { soloPlayer [] with IsBust := true }) :=
  C11_hit_after_deal zeroRng

/-- Instance of C15: the table A (1), B (1), C (2). -/
theorem C15_sort_descending_witness :
    (sortResults tiedResults).Perm tiedResults ∧
    (sortResults tiedResults).Pairwise (fun a b => a.GamesWon ≥ b.GamesWon) :=
  C15_sort_descending tiedResults

/-! ## Strategies: Aggressive -/

theorem foldl_aggressiveStep (hand : List Card) (st : List Int × Int × Bool) :
    hand.foldl aggressiveStep st =
      (hand.foldl flip7Step st.1, hand.foldl scoreStep (st.2.1, st.2.2)) := by
  induction hand generalizing st with
  | nil => rfl
  | cons c cs ih =>
    rw [List.foldl_cons, List.foldl_cons, List.foldl_cons, ih]
    by_cases hn : c.CardType = "number"
    · simp [aggressiveStep, flip7Step, scoreStep, hn]
    · by_cases hm : c.CardType = "modifier"
      · cases hx : c.IsX2 <;> simp [aggressiveStep, flip7Step, scoreStep, hn, hm, hx]
      · simp [aggressiveStep, flip7Step, scoreStep, hn, hm]

theorem aggressiveRiskStep_eq : aggressiveRiskStep = conservativeRiskStep := rfl

theorem aggressive_sums (hand : List Card) (cr : List (Int × Int)) :
    cr.foldl (aggressiveRiskStep (hand.foldl flip7Step [])) (0, 0) =
      (wrap64 (safeRemaining hand cr), wrap64 (totalRemaining cr)) := by
  rw [aggressiveRiskStep_eq]
  exact conservative_sums hand cr

theorem wrap64_eq_zero_of_eq_zero (x : Int) (h : x = 0) : wrap64 x = 0 := by
  rw [h]; rfl

/-- The decision of `AggressiveAlgorithm.MakeDecision` in terms of the 64-bit
score, the 64-bit total and the `float64` risk, for every input. -/
theorem aggressive_unfold64 (a : AggressiveAlgorithm) (playerState : PlayerState)
    (gameState : GameState) (cr : List (Int × Int)) :
    a.MakeDecision playerState gameState cr =
      if distinctNumberCount playerState.Cards ≥ 4 then { Action := "hit" }
      else if wrap64 (totalRemaining cr) = 0 then { Action := "stand" }
      else if wrap64 (roundScore playerState.Cards) ≥ 45 ∧
          (bustRisk64 playerState.Cards cr).gt (roundF64 (2 / 5)) = true
        then { Action := "stand" }
      else if wrap64 (roundScore playerState.Cards) ≥ 60 ∧
          (bustRisk64 playerState.Cards cr).gt (roundF64 (1 / 5)) = true
        then { Action := "stand" }
      else { Action := "hit" } := by
  simp only [AggressiveAlgorithm.MakeDecision, foldl_aggressiveStep, aggressive_sums,
    foldl_flip7Step_length, scoreStep_roundScore, bustRisk64, Bool.and_eq_true,
    decide_eq_true_eq]

theorem aggressive_unfold (a : AggressiveAlgorithm) (playerState : PlayerState)
    (gameState : GameState) (cr : List (Int × Int))
    (hnn : ∀ entry ∈ cr, 0 ≤ entry.2) (hpos : 0 < totalRemaining cr)
    (hle : totalRemaining cr ≤ 2 ^ 48) :
    a.MakeDecision playerState gameState cr =
      if distinctNumberCount playerState.Cards ≥ 4 then { Action := "hit" }
      else if wrap64 (roundScore playerState.Cards) ≥ 45 ∧
          2 / 5 < bustRiskExact playerState.Cards cr
        then { Action := "stand" }
      else if wrap64 (roundScore playerState.Cards) ≥ 60 ∧
          1 / 5 < bustRiskExact playerState.Cards cr
        then { Action := "stand" }
      else { Action := "hit" } := by
  obtain ⟨_, _, g3, g4, _⟩ := bustRisk64_gt playerState.Cards cr hnn hpos hle
  have e1 : wrap64 (totalRemaining cr) = totalRemaining cr :=
    wrap64_of_fits _ (by omega) (by omega)
  rw [aggressive_unfold64, g3, g4, e1, if_neg (show ¬ totalRemaining cr = 0 by omega)]
  simp only [decide_eq_true_eq]

/-- The two float comparisons of Aggressive at the 45-point hand and the counts
just above 2/5: the quotient rounds to the `float64` nearest to 0.4, which does
not exceed itself. -/
theorem bustRisk64_hand45 :
    (bustRisk64 hand45 countsAboveTwoFifths).gt (roundF64 (2 / 5)) = false := by
  have ht : totalRemaining countsAboveTwoFifths = 7000000000000002 := by decide
  have hs : safeRemaining hand45 countsAboveTwoFifths = 4200000000000001 := by decide
  have e1 : wrap64 (7000000000000002 : Int) = 7000000000000002 := by decide
  have e2 : wrap64 (4200000000000001 : Int) = 4200000000000001 := by decide
  have e3 : wrap64 ((7000000000000002 : Int) - 4200000000000001) = 2800000000000001 := by
    decide
  have hq : roundF64 (((2800000000000001 : Int) : Rat) / ((7000000000000002 : Int) : Rat)) =
      ((7205759403792794 : Int) : Rat) * 2 ^ (-54 : Int) :=
    roundF64_eq_of_near _ 7205759403792794 (-54) (by norm_num) (by norm_num) (by norm_num)
      (by norm_num) (by norm_num)
  have hc : roundF64 (2 / 5) = ((7205759403792794 : Int) : Rat) * 2 ^ (-54 : Int) :=
    roundF64_eq_of_near _ 7205759403792794 (-54) (by norm_num) (by norm_num) (by norm_num)
      (by norm_num) (by norm_num)
  unfold bustRisk64
  rw [ht, hs, e1, e2, e3, floatDiv_of_exact _ _ (by norm_num) (by norm_num) (by norm_num)
    (by norm_num), hq, hc]
  simp only [FloatVal.gt, decide_eq_false_iff_not, not_lt]
  exact le_refl _

/-- C21, as stated, fails, in two ways. The hand of a Number card of value
`2^62` and the x2 card has round score `2^63 >= 45` and, with seven of the ten
remaining cards of its value, exact risk 7/10 > 2/5, but the 64-bit score has
wrapped to `-2^63` and Aggressive answers "hit". The 45-point hand with
2800000000000001 busting cards among 7000000000000002 has exact risk above 2/5,
but the `float64` quotient is the `float64` nearest to 0.4, the comparison
`> 0.4` is false and Aggressive answers "hit". -/
theorem C21_counterexample :
    (distinctNumberCount (soloPlayer overflowHand).Cards < 4 ∧
      totalRemaining overflowCounts ≠ 0 ∧
      roundScore (soloPlayer overflowHand).Cards ≥ 45 ∧
      bustRiskExact (soloPlayer overflowHand).Cards overflowCounts > 2 / 5 ∧
      (aggressive.MakeDecision (soloPlayer overflowHand) emptyGameState
        overflowCounts).Action = "hit" ∧
      (aggressive.MakeDecision (soloPlayer overflowHand) emptyGameState
        overflowCounts).Action ≠ "stand") ∧
    (distinctNumberCount (soloPlayer hand45).Cards < 4 ∧
      totalRemaining countsAboveTwoFifths ≠ 0 ∧
      roundScore (soloPlayer hand45).Cards ≥ 45 ∧
      bustRiskExact (soloPlayer hand45).Cards countsAboveTwoFifths > 2 / 5 ∧
      (aggressive.MakeDecision (soloPlayer hand45) emptyGameState
        countsAboveTwoFifths).Action = "hit" ∧
      (aggressive.MakeDecision (soloPlayer hand45) emptyGameState
        countsAboveTwoFifths).Action ≠ "stand") := by
  have core :
    (distinctNumberCount (soloPlayer overflowHand).Cards < 4 ∧
      totalRemaining overflowCounts ≠ 0 ∧
      roundScore (soloPlayer overflowHand).Cards ≥ 45 ∧
      bustRiskExact (soloPlayer overflowHand).Cards overflowCounts > 2 / 5 ∧
      (aggressive.MakeDecision (soloPlayer overflowHand) emptyGameState
        overflowCounts).Action = "hit") ∧
    (distinctNumberCount (soloPlayer hand45).Cards < 4 ∧
      totalRemaining countsAboveTwoFifths ≠ 0 ∧
      roundScore (soloPlayer hand45).Cards ≥ 45 ∧
      bustRiskExact (soloPlayer hand45).Cards countsAboveTwoFifths > 2 / 5 ∧
      (aggressive.MakeDecision (soloPlayer hand45) emptyGameState
        countsAboveTwoFifths).Action = "hit") := by
    refine ⟨⟨by decide, by decide, by decide, ?_, ?_⟩, ⟨by decide, by decide, by decide, ?_, ?_⟩⟩
    · have ht : totalRemaining overflowCounts = 10 := by decide
      have hs : safeRemaining (soloPlayer overflowHand).Cards overflowCounts = 3 := by decide
      rw [bustRiskExact, ht, hs]
      norm_num
    · rw [aggressive_unfold64, if_neg (by decide), if_neg (by decide),
        if_neg (fun h => absurd h.1 (by decide)), if_neg (fun h => absurd h.1 (by decide))]
    · have ht : totalRemaining countsAboveTwoFifths = 7000000000000002 := by decide
      have hs : safeRemaining (soloPlayer hand45).Cards countsAboveTwoFifths =
          4200000000000001 := by decide
      rw [bustRiskExact, ht, hs]
      norm_num
    · have h1 := bustRisk64_hand45
      have e : (soloPlayer hand45).Cards = hand45 := rfl
      rw [aggressive_unfold64, if_neg (by decide), if_neg (by decide), e, h1,
        if_neg (fun h => absurd h.2 (by simp)), if_neg (fun h => absurd h.1 (by decide))]
  obtain ⟨⟨a1, a2, a3, a4, a5⟩, ⟨b1, b2, b3, b4, b5⟩⟩ := core
  exact ⟨⟨a1, a2, a3, a4, a5, hit_ne_stand _ a5⟩, ⟨b1, b2, b3, b4, b5, hit_ne_stand _ b5⟩⟩

/-- C21 (amended): `Aggressive.MakeDecision` answers "hit" when the hand shows
at least 4 distinct Number values; otherwise "stand" when the remaining counts
total 0 (as a 64-bit integer); otherwise it answers "stand" exactly when
(score >= 45 and risk > 0.4) or (score >= 60 and risk > 0.2), and "hit" in every
other case, where the score is the round score reduced into the 64-bit `int`
range (the round score itself when it lies in that range), the risk is the
`float64` quotient of the 64-bit integers `total - safe` and `total`, and 0.4
and 0.2 are the `float64` constants. For remaining counts that are not negative
and total more than 0 and at most 2^48, the two `float64` comparisons agree with
the comparisons of the exact ratio `(total - safe) / total` with 2/5 and 1/5,
so that there "stand" is answered exactly when (score >= 45 and exact risk >
2/5) or (score >= 60 and exact risk > 1/5). -/
theorem C21_aggressive (a : AggressiveAlgorithm) (playerState : PlayerState)
    (gameState : GameState) (cardsRemaining : List (Int × Int)) :
    (distinctNumberCount playerState.Cards ≥ 4 →
      (a.MakeDecision playerState gameState cardsRemaining).Action = "hit") ∧
    (distinctNumberCount playerState.Cards < 4 →
      (totalRemaining cardsRemaining = 0 ∨ wrap64 (totalRemaining cardsRemaining) = 0) →
      (a.MakeDecision playerState gameState cardsRemaining).Action = "stand") ∧
    (distinctNumberCount playerState.Cards < 4 → wrap64 (totalRemaining cardsRemaining) ≠ 0 →
      ((a.MakeDecision playerState gameState cardsRemaining).Action = "stand" ↔
        (wrap64 (roundScore playerState.Cards) ≥ 45 ∧
            (bustRisk64 playerState.Cards cardsRemaining).gt (roundF64 (2 / 5)) = true) ∨
        (wrap64 (roundScore playerState.Cards) ≥ 60 ∧
            (bustRisk64 playerState.Cards cardsRemaining).gt (roundF64 (1 / 5)) = true)) ∧
      ((a.MakeDecision playerState gameState cardsRemaining).Action = "hit" ↔
        ¬ ((wrap64 (roundScore playerState.Cards) ≥ 45 ∧
              (bustRisk64 playerState.Cards cardsRemaining).gt (roundF64 (2 / 5)) = true) ∨
           (wrap64 (roundScore playerState.Cards) ≥ 60 ∧
              (bustRisk64 playerState.Cards cardsRemaining).gt (roundF64 (1 / 5)) = true)))) ∧
    ((∀ entry ∈ cardsRemaining, 0 ≤ entry.2) → 0 < totalRemaining cardsRemaining →
      totalRemaining cardsRemaining ≤ 2 ^ 48 →
      ((bustRisk64 playerState.Cards cardsRemaining).gt (roundF64 (2 / 5)) = true ↔
        bustRiskExact playerState.Cards cardsRemaining > 2 / 5) ∧
      ((bustRisk64 playerState.Cards cardsRemaining).gt (roundF64 (1 / 5)) = true ↔
        bustRiskExact playerState.Cards cardsRemaining > 1 / 5) ∧
      (distinctNumberCount playerState.Cards < 4 →
        ((a.MakeDecision playerState gameState cardsRemaining).Action = "stand" ↔
          (wrap64 (roundScore playerState.Cards) ≥ 45 ∧
              bustRiskExact playerState.Cards cardsRemaining > 2 / 5) ∨
          (wrap64 (roundScore playerState.Cards) ≥ 60 ∧
              bustRiskExact playerState.Cards cardsRemaining > 1 / 5)) ∧
        ((a.MakeDecision playerState gameState cardsRemaining).Action = "hit" ↔
          ¬ ((wrap64 (roundScore playerState.Cards) ≥ 45 ∧
                bustRiskExact playerState.Cards cardsRemaining > 2 / 5) ∨
             (wrap64 (roundScore playerState.Cards) ≥ 60 ∧
                bustRiskExact playerState.Cards cardsRemaining > 1 / 5))))) ∧
    (-2 ^ 63 ≤ roundScore playerState.Cards → roundScore playerState.Cards < 2 ^ 63 →
      wrap64 (roundScore playerState.Cards) = roundScore playerState.Cards) := by
  refine ⟨?_, ?_, ?_, ?_, fun h1 h2 => wrap64_of_fits _ h1 h2⟩
  · intro h4
    rw [aggressive_unfold64, if_pos h4]
  · intro h4 ht
    have ht0 : wrap64 (totalRemaining cardsRemaining) = 0 :=
      ht.elim (wrap64_eq_zero_of_eq_zero _) id
    rw [aggressive_unfold64, if_neg (by omega), if_pos ht0]
  · intro h4 ht
    apply action_of_two_tests
    rw [aggressive_unfold64, if_neg (by omega), if_neg ht]
  · intro hnn hpos hle
    obtain ⟨_, _, g3, g4, _⟩ := bustRisk64_gt playerState.Cards cardsRemaining hnn hpos hle
    refine ⟨?_, ?_, ?_⟩
    · rw [g3]
      exact decide_eq_true_iff
    · rw [g4]
      exact decide_eq_true_iff
    · intro h4
      apply action_of_two_tests
      rw [aggressive_unfold a playerState gameState cardsRemaining hnn hpos hle,
        if_neg (by omega)]

theorem bustRiskExact_hand45 :
    bustRiskExact (soloPlayer hand45).Cards remainingCounts = 7 / 10 := by
  have ht : totalRemaining remainingCounts = 10 := by decide
  have hs : safeRemaining (soloPlayer hand45).Cards remainingCounts = 3 := by decide
  rw [bustRiskExact, ht, hs]
  norm_num

/-- Instance of C21 (amended): the 45-point hand holds 12, 11 and 10; seven of
the ten remaining cards would bust it, so the strategy stands; with an empty map
it stands as well, and with seven distinct values it hits. -/
theorem C21_aggressive_witness :
    (aggressive.MakeDecision (soloPlayer hand45) emptyGameState remainingCounts).Action
      = "stand" ∧
    (aggressive.MakeDecision (soloPlayer hand45) emptyGameState []).Action = "stand" ∧
    (aggressive.MakeDecision (soloPlayer flip7BonusHand) emptyGameState []).Action = "hit" ∧
    wrap64 (roundScore (soloPlayer hand45).Cards) = roundScore (soloPlayer hand45).Cards :=
  ⟨((((C21_aggressive aggressive (soloPlayer hand45) emptyGameState
      remainingCounts).2.2.2.1 (by decide) (by decide) (by decide)).2.2 (by decide)).1).2
        (Or.inl ⟨by decide, bustRiskExact_hand45 ▸ by norm_num⟩),
   (C21_aggressive aggressive (soloPlayer hand45) emptyGameState []).2.1 (by decide)
     (Or.inl (by decide)),
   (C21_aggressive aggressive (soloPlayer flip7BonusHand) emptyGameState []).1 (by decide),
   (C21_aggressive aggressive (soloPlayer hand45) emptyGameState []).2.2.2.2 (by decide)
     (by decide)⟩

/-! ## Strategies: Adaptive -/

theorem foldl_adaptiveStep (hand : List Card) (st : List Int × Int × Bool) :
    hand.foldl adaptiveStep st =
      (hand.foldl flip7Step st.1, hand.foldl scoreStep (st.2.1, st.2.2)) := by
  induction hand generalizing st with
  | nil => rfl
  | cons c cs ih =>
    rw [List.foldl_cons, List.foldl_cons, List.foldl_cons, ih]
    by_cases hn : c.CardType = "number"
    · simp [adaptiveStep, flip7Step, scoreStep, hn]
    · by_cases hm : c.CardType = "modifier"
      · cases hx : c.IsX2 <;> simp [adaptiveStep, flip7Step, scoreStep, hn, hm, hx]
      · simp [adaptiveStep, flip7Step, scoreStep, hn, hm]

theorem adaptiveRiskStep_eq : adaptiveRiskStep = conservativeRiskStep := rfl

theorem adaptive_sums (hand : List Card) (cr : List (Int × Int)) :
    cr.foldl (adaptiveRiskStep (hand.foldl flip7Step [])) (0, 0) =
      (wrap64 (safeRemaining hand cr), wrap64 (totalRemaining cr)) := by
  rw [adaptiveRiskStep_eq]
  exact conservative_sums hand cr

theorem foldr_max_init (l : List Int) (m a : Int) :
    l.foldr max (max m a) = max a (l.foldr max m) := by
  induction l with
  | nil => simp [max_comm]
  | cons x xs ih =>
    simp only [List.foldr_cons, ih]
    rw [max_left_comm]

theorem foldl_maxOpponentStep (playerState : PlayerState) (players : List PlayerState)
    (m : Int) :
    players.foldl (maxOpponentStep playerState) m =
      ((players.filter (fun player => player.ID ≠ playerState.ID)).map
        PlayerState.GameScore).foldr max m := by
  induction players generalizing m with
  | nil => rfl
  | cons x xs ih =>
    rw [List.foldl_cons, ih]
    by_cases hid : x.ID = playerState.ID
    · simp [maxOpponentStep, hid]
    · have hstep : maxOpponentStep playerState m x = max m x.GameScore := by
        unfold maxOpponentStep
        by_cases hgt : x.GameScore > m
        · rw [if_pos ⟨hid, hgt⟩, max_eq_right (le_of_lt hgt)]
        · rw [if_neg (fun h => hgt h.2), max_eq_left (not_lt.mp hgt)]
      rw [hstep, foldr_max_init]
      simp [hid]

/-- The decision of `AdaptiveAlgorithm.MakeDecision` in terms of the 64-bit gap,
the 64-bit score, the 64-bit total and the `float64` risk, for every input. -/
theorem adaptive_unfold64 (a : AdaptiveAlgorithm) (playerState : PlayerState)
    (gameState : GameState) (cr : List (Int × Int)) :
    a.MakeDecision playerState gameState cr =
      match adaptiveBrackets (wrap64 (scoreGap playerState gameState))
          (distinctNumberCount playerState.Cards) (wrap64 (roundScore playerState.Cards)) with
      | some decision => decision
      | none =>
        if wrap64 (totalRemaining cr) = 0 then { Action := "stand" }
        else if (bustRisk64 playerState.Cards cr).gt (roundF64 (3 / 5)) = true
          then { Action := "stand" }
        else { Action := "hit" } := by
  simp only [AdaptiveAlgorithm.MakeDecision, foldl_adaptiveStep, adaptive_sums,
    foldl_flip7Step_length, scoreStep_roundScore, foldl_maxOpponentStep]
  have hgap : ((gameState.Players.filter (fun player => player.ID ≠ playerState.ID)).map
      PlayerState.GameScore).foldr max 0 - playerState.GameScore
        = scoreGap playerState gameState := rfl
  rw [hgap]
  cases adaptiveBrackets (wrap64 (scoreGap playerState gameState))
      (distinctNumberCount playerState.Cards) (wrap64 (roundScore playerState.Cards)) with
  | some d => rfl
  | none => rfl

theorem adaptiveBrackets_cases (d : Int) (u : Nat) (s : Int) :
    (d > 50 → (u ≥ 3 ∨ s < 40) → adaptiveBrackets d u s = some { Action := "hit" }) ∧
    (20 < d → d ≤ 50 → (u ≥ 4 ∨ s < 35) → adaptiveBrackets d u s = some { Action := "hit" }) ∧
    (d ≤ 20 → u ≥ 6 → adaptiveBrackets d u s = some { Action := "hit" }) ∧
    (d ≤ 20 → u < 6 → s ≥ 25 → adaptiveBrackets d u s = some { Action := "stand" }) ∧
    (((d > 50 ∧ u < 3 ∧ s ≥ 40) ∨ (20 < d ∧ d ≤ 50 ∧ u < 4 ∧ s ≥ 35) ∨
        (d ≤ 20 ∧ u < 6 ∧ s < 25)) → adaptiveBrackets d u s = none) := by
  refine ⟨?_, ?_, ?_, ?_, ?_⟩
  · intro hd h
    unfold adaptiveBrackets
    rw [if_pos hd]
    by_cases hu : u ≥ 3
    · rw [if_pos hu]
    · rw [if_neg hu, if_pos (by omega)]
  · intro h1 h2 h
    unfold adaptiveBrackets
    rw [if_neg (by omega), if_pos h1]
    by_cases hu : u ≥ 4
    · rw [if_pos hu]
    · rw [if_neg hu, if_pos (by omega)]
  · intro hd hu
    unfold adaptiveBrackets
    rw [if_neg (by omega), if_neg (by omega), if_pos hu]
  · intro hd hu hs
    unfold adaptiveBrackets
    rw [if_neg (by omega), if_neg (by omega), if_neg (by omega), if_pos hs]
  · intro h
    unfold adaptiveBrackets
    rcases h with ⟨hd, hu, hs⟩ | ⟨h1, h2, hu, hs⟩ | ⟨hd, hu, hs⟩
    · rw [if_pos hd, if_neg (by omega), if_neg (by omega)]
    · rw [if_neg (by omega), if_pos h1, if_neg (by omega), if_neg (by omega)]
    · rw [if_neg (by omega), if_neg (by omega), if_neg (by omega), if_neg (by omega)]

theorem adaptive_fallthrough64 (a : AdaptiveAlgorithm) (playerState : PlayerState)
    (gameState : GameState) (cr : List (Int × Int))
    (hb : adaptiveBrackets (wrap64 (scoreGap playerState gameState))
      (distinctNumberCount playerState.Cards) (wrap64 (roundScore playerState.Cards)) = none) :
    a.MakeDecision playerState gameState cr =
      if wrap64 (totalRemaining cr) = 0 then { Action := "stand" }
      else if (bustRisk64 playerState.Cards cr).gt (roundF64 (3 / 5)) = true
        then { Action := "stand" }
      else { Action := "hit" } := by
  rw [adaptive_unfold64, hb]

/-- The float comparison of Adaptive for a single 3 in hand and the counts just
above 3/5: the quotient rounds to the `float64` nearest to 0.6, which does not
exceed itself. -/
theorem bustRisk64_three :
    (bustRisk64 [numberCard 3] countsAboveThreeFifths).gt (roundF64 (3 / 5)) = false := by
  have ht : totalRemaining countsAboveThreeFifths = 7000000000000003 := by decide
  have hs : safeRemaining [numberCard 3] countsAboveThreeFifths = 2800000000000001 := by
    decide
  have e1 : wrap64 (7000000000000003 : Int) = 7000000000000003 := by decide
  have e2 : wrap64 (2800000000000001 : Int) = 2800000000000001 := by decide
  have e3 : wrap64 ((7000000000000003 : Int) - 2800000000000001) = 4200000000000002 := by
    decide
  have hq : roundF64 (((4200000000000002 : Int) : Rat) / ((7000000000000003 : Int) : Rat)) =
      ((5404319552844595 : Int) : Rat) * 2 ^ (-53 : Int) :=
    roundF64_eq_of_near _ 5404319552844595 (-53) (by norm_num) (by norm_num) (by norm_num)
      (by norm_num) (by norm_num)
  have hc : roundF64 (3 / 5) = ((5404319552844595 : Int) : Rat) * 2 ^ (-53 : Int) :=
    roundF64_eq_of_near _ 5404319552844595 (-53) (by norm_num) (by norm_num) (by norm_num)
      (by norm_num) (by norm_num)
  unfold bustRisk64
  rw [ht, hs, e1, e2, e3, floatDiv_of_exact _ _ (by norm_num) (by norm_num) (by norm_num)
    (by norm_num), hq, hc]
  simp only [FloatVal.gt, decide_eq_false_iff_not, not_lt]
  exact le_refl _

/-- C22, as stated, fails, in two ways. A player alone in the game (gap 0)
holding a Number card of value `2^62` and the x2 card has one distinct value and
round score `2^63 >= 25`, but the 64-bit score has wrapped to `-2^63`, control
falls through to the bust-risk part, one of the ten remaining cards busts the
hand, and Adaptive answers "hit". A player alone in the game holding a single 3
falls through the brackets; with 4200000000000002 busting cards among
7000000000000003 the exact risk is above 3/5, but the `float64` quotient is the
`float64` nearest to 0.6, the comparison `> 0.6` is false and Adaptive answers
"hit". -/
theorem C22_counterexample :
    (scoreGap (soloPlayer overflowHand) emptyGameState ≤ 20 ∧
      distinctNumberCount (soloPlayer overflowHand).Cards < 6 ∧
      roundScore (soloPlayer overflowHand).Cards ≥ 25 ∧
      (adaptive.MakeDecision (soloPlayer overflowHand) emptyGameState
        overflowCountsSafe).Action = "hit" ∧
      (adaptive.MakeDecision (soloPlayer overflowHand) emptyGameState
        overflowCountsSafe).Action ≠ "stand") ∧
    (scoreGap (soloPlayer [numberCard 3]) emptyGameState ≤ 20 ∧
      distinctNumberCount (soloPlayer [numberCard 3]).Cards < 6 ∧
      roundScore (soloPlayer [numberCard 3]).Cards < 25 ∧
      totalRemaining countsAboveThreeFifths ≠ 0 ∧
      bustRiskExact (soloPlayer [numberCard 3]).Cards countsAboveThreeFifths > 3 / 5 ∧
      (adaptive.MakeDecision (soloPlayer [numberCard 3]) emptyGameState
        countsAboveThreeFifths).Action = "hit" ∧
      (adaptive.MakeDecision (soloPlayer [numberCard 3]) emptyGameState
        countsAboveThreeFifths).Action ≠ "stand") := by
  have core :
    (scoreGap (soloPlayer overflowHand) emptyGameState ≤ 20 ∧
      distinctNumberCount (soloPlayer overflowHand).Cards < 6 ∧
      roundScore (soloPlayer overflowHand).Cards ≥ 25 ∧
      (adaptive.MakeDecision (soloPlayer overflowHand) emptyGameState
        overflowCountsSafe).Action = "hit") ∧
    (scoreGap (soloPlayer [numberCard 3]) emptyGameState ≤ 20 ∧
      distinctNumberCount (soloPlayer [numberCard 3]).Cards < 6 ∧
      roundScore (soloPlayer [numberCard 3]).Cards < 25 ∧
      totalRemaining countsAboveThreeFifths ≠ 0 ∧
      bustRiskExact (soloPlayer [numberCard 3]).Cards countsAboveThreeFifths > 3 / 5 ∧
      (adaptive.MakeDecision (soloPlayer [numberCard 3]) emptyGameState
        countsAboveThreeFifths).Action = "hit") := by
    refine ⟨⟨by decide, by decide, by decide, ?_⟩,
      ⟨by decide, by decide, by decide, by decide, ?_, ?_⟩⟩
    · have hb : adaptiveBrackets (wrap64 (scoreGap (soloPlayer overflowHand) emptyGameState))
          (distinctNumberCount (soloPlayer overflowHand).Cards)
          (wrap64 (roundScore (soloPlayer overflowHand).Cards)) = none := by decide
      have ht : totalRemaining overflowCountsSafe = 10 := by decide
      have hs : safeRemaining (soloPlayer overflowHand).Cards overflowCountsSafe = 9 := by decide
      have hr : ¬ (3 / 5 < bustRiskExact (soloPlayer overflowHand).Cards overflowCountsSafe) := by
        rw [bustRiskExact, ht, hs]
        norm_num
      have hg := (bustRisk64_gt (soloPlayer overflowHand).Cards overflowCountsSafe (by decide)
        (by decide) (by decide)).2.2.2.2
      rw [adaptive_fallthrough64 adaptive (soloPlayer overflowHand) emptyGameState
        overflowCountsSafe hb, if_neg (by decide), hg, decide_eq_false hr]
      simp
    · have ht : totalRemaining countsAboveThreeFifths = 7000000000000003 := by decide
      have hs : safeRemaining (soloPlayer [numberCard 3]).Cards countsAboveThreeFifths =
          2800000000000001 := by decide
      rw [bustRiskExact, ht, hs]
      norm_num
    · have hb : adaptiveBrackets (wrap64 (scoreGap (soloPlayer [numberCard 3]) emptyGameState))
          (distinctNumberCount (soloPlayer [numberCard 3]).Cards)
          (wrap64 (roundScore (soloPlayer [numberCard 3]).Cards)) = none := by decide
      have e : (soloPlayer [numberCard 3]).Cards = [numberCard 3] := rfl
      have h1 := bustRisk64_three
      rw [adaptive_fallthrough64 adaptive (soloPlayer [numberCard 3]) emptyGameState
        countsAboveThreeFifths hb, if_neg (by decide), e, h1]
      simp
  obtain ⟨⟨a1, a2, a3, a4⟩, ⟨b1, b2, b3, b4, b5, b6⟩⟩ := core
  exact ⟨⟨a1, a2, a3, a4, hit_ne_stand _ a4⟩, ⟨b1, b2, b3, b4, b5, b6, hit_ne_stand _ b6⟩⟩

/-- C22 (amended): with `d` the gap to the best other player (highest other
GameScore, at least 0, minus the own GameScore) and `s` the round score, both
reduced into the 64-bit `int` range (the numbers themselves when they lie in that
range), and `u` the number of distinct Number values held,
`Adaptive.MakeDecision` answers "hit" if `d > 50` and (`u >= 3` or `s < 40`);
"hit" if `20 < d <= 50` and (`u >= 4` or `s < 35`); for `d <= 20`, "hit" when
`u >= 6` and otherwise "stand" when `s >= 25`; in the remaining cases "stand"
when the remaining counts total 0 (as a 64-bit integer), and otherwise "stand"
exactly when the `float64` quotient of the 64-bit integers `total - safe` and
`total` exceeds the `float64` constant 0.6, and "hit" if not. For remaining
counts that are not negative and total more than 0 and at most 2^48, that
comparison agrees with the comparison of the exact ratio `(total - safe) / total`
with 3/5. -/
theorem C22_adaptive (a : AdaptiveAlgorithm) (playerState : PlayerState)
    (gameState : GameState) (cardsRemaining : List (Int × Int)) :
    (wrap64 (scoreGap playerState gameState) > 50 →
      (distinctNumberCount playerState.Cards ≥ 3 ∨
        wrap64 (roundScore playerState.Cards) < 40) →
      (a.MakeDecision playerState gameState cardsRemaining).Action = "hit") ∧
    (20 < wrap64 (scoreGap playerState gameState) →
      wrap64 (scoreGap playerState gameState) ≤ 50 →
      (distinctNumberCount playerState.Cards ≥ 4 ∨
        wrap64 (roundScore playerState.Cards) < 35) →
      (a.MakeDecision playerState gameState cardsRemaining).Action = "hit") ∧
    (wrap64 (scoreGap playerState gameState) ≤ 20 →
      distinctNumberCount playerState.Cards ≥ 6 →
      (a.MakeDecision playerState gameState cardsRemaining).Action = "hit") ∧
    (wrap64 (scoreGap playerState gameState) ≤ 20 →
      distinctNumberCount playerState.Cards < 6 →
      wrap64 (roundScore playerState.Cards) ≥ 25 →
      (a.MakeDecision playerState gameState cardsRemaining).Action = "stand") ∧
    (((wrap64 (scoreGap playerState gameState) > 50 ∧
          distinctNumberCount playerState.Cards < 3 ∧
          wrap64 (roundScore playerState.Cards) ≥ 40) ∨
        (20 < wrap64 (scoreGap playerState gameState) ∧
          wrap64 (scoreGap playerState gameState) ≤ 50 ∧
          distinctNumberCount playerState.Cards < 4 ∧
          wrap64 (roundScore playerState.Cards) ≥ 35) ∨
        (wrap64 (scoreGap playerState gameState) ≤ 20 ∧
          distinctNumberCount playerState.Cards < 6 ∧
          wrap64 (roundScore playerState.Cards) < 25)) →
      ((totalRemaining cardsRemaining = 0 ∨ wrap64 (totalRemaining cardsRemaining) = 0) →
        (a.MakeDecision playerState gameState cardsRemaining).Action = "stand") ∧
      (wrap64 (totalRemaining cardsRemaining) ≠ 0 →
        ((a.MakeDecision playerState gameState cardsRemaining).Action = "stand" ↔
          (bustRisk64 playerState.Cards cardsRemaining).gt (roundF64 (3 / 5)) = true) ∧
        ((a.MakeDecision playerState gameState cardsRemaining).Action = "hit" ↔
          ¬ (bustRisk64 playerState.Cards cardsRemaining).gt (roundF64 (3 / 5)) = true)) ∧
      ((∀ entry ∈ cardsRemaining, 0 ≤ entry.2) → 0 < totalRemaining cardsRemaining →
        totalRemaining cardsRemaining ≤ 2 ^ 48 →
        ((bustRisk64 playerState.Cards cardsRemaining).gt (roundF64 (3 / 5)) = true ↔
          bustRiskExact playerState.Cards cardsRemaining > 3 / 5) ∧
        ((a.MakeDecision playerState gameState cardsRemaining).Action = "stand" ↔
          bustRiskExact playerState.Cards cardsRemaining > 3 / 5) ∧
        ((a.MakeDecision playerState gameState cardsRemaining).Action = "hit" ↔
          ¬ bustRiskExact playerState.Cards cardsRemaining > 3 / 5))) ∧
    (-2 ^ 63 ≤ roundScore playerState.Cards → roundScore playerState.Cards < 2 ^ 63 →
      wrap64 (roundScore playerState.Cards) = roundScore playerState.Cards) ∧
    (-2 ^ 63 ≤ scoreGap playerState gameState → scoreGap playerState gameState < 2 ^ 63 →
      wrap64 (scoreGap playerState gameState) = scoreGap playerState gameState) := by
  obtain ⟨c1, c2, c3, c4, c5⟩ := adaptiveBrackets_cases
    (wrap64 (scoreGap playerState gameState))
    (distinctNumberCount playerState.Cards) (wrap64 (roundScore playerState.Cards))
  refine ⟨?_, ?_, ?_, ?_, ?_, fun h1 h2 => wrap64_of_fits _ h1 h2,
    fun h1 h2 => wrap64_of_fits _ h1 h2⟩
  · intro hd h
    rw [adaptive_unfold64, c1 hd h]
  · intro h1 h2 h
    rw [adaptive_unfold64, c2 h1 h2 h]
  · intro hd hu
    rw [adaptive_unfold64, c3 hd hu]
  · intro hd hu hs
    rw [adaptive_unfold64, c4 hd hu hs]
  · intro h
    have hfall := adaptive_fallthrough64 a playerState gameState cardsRemaining (c5 h)
    refine ⟨?_, ?_, ?_⟩
    · intro ht
      have ht0 : wrap64 (totalRemaining cardsRemaining) = 0 :=
        ht.elim (wrap64_eq_zero_of_eq_zero _) id
      rw [hfall, if_pos ht0]
    · intro ht
      apply action_of_one_test
      rw [hfall, if_neg ht]
    · intro hnn hpos hle
      obtain ⟨_, _, _, _, g5⟩ := bustRisk64_gt playerState.Cards cardsRemaining hnn hpos hle
      have e1 : wrap64 (totalRemaining cardsRemaining) = totalRemaining cardsRemaining :=
        wrap64_of_fits _ (by omega) (by omega)
      have hiff : (bustRisk64 playerState.Cards cardsRemaining).gt (roundF64 (3 / 5)) = true ↔
          bustRiskExact playerState.Cards cardsRemaining > 3 / 5 := by
        rw [g5]
        exact decide_eq_true_iff
      have hd := action_of_one_test _ _
        (show a.MakeDecision playerState gameState cardsRemaining =
          if (bustRisk64 playerState.Cards cardsRemaining).gt (roundF64 (3 / 5)) = true
            then { Action := "stand" } else { Action := "hit" } by
          rw [hfall, if_neg (by rw [e1]; omega)])
      exact ⟨hiff, hd.1.trans hiff, hd.2.trans (not_congr hiff)⟩

theorem bustRiskExact_three :
    bustRiskExact (soloPlayer [numberCard 3]).Cards remainingCounts = 0 := by
  have ht : totalRemaining remainingCounts = 10 := by decide
  have hs : safeRemaining (soloPlayer [numberCard 3]).Cards remainingCounts = 10 := by decide
  rw [bustRiskExact, ht, hs]
  norm_num

/-- Instance of C22 (amended): player 0 has 10 points and the best other player
90, so the gap is 80, and the hand shows 3 distinct values: the strategy hits. A
player alone in the game (gap 0) holding a single 3 falls through the brackets
and stands on an empty map; with ten cards remaining, none of them a 3, the risk
is 0 and it hits. -/
theorem C22_adaptive_witness :
    (adaptive.MakeDecision trailingPlayer threePlayerState remainingCounts).Action = "hit" ∧
    (adaptive.MakeDecision (soloPlayer [numberCard 3]) emptyGameState []).Action = "stand" ∧
    (adaptive.MakeDecision (soloPlayer [numberCard 3]) emptyGameState remainingCounts).Action
      = "hit" ∧
    wrap64 (roundScore trailingPlayer.Cards) = roundScore trailingPlayer.Cards ∧
    wrap64 (scoreGap trailingPlayer threePlayerState) = scoreGap trailingPlayer threePlayerState :=
  ⟨(C22_adaptive adaptive trailingPlayer threePlayerState remainingCounts).1 (by decide)
      (Or.inl (by decide)),
   ((C22_adaptive adaptive (soloPlayer [numberCard 3]) emptyGameState []).2.2.2.2.1
      (Or.inr (Or.inr ⟨by decide, by decide, by decide⟩))).1 (Or.inl (by decide)),
   ((((C22_adaptive adaptive (soloPlayer [numberCard 3]) emptyGameState
      remainingCounts).2.2.2.2.1
      (Or.inr (Or.inr ⟨by decide, by decide, by decide⟩))).2.2 (by decide) (by decide)
        (by decide)).2.2).2 (bustRiskExact_three ▸ by norm_num),
   (C22_adaptive adaptive trailingPlayer threePlayerState remainingCounts).2.2.2.2.2.1
     (by decide) (by decide),
   (C22_adaptive adaptive trailingPlayer threePlayerState remainingCounts).2.2.2.2.2.2
     (by decide) (by decide)⟩

/-! ## The remaining-card counts -/

theorem lookupCount_cons (e : Int × Int) (rest : List (Int × Int)) (v : Int) :
    lookupCount (e :: rest) v = if e.1 = v then e.2 else lookupCount rest v := by
  unfold lookupCount
  by_cases h : e.1 = v
  · simp [List.find?_cons, h]
  · simp [List.find?_cons, h]

theorem lookupCount_incrCount (m : List (Int × Int)) (k v : Int) :
    lookupCount (incrCount m k) v = lookupCount m v + (if v = k then 1 else 0) := by
  induction m with
  | nil =>
    simp only [incrCount, lookupCount_cons]
    by_cases h : k = v
    · simp [h, lookupCount]
    · have h' : ¬ v = k := fun e => h e.symm
      simp [h, h', lookupCount]
  | cons e rest ih =>
    unfold incrCount
    by_cases hk : e.1 = k
    · rw [if_pos hk, lookupCount_cons, lookupCount_cons]
      by_cases hv : e.1 = v
      · have hvk : v = k := by rw [← hv, hk]
        rw [if_pos hv, if_pos hv, if_pos hvk]
      · have hvk : ¬ v = k := fun h => hv (by rw [hk, h])
        rw [if_neg hv, if_neg hv, if_neg hvk, add_zero]
    · rw [if_neg hk, lookupCount_cons, lookupCount_cons]
      by_cases hv : e.1 = v
      · have hvk : ¬ v = k := fun h => hk (by rw [hv, h])
        rw [if_pos hv, if_pos hv, if_neg hvk, add_zero]
      · rw [if_neg hv, if_neg hv, ih]

theorem totalRemaining_incrCount (m : List (Int × Int)) (k : Int) :
    totalRemaining (incrCount m k) = totalRemaining m + 1 := by
  induction m with
  | nil => simp [incrCount, totalRemaining]
  | cons e rest ih =>
    unfold incrCount
    by_cases hk : e.1 = k
    · rw [if_pos hk]
      simp only [totalRemaining, List.map_cons, List.sum_cons]
      ring
    · rw [if_neg hk]
      simp only [totalRemaining, List.map_cons, List.sum_cons] at ih ⊢
      rw [ih]; ring

theorem keys_incrCount (m : List (Int × Int)) (k : Int) :
    (incrCount m k).map Prod.fst =
      if k ∈ m.map Prod.fst then m.map Prod.fst else m.map Prod.fst ++ [k] := by
  induction m with
  | nil => simp [incrCount]
  | cons e rest ih =>
    unfold incrCount
    by_cases hk : e.1 = k
    · rw [if_pos hk]
      simp [hk]
    · rw [if_neg hk]
      have hk' : ¬ k = e.1 := fun h => hk h.symm
      simp only [List.map_cons, ih, List.mem_cons, hk', false_or]
      split <;> simp

theorem keys_nodup_incrCount (m : List (Int × Int)) (k : Int)
    (h : (m.map Prod.fst).Nodup) : ((incrCount m k).map Prod.fst).Nodup := by
  rw [keys_incrCount]
  split
  · exact h
  · rename_i hk
    exact List.Nodup.append h (List.nodup_singleton _) (by simpa using hk)

theorem counts_pos_incrCount (m : List (Int × Int)) (k : Int)
    (h : ∀ e ∈ m, 0 < e.2) : ∀ e ∈ incrCount m k, 0 < e.2 := by
  induction m with
  | nil =>
    intro e he
    simp only [incrCount, List.mem_singleton] at he
    rw [he]; exact Int.one_pos
  | cons x rest ih =>
    intro e he
    unfold incrCount at he
    have hx := h x (List.mem_cons_self _ _)
    have hrest : ∀ e ∈ rest, 0 < e.2 := fun e he => h e (List.mem_cons_of_mem _ he)
    by_cases hk : x.1 = k
    · rw [if_pos hk] at he
      rcases List.mem_cons.mp he with rfl | he
      · simp only; omega
      · exact hrest e he
    · rw [if_neg hk] at he
      rcases List.mem_cons.mp he with rfl | he
      · exact hx
      · exact ih hrest e he

theorem foldl_remainingStep (deck : List Card) (m : List (Int × Int)) :
    (∀ v : Int, lookupCount (deck.foldl remainingStep m) v =
      lookupCount m v + (numberCardsOfValue deck v : Int)) ∧
    totalRemaining (deck.foldl remainingStep m) = totalRemaining m + (numberCardCount deck : Int) ∧
    ((m.map Prod.fst).Nodup → ((deck.foldl remainingStep m).map Prod.fst).Nodup) ∧
    ((∀ e ∈ m, 0 < e.2) → ∀ e ∈ deck.foldl remainingStep m, 0 < e.2) := by
  induction deck generalizing m with
  | nil => simp [numberCardsOfValue, numberCardCount]
  | cons c cs ih =>
    rw [List.foldl_cons]
    obtain ⟨i1, i2, i3, i4⟩ := ih (remainingStep m c)
    by_cases hn : c.CardType = "number"
    · have hstep : remainingStep m c = incrCount m c.Value := by simp [remainingStep, hn]
      rw [hstep] at i1 i2 i3 i4 ⊢
      refine ⟨?_, ?_, ?_, ?_⟩
      · intro v
        rw [i1 v, lookupCount_incrCount]
        by_cases hv : c.Value = v
        · subst hv
          simp [numberCardsOfValue, List.countP_cons, hn]
          ring
        · have hv' : ¬ v = c.Value := fun h => hv h.symm
          simp [numberCardsOfValue, List.countP_cons, hn, hv, hv']
      · rw [i2, totalRemaining_incrCount]
        simp [numberCardCount, List.countP_cons, hn]
        ring
      · intro h
        exact i3 (keys_nodup_incrCount m c.Value h)
      · intro h
        exact i4 (counts_pos_incrCount m c.Value h)
    · have hstep : remainingStep m c = m := by simp [remainingStep, hn]
      rw [hstep] at i1 i2 i3 i4 ⊢
      refine ⟨?_, ?_, i3, i4⟩
      · intro v
        rw [i1 v]
        simp [numberCardsOfValue, List.countP_cons, hn]
      · rw [i2]
        simp [numberCardCount, List.countP_cons, hn]

theorem lookupCount_of_mem (m : List (Int × Int)) (h : (m.map Prod.fst).Nodup)
    (e : Int × Int) (he : e ∈ m) : lookupCount m e.1 = e.2 := by
  induction m with
  | nil => exact absurd he (List.not_mem_nil e)
  | cons x rest ih =>
    rw [lookupCount_cons]
    simp only [List.map_cons, List.nodup_cons] at h
    rcases List.mem_cons.mp he with rfl | hrest
    · rw [if_pos rfl]
    · have hne : ¬ x.1 = e.1 := by
        intro heq
        exact h.1 (heq ▸ List.mem_map_of_mem Prod.fst hrest)
      rw [if_neg hne]
      exact ih h.2 hrest

theorem numberCardsOfValue_perm (d1 d2 : List Card) (h : d1.Perm d2) (v : Int) :
    numberCardsOfValue d1 v = numberCardsOfValue d2 v :=
  h.countP_eq _

theorem unshuffledDeck_values :
    ∀ c ∈ unshuffledDeck, c.CardType = "number" → 0 ≤ c.Value ∧ c.Value ≤ 12 := by
  decide

/-- C23: `GetCardsRemaining()[v]` is the number of cards of the deck that are
Number cards of value `v`, for every deck and every `v` (cards of another type
are not counted, whatever their `Value`); the map has one entry per value that
occurs, with that positive count; the counts add up to the number of Number
cards; and on a freshly built deck the map gives `count(v)` for `v` in 0..12 and
nothing else. -/
theorem C23_getCardsRemaining (g : Game) :
    (∀ v : Int, lookupCount (GetCardsRemaining g) v = (numberCardsOfValue g.Deck v : Int)) ∧
    ((GetCardsRemaining g).map Prod.fst).Nodup ∧
    (∀ entry ∈ GetCardsRemaining g,
      entry.2 = (numberCardsOfValue g.Deck entry.1 : Int) ∧ 0 < entry.2) ∧
    totalRemaining (GetCardsRemaining g) = (numberCardCount g.Deck : Int) ∧
    (∀ v : Nat, v ≤ 12 →
      lookupCount (GetCardsRemaining (CreateDeck g)) (v : Int) =
        if v = 0 ∨ v = 1 then 1 else (v : Int)) ∧
    (∀ v : Int, (v < 0 ∨ 12 < v) → lookupCount (GetCardsRemaining (CreateDeck g)) v = 0) := by
  have key : ∀ g' : Game,
      (∀ v : Int, lookupCount (GetCardsRemaining g') v = (numberCardsOfValue g'.Deck v : Int)) ∧
      ((GetCardsRemaining g').map Prod.fst).Nodup ∧
      (∀ e ∈ GetCardsRemaining g', 0 < e.2) ∧
      totalRemaining (GetCardsRemaining g') = (numberCardCount g'.Deck : Int) := by
    intro g'
    obtain ⟨h1, h2, h3, h4⟩ := foldl_remainingStep g'.Deck []
    refine ⟨?_, h3 List.nodup_nil, h4 (fun e he => absurd he (List.not_mem_nil e)), ?_⟩
    · intro v
      have := h1 v
      simpa [GetCardsRemaining, lookupCount] using this
    · simpa [GetCardsRemaining, totalRemaining] using h2
  obtain ⟨k1, k2, k3, k4⟩ := key g
  obtain ⟨f1, _, _, _⟩ := key (CreateDeck g)
  refine ⟨k1, k2, ?_, k4, ?_, ?_⟩
  · intro entry he
    refine ⟨?_, k3 entry he⟩
    rw [← k1 entry.1, lookupCount_of_mem _ k2 entry he]
  · intro v hv
    rw [f1, numberCardsOfValue_perm _ _ (CreateDeck_perm g)]
    interval_cases v <;> decide
  · intro v hv
    rw [f1, numberCardsOfValue_perm _ _ (CreateDeck_perm g)]
    have hz : numberCardsOfValue unshuffledDeck v = 0 := by
      unfold numberCardsOfValue
      rw [List.countP_eq_zero]
      intro c hc
      simp only [decide_eq_true_eq, not_and]
      intro hn hval
      have := unshuffledDeck_values c hc hn
      omega
    rw [hz]; rfl

/-- Instance of C23: in a deck of 7, +2, 0, 7, x2 the map holds 7 twice and 0
once; the +2 and x2 cards, whose `Value` is 0, are not counted. -/
theorem C23_getCardsRemaining_witness :
    lookupCount (GetCardsRemaining smallDeckGame) 7 = 2 ∧
    lookupCount (GetCardsRemaining smallDeckGame) 0 = 1 ∧
    totalRemaining (GetCardsRemaining smallDeckGame) = 3 ∧
    lookupCount (GetCardsRemaining (CreateDeck smallDeckGame)) ((12 : Nat) : Int) = 12 :=
  ⟨(C23_getCardsRemaining smallDeckGame).1 7,
   (C23_getCardsRemaining smallDeckGame).1 0,
   (C23_getCardsRemaining smallDeckGame).2.2.2.1,
   (C23_getCardsRemaining smallDeckGame).2.2.2.2.1 12 (by decide)⟩

/-! ## The strategies' score and their bust-risk division -/

theorem stopAtScore_run_decision (a : StopAtScoreAlgorithm) (playerState : PlayerState)
    (gameState : GameState) (cr : List (Int × Int)) :
    a.MakeDecision playerState gameState cr = (a.run playerState gameState cr).decision := by
  unfold StopAtScoreAlgorithm.MakeDecision StopAtScoreAlgorithm.run
  simp only [apply_ite StrategyRun.decision]

theorem conservative_run_decision (a : ConservativeAlgorithm) (playerState : PlayerState)
    (gameState : GameState) (cr : List (Int × Int)) :
    a.MakeDecision playerState gameState cr = (a.run playerState gameState cr).decision := by
  unfold ConservativeAlgorithm.MakeDecision ConservativeAlgorithm.run
  simp only [apply_ite StrategyRun.decision]

theorem aggressive_run_decision (a : AggressiveAlgorithm) (playerState : PlayerState)
    (gameState : GameState) (cr : List (Int × Int)) :
    a.MakeDecision playerState gameState cr = (a.run playerState gameState cr).decision := by
  unfold AggressiveAlgorithm.MakeDecision AggressiveAlgorithm.run
  simp only [apply_ite StrategyRun.decision]

theorem adaptive_run_decision (a : AdaptiveAlgorithm) (playerState : PlayerState)
    (gameState : GameState) (cr : List (Int × Int)) :
    a.MakeDecision playerState gameState cr = (a.run playerState gameState cr).decision := by
  unfold AdaptiveAlgorithm.MakeDecision AdaptiveAlgorithm.run
  simp only
  split
  · rfl
  · simp only [apply_ite StrategyRun.decision]

theorem stopAtScore_run_score (a : StopAtScoreAlgorithm) (playerState : PlayerState)
    (gameState : GameState) (cr : List (Int × Int)) :
    (a.run playerState gameState cr).score = wrap64 (roundScore playerState.Cards) := by
  unfold StopAtScoreAlgorithm.run
  simp only [apply_ite StrategyRun.score, stopAtScore_currentScore, ite_self]

theorem conservative_run_score (a : ConservativeAlgorithm) (playerState : PlayerState)
    (gameState : GameState) (cr : List (Int × Int)) :
    (a.run playerState gameState cr).score = wrap64 (roundScore playerState.Cards) := by
  unfold ConservativeAlgorithm.run
  simp only [apply_ite StrategyRun.score, foldl_conservativeStep, scoreStep_roundScore, ite_self]

theorem aggressive_run_score (a : AggressiveAlgorithm) (playerState : PlayerState)
    (gameState : GameState) (cr : List (Int × Int)) :
    (a.run playerState gameState cr).score = wrap64 (roundScore playerState.Cards) := by
  unfold AggressiveAlgorithm.run
  simp only [apply_ite StrategyRun.score, foldl_aggressiveStep, scoreStep_roundScore, ite_self]

theorem adaptive_run_score (a : AdaptiveAlgorithm) (playerState : PlayerState)
    (gameState : GameState) (cr : List (Int × Int)) :
    (a.run playerState gameState cr).score = wrap64 (roundScore playerState.Cards) := by
  unfold AdaptiveAlgorithm.run
  simp only
  split
  · simp only [foldl_adaptiveStep, scoreStep_roundScore]
  · simp only [apply_ite StrategyRun.score, foldl_adaptiveStep, scoreStep_roundScore, ite_self]

theorem conservative_run_division (a : ConservativeAlgorithm) (playerState : PlayerState)
    (gameState : GameState) (cr : List (Int × Int)) :
    (a.run playerState gameState cr).division =
      if distinctNumberCount playerState.Cards = 6 then none
      else some (wrap64 (totalRemaining cr - safeRemaining playerState.Cards cr),
        wrap64 (totalRemaining cr)) := by
  unfold ConservativeAlgorithm.run
  simp only [apply_ite StrategyRun.division, foldl_conservativeStep, conservative_sums,
    foldl_flip7Step_length, ite_self, wrap64_sub]

theorem aggressive_run_division (a : AggressiveAlgorithm) (playerState : PlayerState)
    (gameState : GameState) (cr : List (Int × Int)) :
    (a.run playerState gameState cr).division =
      if distinctNumberCount playerState.Cards ≥ 4 then none
      else if wrap64 (totalRemaining cr) = 0 then none
      else some (wrap64 (totalRemaining cr - safeRemaining playerState.Cards cr),
        wrap64 (totalRemaining cr)) := by
  unfold AggressiveAlgorithm.run
  simp only [apply_ite StrategyRun.division, foldl_aggressiveStep, aggressive_sums,
    foldl_flip7Step_length, ite_self, wrap64_sub]

theorem adaptive_run_division (a : AdaptiveAlgorithm) (playerState : PlayerState)
    (gameState : GameState) (cr : List (Int × Int)) :
    (a.run playerState gameState cr).division =
      match adaptiveBrackets (wrap64 (scoreGap playerState gameState))
          (distinctNumberCount playerState.Cards) (wrap64 (roundScore playerState.Cards)) with
      | some _ => none
      | none =>
        if wrap64 (totalRemaining cr) = 0 then none
        else some (wrap64 (totalRemaining cr - safeRemaining playerState.Cards cr),
          wrap64 (totalRemaining cr)) := by
  unfold AdaptiveAlgorithm.run
  simp only [foldl_adaptiveStep, adaptive_sums, foldl_flip7Step_length, scoreStep_roundScore,
    foldl_maxOpponentStep]
  have hgap : ((gameState.Players.filter (fun player => player.ID ≠ playerState.ID)).map
      PlayerState.GameScore).foldr max 0 - playerState.GameScore
        = scoreGap playerState gameState := rfl
  rw [hgap]
  cases adaptiveBrackets (wrap64 (scoreGap playerState gameState))
      (distinctNumberCount playerState.Cards) (wrap64 (roundScore playerState.Cards)) with
  | some d => rfl
  | none => simp only [apply_ite StrategyRun.division, ite_self, wrap64_sub]

theorem sum_filter_of_all_zero (p : Int × Int → Bool) (cr : List (Int × Int))
    (h : ∀ entry ∈ cr, entry.2 = 0) : ((cr.filter p).map Prod.snd).sum = 0 := by
  apply List.sum_eq_zero
  intro x hx
  obtain ⟨entry, he, rfl⟩ := List.mem_map.mp hx
  exact h entry (List.mem_of_mem_filter he)

theorem all_zero_of_total_zero (cr : List (Int × Int)) (hnn : ∀ entry ∈ cr, 0 ≤ entry.2)
    (h : totalRemaining cr = 0) : ∀ entry ∈ cr, entry.2 = 0 := by
  induction cr with
  | nil => intro entry he; cases he
  | cons e es ih =>
    have hsum : e.2 + totalRemaining es = 0 := by
      simpa [totalRemaining] using h
    have he0 : 0 ≤ e.2 := hnn e (List.mem_cons_self _ _)
    have hes : 0 ≤ totalRemaining es := by
      unfold totalRemaining
      apply List.sum_nonneg
      intro x hx
      obtain ⟨entry, hmem, rfl⟩ := List.mem_map.mp hx
      exact hnn entry (List.mem_cons_of_mem _ hmem)
    intro entry hmem
    rcases List.mem_cons.mp hmem with rfl | hmem
    · omega
    · exact ih (fun x hx => hnn x (List.mem_cons_of_mem _ hx)) (by omega) entry hmem

theorem conservative_zero_total (a : ConservativeAlgorithm) (playerState : PlayerState)
    (gameState : GameState) (cr : List (Int × Int)) (htotal : totalRemaining cr = 0)
    (hsafe : safeRemaining playerState.Cards cr = 0)
    (h6 : distinctNumberCount playerState.Cards ≠ 6) :
    bustRisk64 playerState.Cards cr = FloatVal.nan ∧
    a.MakeDecision playerState gameState cr = { Action := "hit" } := by
  have hb : bustRisk64 playerState.Cards cr = FloatVal.nan := by
    unfold bustRisk64
    rw [htotal, hsafe]
    rfl
  have hn : ∀ c : Rat, FloatVal.nan.gt c = false := fun _ => rfl
  refine ⟨hb, ?_⟩
  rw [conservative_unfold64, if_neg h6, hb, hn, hn,
    if_neg (fun h => Bool.false_ne_true h.2), if_neg (fun h => Bool.false_ne_true h.2)]

/-- C24: Conservative has no zero-denominator guard. With `run` the strategy
together with the operands of its bust-risk division (its decision is that of
`MakeDecision`; the operands are 64-bit integers, the numbers themselves when
they lie in the 64-bit range): when the remaining counts total 0 and the hand
does not show exactly 6 distinct Number values, `Conservative.MakeDecision`
evaluates the division with divisor 0 (dividend `0 - safe`); with counts that
are never negative that quotient is NaN and the answer is "hit".
`Aggressive.MakeDecision` and `Adaptive.MakeDecision` evaluate the division only
with a divisor equal to the total and different from 0; when the total is 0 they
evaluate no division, and they answer "stand" once past their earlier returns
(fewer than 4 distinct values for Aggressive, no bracket decision for
Adaptive). -/
theorem C24_zero_denominator (playerState : PlayerState) (gameState : GameState)
    (cardsRemaining : List (Int × Int)) :
    (∀ a : ConservativeAlgorithm,
      a.MakeDecision playerState gameState cardsRemaining =
          (a.run playerState gameState cardsRemaining).decision ∧
      (totalRemaining cardsRemaining = 0 → distinctNumberCount playerState.Cards ≠ 6 →
        (a.run playerState gameState cardsRemaining).division =
            some (wrap64 (0 - safeRemaining playerState.Cards cardsRemaining), 0) ∧
        (-2 ^ 63 ≤ 0 - safeRemaining playerState.Cards cardsRemaining →
          0 - safeRemaining playerState.Cards cardsRemaining < 2 ^ 63 →
          (a.run playerState gameState cardsRemaining).division =
            some (0 - safeRemaining playerState.Cards cardsRemaining, 0)) ∧
        ((∀ entry ∈ cardsRemaining, 0 ≤ entry.2) →
          floatDiv (wrap64 (0 - safeRemaining playerState.Cards cardsRemaining)) 0 =
            FloatVal.nan ∧
          floatDiv (0 - safeRemaining playerState.Cards cardsRemaining) 0 = FloatVal.nan ∧
          (a.MakeDecision playerState gameState cardsRemaining).Action = "hit"))) ∧
    (∀ a : AggressiveAlgorithm,
      a.MakeDecision playerState gameState cardsRemaining =
          (a.run playerState gameState cardsRemaining).decision ∧
      (∀ x y : Int, (a.run playerState gameState cardsRemaining).division = some (x, y) →
        y = wrap64 (totalRemaining cardsRemaining) ∧ y ≠ 0 ∧
        (-2 ^ 63 ≤ totalRemaining cardsRemaining → totalRemaining cardsRemaining < 2 ^ 63 →
          y = totalRemaining cardsRemaining)) ∧
      (totalRemaining cardsRemaining = 0 →
        (a.run playerState gameState cardsRemaining).division = none ∧
        (distinctNumberCount playerState.Cards < 4 →
          (a.MakeDecision playerState gameState cardsRemaining).Action = "stand"))) ∧
    (∀ a : AdaptiveAlgorithm,
      a.MakeDecision playerState gameState cardsRemaining =
          (a.run playerState gameState cardsRemaining).decision ∧
      (∀ x y : Int, (a.run playerState gameState cardsRemaining).division = some (x, y) →
        y = wrap64 (totalRemaining cardsRemaining) ∧ y ≠ 0 ∧
        (-2 ^ 63 ≤ totalRemaining cardsRemaining → totalRemaining cardsRemaining < 2 ^ 63 →
          y = totalRemaining cardsRemaining)) ∧
      (totalRemaining cardsRemaining = 0 →
        (a.run playerState gameState cardsRemaining).division = none ∧
        (adaptiveBrackets (wrap64 (scoreGap playerState gameState))
            (distinctNumberCount playerState.Cards)
            (wrap64 (roundScore playerState.Cards)) = none →
          (a.MakeDecision playerState gameState cardsRemaining).Action = "stand"))) := by
  refine ⟨?_, ?_, ?_⟩
  · intro a
    refine ⟨conservative_run_decision a playerState gameState cardsRemaining, ?_⟩
    intro htotal h6
    have hdiv : (a.run playerState gameState cardsRemaining).division =
        some (wrap64 (0 - safeRemaining playerState.Cards cardsRemaining), 0) := by
      rw [conservative_run_division, if_neg h6, htotal, wrap64_zero]
    refine ⟨hdiv, ?_, ?_⟩
    · intro h1 h2
      rw [hdiv, wrap64_of_fits _ h1 h2]
    · intro hnn
      have hsafe : safeRemaining playerState.Cards cardsRemaining = 0 :=
        sum_filter_of_all_zero _ cardsRemaining
          (all_zero_of_total_zero cardsRemaining hnn htotal)
      refine ⟨?_, ?_, ?_⟩
      · rw [hsafe]
        rfl
      · rw [hsafe]
        rfl
      · rw [(conservative_zero_total a playerState gameState cardsRemaining htotal hsafe h6).2]
  · intro a
    refine ⟨aggressive_run_decision a playerState gameState cardsRemaining, ?_, ?_⟩
    · intro x y hxy
      rw [aggressive_run_division] at hxy
      by_cases h4 : distinctNumberCount playerState.Cards ≥ 4
      · rw [if_pos h4] at hxy
        cases hxy
      · rw [if_neg h4] at hxy
        by_cases ht : wrap64 (totalRemaining cardsRemaining) = 0
        · rw [if_pos ht] at hxy
          cases hxy
        · rw [if_neg ht] at hxy
          cases hxy
          exact ⟨rfl, ht, fun h1 h2 => wrap64_of_fits _ h1 h2⟩
    · intro htotal
      constructor
      · rw [aggressive_run_division, if_pos (wrap64_eq_zero_of_eq_zero _ htotal), ite_self]
      · intro h4
        rw [aggressive_unfold64, if_neg (by omega),
          if_pos (wrap64_eq_zero_of_eq_zero _ htotal)]
  · intro a
    refine ⟨adaptive_run_decision a playerState gameState cardsRemaining, ?_, ?_⟩
    · intro x y hxy
      rw [adaptive_run_division] at hxy
      cases hb : adaptiveBrackets (wrap64 (scoreGap playerState gameState))
          (distinctNumberCount playerState.Cards)
          (wrap64 (roundScore playerState.Cards)) with
      | some d =>
        rw [hb] at hxy
        cases hxy
      | none =>
        rw [hb] at hxy
        simp only at hxy
        by_cases ht : wrap64 (totalRemaining cardsRemaining) = 0
        · rw [if_pos ht] at hxy
          cases hxy
        · rw [if_neg ht] at hxy
          cases hxy
          exact ⟨rfl, ht, fun h1 h2 => wrap64_of_fits _ h1 h2⟩
    · intro htotal
      constructor
      · rw [adaptive_run_division]
        cases adaptiveBrackets (wrap64 (scoreGap playerState gameState))
            (distinctNumberCount playerState.Cards)
            (wrap64 (roundScore playerState.Cards)) with
        | some d => rfl
        | none =>
          simp only
          rw [if_pos (wrap64_eq_zero_of_eq_zero _ htotal)]
      · intro hb
        rw [adaptive_fallthrough64 a playerState gameState cardsRemaining hb,
          if_pos (wrap64_eq_zero_of_eq_zero _ htotal)]

/-- Instance of C24: a player holding a single 5, with an empty map of remaining
counts. Conservative divides 0 by 0 and hits; Aggressive and Adaptive evaluate
no division and stand. -/
theorem C24_zero_denominator_witness :
    ((conservative.run (soloPlayer [numberCard 5]) emptyGameState []).division = some (0, 0) ∧
      (conservative.MakeDecision (soloPlayer [numberCard 5]) emptyGameState []).Action = "hit") ∧
    ((aggressive.run (soloPlayer [numberCard 5]) emptyGameState []).division = none ∧
      (aggressive.MakeDecision (soloPlayer [numberCard 5]) emptyGameState []).Action = "stand") ∧
    ((adaptive.run (soloPlayer [numberCard 5]) emptyGameState []).division = none ∧
      (adaptive.MakeDecision (soloPlayer [numberCard 5]) emptyGameState []).Action = "stand") :=
  ⟨⟨(((C24_zero_denominator (soloPlayer [numberCard 5]) emptyGameState []).1 conservative).2
        (by decide) (by decide)).2.1 (by decide) (by decide),
    ((((C24_zero_denominator (soloPlayer [numberCard 5]) emptyGameState []).1 conservative).2
        (by decide) (by decide)).2.2 (by decide)).2.2⟩,
   ⟨(((C24_zero_denominator (soloPlayer [numberCard 5]) emptyGameState []).2.1 aggressive).2.2
        (by decide)).1,
    (((C24_zero_denominator (soloPlayer [numberCard 5]) emptyGameState []).2.1 aggressive).2.2
        (by decide)).2 (by decide)⟩,
   ⟨(((C24_zero_denominator (soloPlayer [numberCard 5]) emptyGameState []).2.2 adaptive).2.2
        (by decide)).1,
    (((C24_zero_denominator (soloPlayer [numberCard 5]) emptyGameState []).2.2 adaptive).2.2
        (by decide)).2 (by decide)⟩⟩

/-- C25: the four strategies compute the same round score as the engine. With
`run` a strategy together with the value of its score variable (its decision is
that of `MakeDecision`): for every hand the scores of StopAtScore,
Conservative, Aggressive and Adaptive are all equal, namely the sum of the
Number values and bonuses, doubled with an x2 card, as a 64-bit integer (the
number itself when it lies in the 64-bit range); and for a player with a valid
id who is not bust `CalculateScore` is that score plus 15 (a 64-bit addition,
exact when the sum is below 2^63) when `HasFlip7` is true and exactly that score
when `HasFlip7` is false. -/
theorem C25_round_score_agreement :
    (∀ (playerState : PlayerState) (gameState : GameState) (cardsRemaining : List (Int × Int))
        (s : StopAtScoreAlgorithm) (c : ConservativeAlgorithm) (a : AggressiveAlgorithm)
        (d : AdaptiveAlgorithm),
      (s.MakeDecision playerState gameState cardsRemaining =
          (s.run playerState gameState cardsRemaining).decision ∧
        c.MakeDecision playerState gameState cardsRemaining =
          (c.run playerState gameState cardsRemaining).decision ∧
        a.MakeDecision playerState gameState cardsRemaining =
          (a.run playerState gameState cardsRemaining).decision ∧
        d.MakeDecision playerState gameState cardsRemaining =
          (d.run playerState gameState cardsRemaining).decision) ∧
      (s.run playerState gameState cardsRemaining).score =
        wrap64 (roundScore playerState.Cards) ∧
      (-2 ^ 63 ≤ roundScore playerState.Cards → roundScore playerState.Cards < 2 ^ 63 →
        (s.run playerState gameState cardsRemaining).score = roundScore playerState.Cards) ∧
      (c.run playerState gameState cardsRemaining).score =
        (s.run playerState gameState cardsRemaining).score ∧
      (a.run playerState gameState cardsRemaining).score =
        (s.run playerState gameState cardsRemaining).score ∧
      (d.run playerState gameState cardsRemaining).score =
        (s.run playerState gameState cardsRemaining).score) ∧
    (∀ (g : Game) (p : Int) (player : PlayerState), 0 ≤ p →
      g.Players[p.toNat]? = some player → player.IsBust = false →
      ∀ (s : StopAtScoreAlgorithm) (gameState : GameState) (cardsRemaining : List (Int × Int)),
        (HasFlip7 g p = true →
          CalculateScore g p = wrap64 ((s.run player gameState cardsRemaining).score + 15)) ∧
        (HasFlip7 g p = true →
          (s.run player gameState cardsRemaining).score + 15 < 2 ^ 63 →
          CalculateScore g p = (s.run player gameState cardsRemaining).score + 15) ∧
        (HasFlip7 g p = false →
          CalculateScore g p = (s.run player gameState cardsRemaining).score)) := by
  constructor
  · intro playerState gameState cardsRemaining s c a d
    refine ⟨⟨stopAtScore_run_decision s playerState gameState cardsRemaining,
      conservative_run_decision c playerState gameState cardsRemaining,
      aggressive_run_decision a playerState gameState cardsRemaining,
      adaptive_run_decision d playerState gameState cardsRemaining⟩, ?_, ?_, ?_, ?_, ?_⟩
    · exact stopAtScore_run_score s playerState gameState cardsRemaining
    · intro h1 h2
      rw [stopAtScore_run_score, wrap64_of_fits _ h1 h2]
    · rw [conservative_run_score, stopAtScore_run_score]
    · rw [aggressive_run_score, stopAtScore_run_score]
    · rw [adaptive_run_score, stopAtScore_run_score]
  · intro g p player h0 hp hbust s gameState cardsRemaining
    have hc := CalculateScore_roundScore g p player h0 hp
    rw [hbust] at hc
    simp only [Bool.false_eq_true, if_false] at hc
    rw [hc, stopAtScore_run_score]
    have hr := wrap64_range (roundScore player.Cards)
    refine ⟨?_, ?_, ?_⟩
    · intro hf
      rw [hf, if_pos rfl, wrap64_add_left]
    · intro hf hlt
      rw [hf, if_pos rfl, ← wrap64_add_left]
      exact wrap64_of_fits _ (by omega) hlt
    · intro hf
      rw [hf]
      simp only [Bool.false_eq_true, if_false, add_zero]

/-- Instance of C25: the hand {0,..,6,x2} of `TestFlip7Bonus` has Flip 7, the
strategies compute 42 for it and `CalculateScore` gives 42 + 15; the hand
{5,10,x2} has no Flip 7 and both give 30. -/
theorem C25_round_score_agreement_witness :
    (stopAt25.run (soloPlayer flip7BonusHand) emptyGameState []).score = 42 ∧
    CalculateScore (gameWithHand flip7BonusHand zeroRng) 0 =
      (stopAt25.run (soloPlayer flip7BonusHand) emptyGameState []).score + 15 ∧
    CalculateScore (gameWithHand [numberCard 5, numberCard 10, x2Card] zeroRng) 0 =
      (stopAt25.run (soloPlayer [numberCard 5, numberCard 10, x2Card]) emptyGameState
        []).score :=
  ⟨by decide,
   ((C25_round_score_agreement.2 (gameWithHand flip7BonusHand zeroRng) 0
      (soloPlayer flip7BonusHand) (by decide) rfl rfl) stopAt25 emptyGameState []).2.1
        (by decide) (by decide),
   ((C25_round_score_agreement.2 (gameWithHand [numberCard 5, numberCard 10, x2Card] zeroRng) 0
      (soloPlayer [numberCard 5, numberCard 10, x2Card]) (by decide) rfl rfl) stopAt25
        emptyGameState []).2.2 (by decide)⟩

/-! ## CreateDeck replaces only the deck -/

/-- C26: `CreateDeck` leaves the discard pile and the players (hence every
hand, `IsBust`, `HasStood` and `GameScore`) as they were and installs a deck of
86 cards, so deck and discard pile together hold 86 cards plus the old discard
pile. After a first round in which player 0 went bust holding a 2, that 2 is in
the discard pile, it is still there after the `CreateDeck` of the next round,
and deck plus discard pile then hold 87 cards. -/
theorem C26_createDeck_frame :
    (∀ g : Game,
      (CreateDeck g).DiscardPile = g.DiscardPile ∧
      (CreateDeck g).Players = g.Players ∧
      (∀ i : Nat,
        (CreateDeck g).Players[i]?.map PlayerState.Cards = g.Players[i]?.map PlayerState.Cards ∧
        (CreateDeck g).Players[i]?.map PlayerState.IsBust =
          g.Players[i]?.map PlayerState.IsBust ∧
        (CreateDeck g).Players[i]?.map PlayerState.HasStood =
          g.Players[i]?.map PlayerState.HasStood ∧
        (CreateDeck g).Players[i]?.map PlayerState.GameScore =
          g.Players[i]?.map PlayerState.GameScore) ∧
      (CreateDeck g).Deck.length = 86 ∧
      pileSize (CreateDeck g) = 86 + g.DiscardPile.length) ∧
    (IsRoundOver afterBustRound = true ∧
      afterBustRound.DiscardPile = [numberCard 2] ∧
      (CreateDeck afterBustRound).DiscardPile = [numberCard 2] ∧
      pileSize (CreateDeck afterBustRound) = 87 ∧
      86 < pileSize (CreateDeck afterBustRound)) := by
  have hframe : ∀ g : Game, (CreateDeck g).DiscardPile = g.DiscardPile :=
    fun g => ShuffleDeck_discard { g with Deck := unshuffledDeck }
  have hsize : ∀ g : Game, pileSize (CreateDeck g) = 86 + g.DiscardPile.length := by
    intro g
    unfold pileSize
    rw [CreateDeck_length, hframe]
  have hdiscard : afterBustRound.DiscardPile = [numberCard 2] := by decide
  refine ⟨fun g => ⟨hframe g, CreateDeck_players g, fun i => ?_, CreateDeck_length g, hsize g⟩,
    by decide, hdiscard, ?_, ?_, ?_⟩
  · rw [CreateDeck_players]
    exact ⟨rfl, rfl, rfl, rfl⟩
  · rw [hframe, hdiscard]
  · rw [hsize, hdiscard]
    rfl
  · rw [hsize, hdiscard]
    decide

end Flip7
